import Mathlib

/-!
# Retune scheduler of the bladeRF NIOS firmware (pkt_retune2.c)

A shallow embedding of the retune queues, the entry and trigger state
machines, the work routine, the timer interrupt handlers and the request
handler of `pkt_retune2.c`, followed by theorems about them.

Conventions of the embedding

* Machine integers are natural numbers; a reduction modulo `2 ^ w` is written
  where the C arithmetic can wrap.
* A pointer to an element of `q->entries` is the element's index (a natural
  number, possibly outside the array), and `none` is the NULL pointer. The
  access through the pointer is where an index outside the array faults.
* A function whose C code can run into undefined behaviour (an access outside
  `entries[16]`, a NULL dereference, an oversized shift, a copy that overruns
  its destination) returns an `Option`; `none` is that fault.
* Calls to the hardware layer are appended to a log; values read from the
  hardware (trigger control register, time tamer) are arguments.
-/

namespace Retune2

/-! ## Constants -/

/-- Capacity of a retune queue (`#define RETUNE2_QUEUE_MAX 16`). -/
abbrev RETUNE2_QUEUE_MAX : Nat := 16

/-- Return value of a refused enqueue (`#define QUEUE_FULL 0xff`). -/
abbrev QUEUE_FULL : Nat := 0xff

/-- Return value of a refused dequeue (`#define QUEUE_EMPTY 0xfe`). -/
abbrev QUEUE_EMPTY : Nat := 0xfe

/-- Line bit of the trigger control register (`(uint8_t)(1 << 3)`). -/
abbrev BLADERF_TRIGGER_REG_LINE : Nat := 8

/-! ## Data model -/

/-- State of items in the retune queue (`enum entry_state`). -/
inductive entry_state where
  | ENTRY_STATE_INVALID
  | ENTRY_STATE_NEW
  | ENTRY_STATE_SCHEDULED
  | ENTRY_STATE_READY
  | ENTRY_STATE_DONE
deriving DecidableEq, Repr

/-- State of trigger vs scheduling (`enum trigger_state`). -/
inductive trigger_state where
  | TRIGGER_IDLE
  | TRIGGER_INIT
  | TRIGGER_RUN
  | TRIGGER_DONE
deriving DecidableEq, Repr

/-- The `bladerf_module` argument: RX, TX, or any other value of the enum
(the `default:` arms). -/
inductive bladerf_module where
  | BLADERF_MODULE_RX
  | BLADERF_MODULE_TX
  | BLADERF_MODULE_OTHER
deriving DecidableEq, Repr

open entry_state trigger_state bladerf_module

/-- Modelled from the spec: the `fastlock_profile` record, whose declaration is
in a header outside this source file. The spec lists a hardware profile slot
number, an RF port selector and an RF switch (SPDT) selector; these are the
three fields the source reads and writes. -/
structure fastlock_profile where
  profile_num : Nat
  port : Nat
  spdt : Nat
deriving DecidableEq, Repr

/-- A non-NULL `fastlock_profile *`: the program only forms `&fastlocks_rx[i]`
and `&fastlocks_tx[i]`. -/
inductive profile_ref where
  | rx (i : Nat)
  | tx (i : Nat)
deriving DecidableEq, Repr

/-- One slot of a retune queue (`struct queue_entry`); `profile = none` is a
NULL profile pointer. -/
structure queue_entry where
  state : entry_state
  profile : Option profile_ref
  timestamp : Nat
deriving DecidableEq

/-- The retune queue (`struct queue`): three `uint8_t` fields and the array
`entries[RETUNE2_QUEUE_MAX]`. -/
structure queue where
  count : Nat
  ins_idx : Nat
  rem_idx : Nat
  entries : Fin RETUNE2_QUEUE_MAX → queue_entry

/-- Read of `q->entries[k]`; faults when `k` is outside the array. -/
def queue.load (q : queue) (k : Nat) : Option queue_entry :=
  if h : k < RETUNE2_QUEUE_MAX then some (q.entries ⟨k, h⟩) else none

/-- Store of a whole entry to `q->entries[k]`; faults when `k` is outside the
array. -/
def queue.store (q : queue) (k : Nat) (e : queue_entry) : Option queue :=
  if h : k < RETUNE2_QUEUE_MAX then
    some { q with entries := Function.update q.entries ⟨k, h⟩ e }
  else none

/-- Store to `q->entries[k].state`; faults when `k` is outside the array. -/
def queue.store_state (q : queue) (k : Nat) (st : entry_state) : Option queue :=
  if h : k < RETUNE2_QUEUE_MAX then
    some { q with entries :=
      Function.update q.entries ⟨k, h⟩ { q.entries ⟨k, h⟩ with state := st } }
  else none

/-! ## Queue operations -/

/-- Embedding of `enqueue_retune`: returns the queue after the call and the
`uint8_t` return value. -/
def enqueue_retune (q : queue) (p : Option profile_ref) (timestamp : Nat) :
    Option (queue × Nat) :=
  if q.count ≥ RETUNE2_QUEUE_MAX then
    some (q, QUEUE_FULL)
  else
    match q.store q.ins_idx ⟨ENTRY_STATE_NEW, p, timestamp⟩ with
    | none => none
    | some q1 =>
      let count := (q1.count + 1) % 256
      some ({ q1 with ins_idx := (q1.ins_idx + 1) &&& (RETUNE2_QUEUE_MAX - 1),
                      count := count }, count)

/-- Embedding of `dequeue_retune`. The argument `e` is the out-pointer (an
address, `none` for NULL). With a non-NULL `e` the C code runs
`memcpy(&e, &q->entries[q->rem_idx], sizeof(e[0]))`, which copies a whole entry
over the pointer variable itself: a fault. -/
def dequeue_retune (q : queue) (e : Option Nat) : Option (queue × Nat) :=
  if q.count = 0 then
    some (q, QUEUE_EMPTY)
  else if e.isSome then
    none
  else
    match q.store_state q.rem_idx ENTRY_STATE_DONE with
    | none => none
    | some q1 =>
      let count := q1.count - 1
      some ({ q1 with rem_idx := (q1.rem_idx + 1) &&& (RETUNE2_QUEUE_MAX - 1),
                      count := count }, count)

/-- Embedding of `peek_next_retune` for a non-NULL `q`: the pointer
`&q->entries[q->rem_idx]`, or NULL. -/
def peek_next_retune (q : queue) : Option Nat :=
  if q.count = 0 then none else some q.rem_idx

/-- Embedding of `peek_next_retune_offset` for a non-NULL `q`: the pointer
`&q->entries[(q->rem_idx + offset) & (RETUNE2_QUEUE_MAX - 1)]`, or NULL. -/
def peek_next_retune_offset (q : queue) (offset : Nat) : Option Nat :=
  if q.count = 0 then none
  else some ((q.rem_idx + offset) &&& (RETUNE2_QUEUE_MAX - 1))

/-- Embedding of `reset_queue`: the loop writes `ENTRY_STATE_INVALID` to the
state of each of the 16 entries and leaves their other fields. -/
def reset_queue (q : queue) : queue :=
  { count := 0
    ins_idx := 0
    rem_idx := 0
    entries := fun i => { q.entries i with state := ENTRY_STATE_INVALID } }

/-- Embedding of `retune_isr` in a build with `BLADERF_NIOS_DEBUG`: the queue
and the error counter `pkt_retune2_error_count` (a `uint32_t`) after the
call. -/
def retune_isr (q : queue) (offset : Nat) (error_count : Nat) :
    Option (queue × Nat) :=
  match peek_next_retune_offset q offset with
  | none => some (q, error_count)
  | some k =>
    match q.load k with
    | none => none
    | some e =>
      if e.state = ENTRY_STATE_SCHEDULED then
        (q.store_state k ENTRY_STATE_READY).map (fun q1 => (q1, error_count))
      else
        some (q, (error_count + 1) % 2 ^ 32)

/-! ## Hardware layer and profiles -/

/-- A call into the hardware layer, in the order the calls are made. -/
inductive hw_op where
  | adi_fastlock_load (module : bladerf_module) (p : profile_ref)
  | rfic_invalidate_frequency (module : bladerf_module)
  | adi_fastlock_recall (module : bladerf_module) (p : profile_ref)
  | adi_rfport_select (p : profile_ref)
  | adi_rfspdt_select (module : bladerf_module) (p : profile_ref)
  | tamer_schedule (module : bladerf_module) (time : Nat)
  | timer_tamer_clear_interrupt (module : bladerf_module)
deriving DecidableEq

/-- What the build supplies from outside this source file: the constants of
`nios_pkt_retune2.h` and the `BLADERF_NIOS_LIBAD936X` switch. -/
structure platform where
  NIOS_PKT_RETUNE2_NOW : Nat
  NIOS_PKT_RETUNE2_CLEAR_QUEUE : Nat
  NIOS_PKT_RETUNE2_TRIGGER_MASK : Nat
  NIOS_PKT_RETUNE2_TRIGGER_TIMESTAMP_MASK : Nat
  NIOS_PKT_RETUNE2_TRIGGER_PERIOD_MASK : Nat
  NIOS_PKT_RETUNE2_RESP_FLAG_SUCCESS : Nat
  NIOS_PKT_RETUNE2_RESP_FLAG_TSVTUNE_VALID : Nat
  BLADERF_NIOS_LIBAD936X : Bool

/-- Embedding of `profile_load`: the hardware log after the call. -/
def profile_load (module : bladerf_module) (p : Option profile_ref)
    (hw : List hw_op) : List hw_op :=
  match p with
  | none => hw
  | some r => hw ++ [hw_op.adi_fastlock_load module r]

/-- Embedding of `profile_activate`: the hardware log after the call. -/
def profile_activate (P : platform) (module : bladerf_module)
    (p : Option profile_ref) (hw : List hw_op) : List hw_op :=
  match p with
  | none => hw
  | some r =>
    (if P.BLADERF_NIOS_LIBAD936X then hw ++ [hw_op.rfic_invalidate_frequency module]
     else hw)
      ++ [hw_op.adi_fastlock_recall module r, hw_op.adi_rfport_select r,
          hw_op.adi_rfspdt_select module r]

/-- Read through a profile pointer into the tables `fastlocks_rx` and
`fastlocks_tx` (arrays of a size this source file does not fix); faults when
the pointer is outside its table. -/
def deref_profile (fastlocks_rx fastlocks_tx : List fastlock_profile) :
    profile_ref → Option fastlock_profile
  | profile_ref.rx i => fastlocks_rx[i]?
  | profile_ref.tx i => fastlocks_tx[i]?

/-- One iteration of the loop of `profile_load_scheduled`, for loop index `i`;
the accumulator holds the local `used` (a `uint8_t`) and the hardware log.
`1 << profile_num` is an `int` shift, undefined from 31 on. -/
def profile_load_scheduled_iter (fastlocks_rx fastlocks_tx : List fastlock_profile)
    (q : queue) (module : bladerf_module) (acc : Nat × List hw_op) (i : Nat) :
    Option (Nat × List hw_op) :=
  match peek_next_retune_offset q (i % 256) with
  | none => some acc
  | some k =>
    match q.load k with
    | none => none
    | some e =>
      if e.state = ENTRY_STATE_NEW then
        match e.profile with
        | none => none
        | some r =>
          match deref_profile fastlocks_rx fastlocks_tx r with
          | none => none
          | some fp =>
            if fp.profile_num ≥ 31 then none
            else if acc.1 &&& (1 <<< fp.profile_num) = 0 then
              some ((acc.1 ||| (1 <<< fp.profile_num)) % 256,
                    profile_load module e.profile acc.2)
            else some acc
      else some acc

/-- Embedding of `profile_load_scheduled` for a non-NULL `q`: the hardware log
after the call. The queue is only read. -/
def profile_load_scheduled (fastlocks_rx fastlocks_tx : List fastlock_profile)
    (q : queue) (module : bladerf_module) (hw : List hw_op) :
    Option (List hw_op) :=
  if q.count = 0 then some hw
  else
    ((List.range q.count).foldlM
      (profile_load_scheduled_iter fastlocks_rx fastlocks_tx q module) (0, hw)).map
      Prod.snd

/-! ## Trigger record and the work routine -/

/-- Struct holding all necessary info regarding trigger
(`struct trigger_state_info`): `idx` is a `uint8_t`, the others `uint64_t`. -/
structure trigger_state_info where
  state : trigger_state
  timestamp : Nat
  idx : Nat
  period : Nat
  iter : Nat
deriving DecidableEq

/-- The objects one call of `perform_work` works on: the three objects its
pointer arguments refer to (distinct at both call sites), the error counter
and the hardware log. -/
structure work_state where
  schedule_queue : queue
  trigger_queue : queue
  trigger_info : trigger_state_info
  error_count : Nat
  hw : List hw_op

/-- Which queue the pointer `e` of `perform_work` points into. -/
inductive queue_sel where
  | schedule
  | trigger
deriving DecidableEq

/-- The queue a selector names. -/
def work_state.queue_of (w : work_state) : queue_sel → queue
  | queue_sel.schedule => w.schedule_queue
  | queue_sel.trigger => w.trigger_queue

/-- Replace the queue a selector names. -/
def work_state.set_queue (w : work_state) (sel : queue_sel) (q : queue) : work_state :=
  match sel with
  | queue_sel.schedule => { w with schedule_queue := q }
  | queue_sel.trigger => { w with trigger_queue := q }

/-- The first `switch` of `perform_work` (on `trigger_info->state`): the state
after it and the pointer `e` (queue and index), `none` for NULL. The arguments
`trigger_ctl` and `now` are the values read from the trigger control register
and from `time_tamer_read`. -/
def perform_work_trigger (w : work_state) (trigger_ctl : Nat) (now : Nat) :
    Option (work_state × Option (queue_sel × Nat)) :=
  let trigger_rearmed : Bool :=
    (trigger_ctl &&& BLADERF_TRIGGER_REG_LINE) == BLADERF_TRIGGER_REG_LINE
  let trigger_fired : Bool := (trigger_ctl &&& BLADERF_TRIGGER_REG_LINE) == 0
  let ti := w.trigger_info
  match ti.state with
  | TRIGGER_INIT =>
    let ti1 := { ti with idx := 0, iter := 0 }
    if trigger_rearmed then
      some ({ w with trigger_info := { ti1 with state := TRIGGER_IDLE } }, none)
    else
      some ({ w with trigger_info := { ti1 with state := TRIGGER_RUN } },
            (peek_next_retune w.trigger_queue).map (fun k => (queue_sel.trigger, k)))
  | TRIGGER_RUN =>
    if trigger_rearmed then
      let ti1 := { ti with state := TRIGGER_IDLE }
      if ti.idx < w.trigger_queue.count then
        match peek_next_retune_offset w.trigger_queue ti.idx with
        | none => none
        | some k =>
          (w.trigger_queue.store_state k ENTRY_STATE_NEW).map
            (fun q => ({ w with trigger_info := ti1, trigger_queue := q }, none))
      else
        some ({ w with trigger_info := ti1 }, none)
    else
      let ti1 :=
        if w.trigger_queue.count = ti.idx then
          { ti with state := if ti.period = 0 then TRIGGER_DONE else ti.state,
                    idx := 0,
                    iter := (ti.iter + 1) % 2 ^ 64 }
        else ti
      some ({ w with trigger_info := ti1 },
            (peek_next_retune_offset w.trigger_queue ti1.idx).map
              (fun k => (queue_sel.trigger, k)))
  | TRIGGER_IDLE =>
    if w.trigger_queue.count ≠ 0 ∧ trigger_fired then
      some ({ w with trigger_info := { ti with state := TRIGGER_INIT, timestamp := now } },
            none)
    else
      some (w, (peek_next_retune w.schedule_queue).map (fun k => (queue_sel.schedule, k)))
  | TRIGGER_DONE =>
    some ({ w with trigger_info :=
              if trigger_rearmed then { ti with state := TRIGGER_IDLE } else ti },
          (peek_next_retune w.schedule_queue).map (fun k => (queue_sel.schedule, k)))

/-- The second `switch` of `perform_work` (on `e->state`) for a non-NULL `e`
pointing at index `k` of the queue `sel`. -/
def perform_work_entry (P : platform) (w : work_state) (module : bladerf_module)
    (sel : queue_sel) (k : Nat) : Option work_state :=
  match (w.queue_of sel).load k with
  | none => none
  | some e =>
    let direct : Bool :=
      w.trigger_info.state == TRIGGER_IDLE || w.trigger_info.state == TRIGGER_DONE
    match e.state with
    | ENTRY_STATE_NEW =>
      match (w.queue_of sel).store_state k ENTRY_STATE_SCHEDULED with
      | none => none
      | some q =>
        let w1 := (w.set_queue sel q)
        let time :=
          if direct then e.timestamp
          else (e.timestamp + w.trigger_info.timestamp
                  + w.trigger_info.iter * w.trigger_info.period) % 2 ^ 64
        some { w1 with hw := profile_load module e.profile w.hw
                              ++ [hw_op.tamer_schedule module time] }
    | ENTRY_STATE_SCHEDULED => some w
    | ENTRY_STATE_READY =>
      let w1 := { w with hw := profile_activate P module e.profile w.hw }
      if direct then
        (dequeue_retune w1.schedule_queue none).map
          (fun r => { w1 with schedule_queue := r.1 })
      else
        let w2 := { w1 with trigger_info :=
                      { w1.trigger_info with idx := (w1.trigger_info.idx + 1) % 256 } }
        ((w2.queue_of sel).store_state k ENTRY_STATE_NEW).map (w2.set_queue sel)
    | _ => some { w with error_count := (w.error_count + 1) % 2 ^ 32 }

/-- Embedding of `perform_work`. -/
def perform_work (P : platform) (w : work_state) (module : bladerf_module)
    (trigger_ctl : Nat) (now : Nat) : Option work_state :=
  match module with
  | BLADERF_MODULE_OTHER => some w
  | _ =>
    match perform_work_trigger w trigger_ctl now with
    | none => none
    | some (w1, none) => some w1
    | some (w1, some (sel, k)) => perform_work_entry P w1 module sel k

/-! ## Program state and entry points -/

/-- The file-scope objects of `pkt_retune2.c`, the two profile tables it uses,
whether the two timer interrupt handlers are registered, and the hardware
log. -/
structure globals where
  rx_queue : queue
  tx_queue : queue
  rx_trigger_queue : queue
  tx_trigger_queue : queue
  rx_trigger_info : trigger_state_info
  tx_trigger_info : trigger_state_info
  fastlocks_rx : List fastlock_profile
  fastlocks_tx : List fastlock_profile
  pkt_retune2_error_count : Nat
  rx_tamer_isr : Bool
  tx_tamer_isr : Bool
  hw : List hw_op

/-- Embedding of `retune_rx`. -/
def retune_rx (s : globals) : Option globals :=
  if s.rx_trigger_info.state = TRIGGER_IDLE ∨ s.rx_trigger_info.state = TRIGGER_DONE then
    (retune_isr s.rx_queue 0 s.pkt_retune2_error_count).map (fun r =>
      { s with rx_queue := r.1, pkt_retune2_error_count := r.2,
               hw := s.hw ++ [hw_op.timer_tamer_clear_interrupt BLADERF_MODULE_RX] })
  else
    (retune_isr s.rx_trigger_queue s.rx_trigger_info.idx s.pkt_retune2_error_count).map
      (fun r =>
      { s with rx_trigger_queue := r.1, pkt_retune2_error_count := r.2,
               hw := s.hw ++ [hw_op.timer_tamer_clear_interrupt BLADERF_MODULE_RX] })

/-- Embedding of `retune_tx`. -/
def retune_tx (s : globals) : Option globals :=
  if s.tx_trigger_info.state = TRIGGER_IDLE ∨ s.tx_trigger_info.state = TRIGGER_DONE then
    (retune_isr s.tx_queue 0 s.pkt_retune2_error_count).map (fun r =>
      { s with tx_queue := r.1, pkt_retune2_error_count := r.2,
               hw := s.hw ++ [hw_op.timer_tamer_clear_interrupt BLADERF_MODULE_TX] })
  else
    (retune_isr s.tx_trigger_queue s.tx_trigger_info.idx s.pkt_retune2_error_count).map
      (fun r =>
      { s with tx_trigger_queue := r.1, pkt_retune2_error_count := r.2,
               hw := s.hw ++ [hw_op.timer_tamer_clear_interrupt BLADERF_MODULE_TX] })

/-- Embedding of `pkt_retune2_init` (build without
`BLADERF_NIOS_PC_SIMULATION`): resets the two schedule queues and registers
the two handlers. -/
def pkt_retune2_init (s : globals) : globals :=
  { s with rx_queue := reset_queue s.rx_queue,
           tx_queue := reset_queue s.tx_queue,
           rx_tamer_isr := true,
           tx_tamer_isr := true }

/-- The RX objects as `perform_work` receives them from `pkt_retune2_work`. -/
def globals.rx_work (s : globals) : work_state :=
  ⟨s.rx_queue, s.rx_trigger_queue, s.rx_trigger_info, s.pkt_retune2_error_count, s.hw⟩

/-- The TX objects as `perform_work` receives them from `pkt_retune2_work`. -/
def globals.tx_work (s : globals) : work_state :=
  ⟨s.tx_queue, s.tx_trigger_queue, s.tx_trigger_info, s.pkt_retune2_error_count, s.hw⟩

/-- Write the RX objects back. -/
def globals.put_rx (s : globals) (w : work_state) : globals :=
  { s with rx_queue := w.schedule_queue, rx_trigger_queue := w.trigger_queue,
           rx_trigger_info := w.trigger_info,
           pkt_retune2_error_count := w.error_count, hw := w.hw }

/-- Write the TX objects back. -/
def globals.put_tx (s : globals) (w : work_state) : globals :=
  { s with tx_queue := w.schedule_queue, tx_trigger_queue := w.trigger_queue,
           tx_trigger_info := w.trigger_info,
           pkt_retune2_error_count := w.error_count, hw := w.hw }

/-- The call `perform_work(&rx_queue, &rx_trigger_queue, &rx_trigger_info,
BLADERF_MODULE_RX)`. -/
def perform_work_rx (P : platform) (s : globals) (trigger_ctl now : Nat) : Option globals :=
  (perform_work P s.rx_work BLADERF_MODULE_RX trigger_ctl now).map s.put_rx

/-- The call `perform_work(&tx_queue, &tx_trigger_queue, &tx_trigger_info,
BLADERF_MODULE_TX)`. -/
def perform_work_tx (P : platform) (s : globals) (trigger_ctl now : Nat) : Option globals :=
  (perform_work P s.tx_work BLADERF_MODULE_TX trigger_ctl now).map s.put_tx

/-- Embedding of `pkt_retune2_work`; the arguments are the values the two calls
read from the hardware. -/
def pkt_retune2_work (P : platform) (s : globals)
    (rx_trigger_ctl rx_now tx_trigger_ctl tx_now : Nat) : Option globals :=
  match perform_work_rx P s rx_trigger_ctl rx_now with
  | none => none
  | some s1 => perform_work_tx P s1 tx_trigger_ctl tx_now

/-- The fields `nios_pkt_retune2_unpack` decodes from the request buffer. -/
structure request where
  module : bladerf_module
  timestamp : Nat
  nios_profile : Nat
  rffe_profile : Nat
  port : Nat
  spdt : Nat

/-- The fields `nios_pkt_retune2_resp_pack` encodes into the response buffer. -/
structure response where
  duration : Nat
  flags : Nat
deriving DecidableEq

/-- The update of the profile record in `pkt_retune2`
(`profile->profile_num = rffe_profile; ...`); faults when `nios_profile` is
outside the table. -/
def update_profile (tbl : List fastlock_profile) (req : request) :
    Option (List fastlock_profile) :=
  if req.nios_profile < tbl.length then
    some (tbl.set req.nios_profile ⟨req.rffe_profile, req.port, req.spdt⟩)
  else none

/-- The branch of `pkt_retune2` for a trigger-tagged timestamp word: the state
after it and `status`. -/
def pkt_retune2_trigger (P : platform) (s : globals) (req : request)
    (profile : Option profile_ref) : Option (globals × Int) :=
  let relative_timestamp := req.timestamp &&& P.NIOS_PKT_RETUNE2_TRIGGER_TIMESTAMP_MASK
  let period := (req.timestamp &&& P.NIOS_PKT_RETUNE2_TRIGGER_PERIOD_MASK) >>> 16
  match req.module with
  | BLADERF_MODULE_RX =>
    match enqueue_retune s.rx_trigger_queue profile relative_timestamp with
    | none => none
    | some (q, _) =>
      match profile_load_scheduled s.fastlocks_rx s.fastlocks_tx q BLADERF_MODULE_RX s.hw with
      | none => none
      | some hw =>
        let ti := if period ≠ (2 <<< 15) - 1 then { s.rx_trigger_info with period := period }
                  else s.rx_trigger_info
        some ({ s with rx_trigger_queue := q, hw := hw, rx_trigger_info := ti },
              (ti.state.toCtorIdx : Int))
  | BLADERF_MODULE_TX =>
    match enqueue_retune s.tx_trigger_queue profile relative_timestamp with
    | none => none
    | some (q, _) =>
      match profile_load_scheduled s.fastlocks_rx s.fastlocks_tx q BLADERF_MODULE_TX s.hw with
      | none => none
      | some hw =>
        let ti := if period ≠ (2 <<< 15) - 1 then { s.tx_trigger_info with period := period }
                  else s.tx_trigger_info
        some ({ s with tx_trigger_queue := q, hw := hw, tx_trigger_info := ti },
              (ti.state.toCtorIdx : Int))
  | BLADERF_MODULE_OTHER =>
    some ({ s with pkt_retune2_error_count := (s.pkt_retune2_error_count + 1) % 2 ^ 32 }, -1)

/-- The branch of `pkt_retune2` for a plain timestamp word: the state after it
and `status`. -/
def pkt_retune2_plain (s : globals) (req : request)
    (profile : Option profile_ref) : Option (globals × Int) :=
  match req.module with
  | BLADERF_MODULE_RX =>
    match enqueue_retune s.rx_queue profile req.timestamp with
    | none => none
    | some (q, queue_size) =>
      match profile_load_scheduled s.fastlocks_rx s.fastlocks_tx q BLADERF_MODULE_RX s.hw with
      | none => none
      | some hw =>
        some ({ s with rx_queue := q, hw := hw }, if queue_size = QUEUE_FULL then -1 else 0)
  | BLADERF_MODULE_TX =>
    match enqueue_retune s.tx_queue profile req.timestamp with
    | none => none
    | some (q, queue_size) =>
      match profile_load_scheduled s.fastlocks_rx s.fastlocks_tx q BLADERF_MODULE_TX s.hw with
      | none => none
      | some hw =>
        some ({ s with tx_queue := q, hw := hw }, if queue_size = QUEUE_FULL then -1 else 0)
  | BLADERF_MODULE_OTHER =>
    some ({ s with pkt_retune2_error_count := (s.pkt_retune2_error_count + 1) % 2 ^ 32 }, -1)

/-- Embedding of `pkt_retune2` on the decoded request; `start_time` and
`end_time` are the two values read from `time_tamer_read`. -/
def pkt_retune2 (P : platform) (s : globals) (req : request)
    (start_time end_time : Nat) : Option (globals × response) :=
  let flags := P.NIOS_PKT_RETUNE2_RESP_FLAG_SUCCESS
  -- profile pointer and the update of the profile record
  let located : Option (globals × Option profile_ref) :=
    match req.module with
    | BLADERF_MODULE_RX =>
      (update_profile s.fastlocks_rx req).map (fun t =>
        ({ s with fastlocks_rx := t }, some (profile_ref.rx req.nios_profile)))
    | BLADERF_MODULE_TX =>
      (update_profile s.fastlocks_tx req).map (fun t =>
        ({ s with fastlocks_tx := t }, some (profile_ref.tx req.nios_profile)))
    | BLADERF_MODULE_OTHER =>
      some ({ s with pkt_retune2_error_count := (s.pkt_retune2_error_count + 1) % 2 ^ 32 },
            none)
  match located with
  | none => none
  | some (s1, profile) =>
    let branch : Option (globals × Int × Nat) :=
      if req.timestamp = P.NIOS_PKT_RETUNE2_NOW then
        match req.module with
        | BLADERF_MODULE_OTHER =>
          some ({ s1 with pkt_retune2_error_count :=
                            (s1.pkt_retune2_error_count + 1) % 2 ^ 32 }, -1, flags)
        | m =>
          some ({ s1 with hw := profile_activate P m profile (profile_load m profile s1.hw) },
                0, flags ||| P.NIOS_PKT_RETUNE2_RESP_FLAG_TSVTUNE_VALID)
      else if req.timestamp = P.NIOS_PKT_RETUNE2_CLEAR_QUEUE then
        match req.module with
        | BLADERF_MODULE_RX =>
          some ({ s1 with rx_queue := reset_queue s1.rx_queue,
                          rx_trigger_queue := reset_queue s1.rx_trigger_queue }, 0, flags)
        | BLADERF_MODULE_TX =>
          some ({ s1 with tx_queue := reset_queue s1.tx_queue,
                          tx_trigger_queue := reset_queue s1.tx_trigger_queue }, 0, flags)
        | BLADERF_MODULE_OTHER =>
          some ({ s1 with pkt_retune2_error_count :=
                            (s1.pkt_retune2_error_count + 1) % 2 ^ 32 }, -1, flags)
      else if req.timestamp &&& P.NIOS_PKT_RETUNE2_TRIGGER_MASK
                = P.NIOS_PKT_RETUNE2_TRIGGER_MASK then
        (pkt_retune2_trigger P s1 req profile).map (fun r => (r.1, r.2, flags))
      else
        (pkt_retune2_plain s1 req profile).map (fun r => (r.1, r.2, flags))
    match branch with
    | none => none
    | some (s2, status, flags1) =>
      let duration := (end_time + 2 ^ 64 - start_time % 2 ^ 64) % 2 ^ 64
      let flags2 :=
        if status ≠ 0 then flags1 &&& (0xff ^^^ P.NIOS_PKT_RETUNE2_RESP_FLAG_SUCCESS)
        else flags1
      some (s2, ⟨duration, flags2⟩)

/-! ## Sequences of queue calls -/

/-- A call of one of the two queue operations; `dequeue_retune` is called with
a NULL out-pointer. -/
inductive queue_call where
  | enqueue (p : Option profile_ref) (timestamp : Nat)
  | dequeue
deriving DecidableEq

/-- The queue after one call and the value the call returns. -/
def queue_call.run (q : queue) : queue_call → Option (queue × Nat)
  | queue_call.enqueue p t => enqueue_retune q p t
  | queue_call.dequeue => dequeue_retune q none

/-- Run a sequence of calls from `q`: the final queue and, per call in order,
the call paired with its return value. -/
def run_calls (q : queue) : List queue_call → Option (queue × List (queue_call × Nat))
  | [] => some (q, [])
  | c :: cs =>
    match c.run q with
    | none => none
    | some (q1, r) => (run_calls q1 cs).map (fun x => (x.1, (c, r) :: x.2))

/-- Whether a call with its return value is an enqueue that succeeded. -/
def enqueue_succeeded : queue_call × Nat → Bool
  | (queue_call.enqueue _ _, r) => r != QUEUE_FULL
  | (queue_call.dequeue, _) => false

/-- Whether a call with its return value is a dequeue that succeeded. -/
def dequeue_succeeded : queue_call × Nat → Bool
  | (queue_call.enqueue _ _, _) => false
  | (queue_call.dequeue, r) => r != QUEUE_EMPTY

/-- The ring-buffer invariant of a queue. -/
def queue_ok (q : queue) : Prop :=
  q.count ≤ 16 ∧ q.ins_idx < 16 ∧ q.rem_idx < 16 ∧ q.ins_idx = (q.rem_idx + q.count) % 16

instance (q : queue) : Decidable (queue_ok q) := by
  unfold queue_ok
  infer_instance

/-! ## Steps of the program and reachable states -/

/-- Names of the four queues of the program. -/
inductive queue_id where
  | rx_queue
  | tx_queue
  | rx_trigger_queue
  | tx_trigger_queue
deriving DecidableEq

/-- The queue a name stands for. -/
def globals.get_queue (s : globals) : queue_id → queue
  | queue_id.rx_queue => s.rx_queue
  | queue_id.tx_queue => s.tx_queue
  | queue_id.rx_trigger_queue => s.rx_trigger_queue
  | queue_id.tx_trigger_queue => s.tx_trigger_queue

/-- Replace the queue a name stands for. -/
def globals.set_queue (s : globals) (i : queue_id) (q : queue) : globals :=
  match i with
  | queue_id.rx_queue => { s with rx_queue := q }
  | queue_id.tx_queue => { s with tx_queue := q }
  | queue_id.rx_trigger_queue => { s with rx_trigger_queue := q }
  | queue_id.tx_trigger_queue => { s with tx_trigger_queue := q }

/-- The trigger record as its static initialiser leaves it. -/
def initial_trigger_info : trigger_state_info := ⟨TRIGGER_IDLE, 0, 0, 0, 0⟩

/-- The states the program can start from: every queue is a reset queue, the
trigger records are as their static initialisers leave them, no error is
counted, no handler is registered and no hardware call is made yet. The
profile tables are arbitrary. -/
def initial (s : globals) : Prop :=
  (∀ i, ∃ q0, s.get_queue i = reset_queue q0) ∧
  s.rx_trigger_info = initial_trigger_info ∧
  s.tx_trigger_info = initial_trigger_info ∧
  s.pkt_retune2_error_count = 0 ∧
  s.rx_tamer_isr = false ∧ s.tx_tamer_isr = false ∧ s.hw = []

/-- One step of the program, run to completion: an entry point of the file
(`pkt_retune2_init`, one `perform_work` call of `pkt_retune2_work`, a timer
interrupt handler, `pkt_retune2` on a request), or one of the queue
operations applied to one of the four queues. A step exists only where the
embedded function returns a result. -/
inductive step (P : platform) : globals → globals → Prop where
  | init (s : globals) : step P s (pkt_retune2_init s)
  | work_rx (s s1 : globals) (trigger_ctl now : Nat) :
      perform_work_rx P s trigger_ctl now = some s1 → step P s s1
  | work_tx (s s1 : globals) (trigger_ctl now : Nat) :
      perform_work_tx P s trigger_ctl now = some s1 → step P s s1
  | isr_rx (s s1 : globals) : retune_rx s = some s1 → step P s s1
  | isr_tx (s s1 : globals) : retune_tx s = some s1 → step P s s1
  | pkt (s s1 : globals) (req : request) (start_time end_time : Nat) (resp : response) :
      pkt_retune2 P s req start_time end_time = some (s1, resp) → step P s s1
  | enqueue (s : globals) (i : queue_id) (p : Option profile_ref) (t : Nat)
      (q : queue) (r : Nat) :
      enqueue_retune (s.get_queue i) p t = some (q, r) → step P s (s.set_queue i q)
  | dequeue (s : globals) (i : queue_id) (q : queue) (r : Nat) :
      dequeue_retune (s.get_queue i) none = some (q, r) → step P s (s.set_queue i q)
  | reset (s : globals) (i : queue_id) : step P s (s.set_queue i (reset_queue (s.get_queue i)))
  | isr (s : globals) (i : queue_id) (offset : Nat) (q : queue) (n : Nat) :
      retune_isr (s.get_queue i) offset s.pkt_retune2_error_count = some (q, n) →
      step P s { s.set_queue i q with pkt_retune2_error_count := n }

/-- The states reachable from an initial state by any sequence of steps. -/
inductive reachable (P : platform) : globals → Prop where
  | start (s : globals) : initial s → reachable P s
  | next (s s1 : globals) : reachable P s → step P s s1 → reachable P s1

/-- The ring invariant on all four queues of a state. -/
def all_ok (s : globals) : Prop :=
  queue_ok s.rx_queue ∧ queue_ok s.tx_queue ∧
  queue_ok s.rx_trigger_queue ∧ queue_ok s.tx_trigger_queue

/-! ## The two channels -/

/-- The two channels that have queues: RX and TX. -/
inductive channel where
  | rx
  | tx
deriving DecidableEq

/-- The `bladerf_module` value of a channel. -/
def channel.module : channel → bladerf_module
  | channel.rx => BLADERF_MODULE_RX
  | channel.tx => BLADERF_MODULE_TX

/-- The schedule queue of a channel (`rx_queue`, `tx_queue`). -/
def globals.schedule_queue (s : globals) : channel → queue
  | channel.rx => s.rx_queue
  | channel.tx => s.tx_queue

/-- The trigger queue of a channel (`rx_trigger_queue`, `tx_trigger_queue`). -/
def globals.trigger_queue (s : globals) : channel → queue
  | channel.rx => s.rx_trigger_queue
  | channel.tx => s.tx_trigger_queue

/-- The trigger record of a channel (`rx_trigger_info`, `tx_trigger_info`). -/
def globals.trigger_info (s : globals) : channel → trigger_state_info
  | channel.rx => s.rx_trigger_info
  | channel.tx => s.tx_trigger_info

/-- The profile table of a channel (`fastlocks_rx`, `fastlocks_tx`). -/
def globals.fastlocks (s : globals) : channel → List fastlock_profile
  | channel.rx => s.fastlocks_rx
  | channel.tx => s.fastlocks_tx

/-- The state after `pkt_retune2` has written the request's slot, port and
switch values into the profile record the request names. -/
def globals.with_profile (s : globals) (req : request) : globals :=
  match req.module with
  | BLADERF_MODULE_RX =>
    { s with fastlocks_rx :=
        s.fastlocks_rx.set req.nios_profile ⟨req.rffe_profile, req.port, req.spdt⟩ }
  | BLADERF_MODULE_TX =>
    { s with fastlocks_tx :=
        s.fastlocks_tx.set req.nios_profile ⟨req.rffe_profile, req.port, req.spdt⟩ }
  | BLADERF_MODULE_OTHER => s

/-- What `profile_load_scheduled` needs of a queue to stay clear of a fault
whichever entries it visits: every New entry has a non-NULL profile pointer
inside its table, with a slot number the `int` shift can take. -/
def preload_safe (fastlocks_rx fastlocks_tx : List fastlock_profile) (q : queue) : Prop :=
  ∀ i : Fin 16, (q.entries i).state = ENTRY_STATE_NEW →
    ∃ r fp, (q.entries i).profile = some r ∧
      deref_profile fastlocks_rx fastlocks_tx r = some fp ∧ fp.profile_num < 31

/-! ## The interrupt handler of a channel -/

/-- The timer interrupt handler of a channel (`retune_rx`, `retune_tx`). -/
def retune (ch : channel) (s : globals) : Option globals :=
  match ch with
  | channel.rx => retune_rx s
  | channel.tx => retune_tx s

/-- The queue the handler of a channel passes to `retune_isr`: the schedule
queue when the trigger state is Idle or Done, the trigger queue otherwise. -/
def isr_queue (s : globals) (ch : channel) : queue_id :=
  if (s.trigger_info ch).state = TRIGGER_IDLE ∨ (s.trigger_info ch).state = TRIGGER_DONE then
    match ch with
    | channel.rx => queue_id.rx_queue
    | channel.tx => queue_id.tx_queue
  else
    match ch with
    | channel.rx => queue_id.rx_trigger_queue
    | channel.tx => queue_id.tx_trigger_queue

/-- The offset the handler of a channel passes to `retune_isr`: 0 with the
schedule queue, the cursor with the trigger queue. -/
def isr_offset (s : globals) (ch : channel) : Nat :=
  if (s.trigger_info ch).state = TRIGGER_IDLE ∨ (s.trigger_info ch).state = TRIGGER_DONE then 0
  else (s.trigger_info ch).idx

/-! ## What the preloader is to load -/

/-- The entry the loop of `profile_load_scheduled` looks at for loop index `i`:
the entry at offset `i` from the queue head. -/
def queue.visited (q : queue) (i : Nat) : queue_entry :=
  q.entries ⟨(q.rem_idx + i) % 16, Nat.mod_lt _ (by decide)⟩

/-- The slot number of an entry's profile, when the profile pointer can be
read. -/
def entry_slot (fastlocks_rx fastlocks_tx : List fastlock_profile) (e : queue_entry) :
    Option Nat :=
  match e.profile with
  | none => none
  | some r => (deref_profile fastlocks_rx fastlocks_tx r).map fastlock_profile.profile_num

/-- Whether an earlier New entry, counting from the queue head, has the same
slot number as the entry at offset `i`. -/
def earlier_same_slot (fastlocks_rx fastlocks_tx : List fastlock_profile) (q : queue)
    (i : Nat) : Bool :=
  (List.range i).any (fun j =>
    decide ((q.visited j).state = ENTRY_STATE_NEW) &&
    decide (entry_slot fastlocks_rx fastlocks_tx (q.visited j)
              = entry_slot fastlocks_rx fastlocks_tx (q.visited i)))

/-- The preloader as the specification words it: the offsets, in queue order,
of the New entries that no earlier New entry shares its slot number with. -/
def preload_spec (fastlocks_rx fastlocks_tx : List fastlock_profile) (q : queue) : List Nat :=
  (List.range q.count).filter (fun i =>
    decide ((q.visited i).state = ENTRY_STATE_NEW) &&
    !earlier_same_slot fastlocks_rx fastlocks_tx q i)

/-! ## Relations between a queue before and after an operation -/

/-- No entry is Ready in `q1` unless it was Ready in `q`. -/
def quiet (q q1 : queue) : Prop :=
  ∀ i : Fin 16, (q1.entries i).state = ENTRY_STATE_READY →
    (q.entries i).state = ENTRY_STATE_READY

/-- The same on all four queues of the program. -/
def all_quiet (s s1 : globals) : Prop :=
  quiet s.rx_queue s1.rx_queue ∧ quiet s.tx_queue s1.tx_queue ∧
  quiet s.rx_trigger_queue s1.rx_trigger_queue ∧
  quiet s.tx_trigger_queue s1.tx_trigger_queue

/-! ## The queue as a first-in-first-out list -/

/-- The (profile, timestamp) pair an entry holds. -/
def entry_pair (e : queue_entry) : Option profile_ref × Nat := (e.profile, e.timestamp)

/-- The pairs enqueued successfully in a run of calls, in enqueue order. -/
def enqueued_pairs (tr : List (queue_call × Nat)) : List (Option profile_ref × Nat) :=
  tr.filterMap (fun x =>
    match x with
    | (queue_call.enqueue p t, r) => if r = QUEUE_FULL then none else some (p, t)
    | (queue_call.dequeue, _) => none)

/-- The list the specification speaks of: the pairs enqueued successfully and
not yet dequeued, in enqueue order; each successful dequeue takes the oldest
one away. -/
def pending (tr : List (queue_call × Nat)) : List (Option profile_ref × Nat) :=
  (enqueued_pairs tr).drop (tr.countP dequeue_succeeded)

/-! ## Runs of the program -/

/-- What can happen to the program, one at a time: a `perform_work` call of
`pkt_retune2_work` (with the values it reads from the trigger control register
and the clock), a timer interrupt, a request to `pkt_retune2` (with the two
clock values it reads). -/
inductive event where
  | work_rx (trigger_ctl now : Nat)
  | work_tx (trigger_ctl now : Nat)
  | isr_rx
  | isr_tx
  | pkt (req : request) (start_time end_time : Nat)

/-- The state after one event. -/
def event.run (P : platform) (s : globals) : event → Option globals
  | event.work_rx trigger_ctl now => perform_work_rx P s trigger_ctl now
  | event.work_tx trigger_ctl now => perform_work_tx P s trigger_ctl now
  | event.isr_rx => retune_rx s
  | event.isr_tx => retune_tx s
  | event.pkt req start_time end_time =>
    (pkt_retune2 P s req start_time end_time).map Prod.fst

/-- The state after a sequence of events, run one after the other. -/
def run_events (P : platform) (s : globals) : List event → Option globals
  | [] => some s
  | e :: es =>
    match e.run P s with
    | none => none
    | some s1 => run_events P s1 es

/-! ## The cursor and the trigger queue -/

/-- The cursor of a channel is within the count of its trigger queue while the
trigger state is Run. -/
def cursor_bound (s : globals) (ch : channel) : Prop :=
  (s.trigger_info ch).state = TRIGGER_RUN →
    (s.trigger_info ch).idx ≤ (s.trigger_queue ch).count

/-- Whether an event, arriving in state `s`, is a request that takes the
CLEAR_QUEUE branch of `pkt_retune2` for the channel `ch` while that channel is
in Run with a non-zero cursor. The NOW test comes first in the source, so a
timestamp word equal to both sentinels does not count. -/
def clear_hits_cursor (P : platform) (ch : channel) (s : globals) : event → Prop
  | event.pkt req _ _ =>
    req.timestamp ≠ P.NIOS_PKT_RETUNE2_NOW ∧
    req.timestamp = P.NIOS_PKT_RETUNE2_CLEAR_QUEUE ∧
    req.module = ch.module ∧
    (s.trigger_info ch).state = TRIGGER_RUN ∧ (s.trigger_info ch).idx ≠ 0
  | _ => False

instance (P : platform) (ch : channel) (s : globals) (e : event) :
    Decidable (clear_hits_cursor P ch s e) := by
  cases e <;> (simp only [clear_hits_cursor]; infer_instance)

/-- No event of the run from `s` is a CLEAR_QUEUE request that hits the channel
`ch` in Run with a non-zero cursor; each event is judged in the state it
arrives in. -/
def clears_safe (P : platform) (ch : channel) : globals → List event → Prop
  | _, [] => True
  | s, e :: es =>
    ¬ clear_hits_cursor P ch s e ∧
    match e.run P s with
    | none => True
    | some s1 => clears_safe P ch s1 es

instance clears_safe_decidable (P : platform) (ch : channel) :
    (s : globals) → (es : List event) → Decidable (clears_safe P ch s es)
  | _, [] => isTrue trivial
  | s, e :: es =>
    have rest : Decidable (match e.run P s with
        | none => True
        | some s1 => clears_safe P ch s1 es) :=
      match e.run P s with
      | none => isTrue trivial
      | some s1 => clears_safe_decidable P ch s1 es
    @instDecidableAnd _ _ inferInstance rest

/-- From `s` to `s1` the trigger state and the cursor of each channel are kept
and no trigger queue loses an entry. -/
def cursor_kept (s s1 : globals) : Prop :=
  ∀ ch : channel, (s1.trigger_info ch).state = (s.trigger_info ch).state ∧
    (s1.trigger_info ch).idx = (s.trigger_info ch).idx ∧
    (s.trigger_queue ch).count ≤ (s1.trigger_queue ch).count

/-! ## Live entries of a schedule queue -/

/-- The entries in use of a queue, the ones at offsets `0 .. count - 1` from
`rem_idx`, are each New, Scheduled or Ready, and each one other than the head
is New. -/
def schedule_live (q : queue) : Prop :=
  ∀ i, i < q.count →
    ((q.visited i).state = ENTRY_STATE_NEW ∨ (q.visited i).state = ENTRY_STATE_SCHEDULED ∨
      (q.visited i).state = ENTRY_STATE_READY) ∧
    (i ≠ 0 → (q.visited i).state = ENTRY_STATE_NEW)

/-- Both schedule queues of a state satisfy `schedule_live`. -/
def all_live (s : globals) : Prop :=
  ∀ ch : channel, schedule_live (s.schedule_queue ch)

/-- The objects of a channel as `perform_work` receives them from
`pkt_retune2_work`. -/
def globals.work (s : globals) : channel → work_state
  | channel.rx => s.rx_work
  | channel.tx => s.tx_work

/-! ## Concrete states used by the closed theorems -/

/-- The zero-initialised entry of static storage. -/
def zero_entry : queue_entry := ⟨ENTRY_STATE_INVALID, none, 0⟩

/-- The zero-initialised queue of static storage. -/
def zero_queue : queue := ⟨0, 0, 0, fun _ => zero_entry⟩

/-- An empty queue whose insertion index is outside the array. -/
def queue_ins_out : queue := ⟨0, 16, 0, fun _ => zero_entry⟩

/-- A queue holding one entry, in slot 0. -/
def queue_one : queue :=
  ⟨1, 1, 0, Function.update (fun _ => zero_entry) 0 ⟨ENTRY_STATE_NEW, some (profile_ref.rx 0), 7⟩⟩

/-- A choice of the header constants, to evaluate the functions on concrete
inputs: NOW is 0, CLEAR_QUEUE is all ones, the trigger tag is the upper 32
bits, the relative timestamp the low 16 bits and the period the next 16. -/
def sample_platform : platform :=
  { NIOS_PKT_RETUNE2_NOW := 0
    NIOS_PKT_RETUNE2_CLEAR_QUEUE := 0xffffffffffffffff
    NIOS_PKT_RETUNE2_TRIGGER_MASK := 0xffffffff00000000
    NIOS_PKT_RETUNE2_TRIGGER_TIMESTAMP_MASK := 0xffff
    NIOS_PKT_RETUNE2_TRIGGER_PERIOD_MASK := 0xffff0000
    NIOS_PKT_RETUNE2_RESP_FLAG_SUCCESS := 2
    NIOS_PKT_RETUNE2_RESP_FLAG_TSVTUNE_VALID := 1
    BLADERF_NIOS_LIBAD936X := true }

/-- The program state at start, with two one-element profile tables. -/
def zero_globals : globals :=
  { rx_queue := reset_queue zero_queue
    tx_queue := reset_queue zero_queue
    rx_trigger_queue := reset_queue zero_queue
    tx_trigger_queue := reset_queue zero_queue
    rx_trigger_info := initial_trigger_info
    tx_trigger_info := initial_trigger_info
    fastlocks_rx := [⟨0, 0, 0⟩]
    fastlocks_tx := [⟨0, 0, 0⟩]
    pkt_retune2_error_count := 0
    rx_tamer_isr := false
    tx_tamer_isr := false
    hw := [] }

/-- The RX schedule queue after one enqueue on the start state. -/
def queue_after_enqueue : queue :=
  ⟨1, 1, 0, Function.update (reset_queue zero_queue).entries ⟨0, by decide⟩
    ⟨ENTRY_STATE_NEW, some (profile_ref.rx 0), 1000⟩⟩

/-- A queue holding one entry, in slot 0, for which the timer is scheduled. -/
def queue_scheduled : queue :=
  ⟨1, 1, 0, Function.update (fun _ => zero_entry) 0
    ⟨ENTRY_STATE_SCHEDULED, some (profile_ref.tx 0), 7⟩⟩

/-- A state in which the TX channel runs a trigger cycle: one entry in the TX
trigger queue, the TX trigger state Run, and a scheduled retune at the head of
the TX schedule queue. -/
def tx_running_globals : globals :=
  { zero_globals with
      tx_queue := queue_scheduled
      tx_trigger_queue := queue_one
      tx_trigger_info := ⟨TRIGGER_RUN, 100, 0, 5, 0⟩ }

/-- A CLEAR_QUEUE request for TX under `sample_platform`. -/
def tx_clear_request : request := ⟨BLADERF_MODULE_TX, 0xffffffffffffffff, 0, 0, 0, 0⟩

/-- A full queue: 16 New entries with the same RX profile. -/
def queue_full : queue :=
  ⟨16, 0, 0, fun _ => ⟨ENTRY_STATE_NEW, some (profile_ref.rx 0), 7⟩⟩

/-- A state whose RX schedule queue and RX trigger queue are full, with the RX
trigger state Idle. -/
def rx_full_globals : globals :=
  { zero_globals with
      rx_queue := queue_full
      rx_trigger_queue := queue_full }

/-- A trigger-tagged request for RX under `sample_platform`: period 5,
relative timestamp 1. -/
def rx_trigger_request : request := ⟨BLADERF_MODULE_RX, 0xffffffff00050001, 0, 0, 0, 0⟩

/-- A plain request for RX under `sample_platform`, for time 1000. -/
def rx_plain_request : request := ⟨BLADERF_MODULE_RX, 1000, 0, 0, 0, 0⟩

/-- A queue holding one entry whose removal index is outside the array. -/
def queue_rem_out : queue := ⟨1, 1, 16, fun _ => zero_entry⟩

/-- A CLEAR_QUEUE request for TX naming a profile outside the one-element
table. -/
def tx_clear_request_outside : request :=
  ⟨BLADERF_MODULE_TX, 0xffffffffffffffff, 1, 0, 0, 0⟩

/-- A plain request for RX naming a profile outside the one-element table. -/
def rx_plain_request_outside : request := ⟨BLADERF_MODULE_RX, 1000, 1, 0, 0, 0⟩

/-- A plain request for RX that sets the slot number of profile 0 to 40. -/
def rx_plain_request_slot40 : request := ⟨BLADERF_MODULE_RX, 1000, 0, 40, 0, 0⟩

/-- The objects of a channel in the start state, with one New entry in the
schedule queue. -/
def work_one : work_state := ⟨queue_one, zero_queue, initial_trigger_info, 0, []⟩

/-- A trigger queue of three New entries. -/
def queue_three : queue :=
  ⟨3, 3, 0, fun i =>
    if i.val < 3 then ⟨ENTRY_STATE_NEW, some (profile_ref.rx 0), 10 * (i.val + 1)⟩
    else zero_entry⟩

/-- A channel in Run with period 5 whose three trigger entries have all been
retired in this pass: the cursor equals the count. -/
def work_wrap : work_state := ⟨zero_queue, queue_three, ⟨TRIGGER_RUN, 100, 3, 5, 0⟩, 0, []⟩

/-- A channel in Idle with three entries in its trigger queue. -/
def work_idle_three : work_state :=
  ⟨zero_queue, queue_three, initial_trigger_info, 0, []⟩

/-- A channel in Run at cursor 1 of three trigger entries, the entry at the
cursor being Scheduled. -/
def work_run_scheduled : work_state :=
  ⟨zero_queue,
   ⟨3, 3, 0, Function.update queue_three.entries 1
      ⟨ENTRY_STATE_SCHEDULED, some (profile_ref.rx 0), 20⟩⟩,
   ⟨TRIGGER_RUN, 100, 1, 5, 0⟩, 0, []⟩

/-- A channel in Run whose only trigger entry has been retired: the cursor
equals the count, and the slot at the cursor holds no entry. -/
def work_run_retired : work_state :=
  ⟨zero_queue, queue_one, ⟨TRIGGER_RUN, 100, 1, 5, 0⟩, 0, []⟩

/-- A queue of two New entries with the same RX profile. -/
def queue_two : queue :=
  ⟨2, 2, 0, fun i =>
    if i.val < 2 then ⟨ENTRY_STATE_NEW, some (profile_ref.rx 0), 10 * (i.val + 1)⟩
    else zero_entry⟩

/-- A queue holding one New entry whose profile pointer is NULL. -/
def queue_null_profile : queue :=
  ⟨1, 1, 0, Function.update (fun _ => zero_entry) 0 ⟨ENTRY_STATE_NEW, none, 7⟩⟩

/-- The start state with one Scheduled entry at the head of the RX schedule
queue. -/
def rx_scheduled_globals : globals := { zero_globals with rx_queue := queue_scheduled }

/-- A trigger-tagged request for RX under `sample_platform` with period 0 (one
shot) and relative timestamp 1. -/
def rx_oneshot_request : request := ⟨BLADERF_MODULE_RX, 0xffffffff00000001, 0, 0, 0, 0⟩

/-- A CLEAR_QUEUE request for RX under `sample_platform`. -/
def rx_clear_request : request := ⟨BLADERF_MODULE_RX, 0xffffffffffffffff, 0, 0, 0, 0⟩

/-- One trigger cycle on RX up to the retirement of its only entry: the
request, a tick that sees the line fired (Idle to Init), a tick that arms the
timer (Init to Run), the timer interrupt, and the tick that activates the
profile and advances the cursor. -/
def one_entry_cycle (req : request) : List event :=
  [event.pkt req 0 0, event.work_rx 0 50, event.work_rx 0 51, event.isr_rx,
   event.work_rx 0 52]

/-- A run in which a CLEAR_QUEUE request for RX arrives while RX is in Run with
cursor 0: a trigger-tagged request, the tick to Init, the tick to Run that arms
the first entry, then the CLEAR_QUEUE request. -/
def run_with_clear : List event :=
  [event.pkt rx_trigger_request 0 0, event.work_rx 0 50, event.work_rx 0 51,
   event.pkt rx_clear_request 0 0]

/-! ## Arithmetic helpers -/

theorem and_15_eq_mod (n : Nat) : n &&& 15 = n % 16 :=
  Nat.and_pow_two_sub_one_eq_mod n 4

theorem and_mask_eq_mod (n : Nat) : n &&& (RETUNE2_QUEUE_MAX - 1) = n % 16 :=
  Nat.and_pow_two_sub_one_eq_mod n 4

/-! ## The queue operations (C1 to C4) -/

theorem store_eq_some (q : queue) (k : Nat) (e : queue_entry) (h : k < 16) :
    q.store k e = some ⟨q.count, q.ins_idx, q.rem_idx,
      Function.update q.entries ⟨k, h⟩ e⟩ := by
  simp [queue.store, h]

theorem store_state_eq_some (q : queue) (k : Nat) (st : entry_state) (h : k < 16) :
    q.store_state k st = some ⟨q.count, q.ins_idx, q.rem_idx,
      Function.update q.entries ⟨k, h⟩ ⟨st, (q.entries ⟨k, h⟩).profile,
        (q.entries ⟨k, h⟩).timestamp⟩⟩ := by
  simp [queue.store_state, h]

theorem load_eq_some (q : queue) (k : Nat) (h : k < 16) :
    q.load k = some (q.entries ⟨k, h⟩) := by
  simp [queue.load, h]

theorem enqueue_retune_full (q : queue) (p : Option profile_ref) (t : Nat)
    (hc : 16 ≤ q.count) : enqueue_retune q p t = some (q, QUEUE_FULL) := by
  simp [enqueue_retune, hc]

theorem enqueue_retune_room (q : queue) (p : Option profile_ref) (t : Nat)
    (hc : q.count < 16) (hi : q.ins_idx < 16) :
    enqueue_retune q p t = some (⟨q.count + 1, (q.ins_idx + 1) % 16, q.rem_idx,
      Function.update q.entries ⟨q.ins_idx, hi⟩ ⟨ENTRY_STATE_NEW, p, t⟩⟩, q.count + 1) := by
  have hmod : (q.count + 1) % 256 = q.count + 1 := by omega
  have hge : ¬ (q.count ≥ 16) := by omega
  simp [enqueue_retune, store_eq_some q q.ins_idx _ hi, hmod, hge, and_15_eq_mod]

theorem dequeue_retune_empty (q : queue) (e : Option Nat) (hc : q.count = 0) :
    dequeue_retune q e = some (q, QUEUE_EMPTY) := by
  simp [dequeue_retune, hc]

theorem dequeue_retune_some (q : queue) (hc : q.count ≠ 0) (hr : q.rem_idx < 16) :
    dequeue_retune q none = some (⟨q.count - 1, q.ins_idx, (q.rem_idx + 1) % 16,
      Function.update q.entries ⟨q.rem_idx, hr⟩ ⟨ENTRY_STATE_DONE,
        (q.entries ⟨q.rem_idx, hr⟩).profile, (q.entries ⟨q.rem_idx, hr⟩).timestamp⟩⟩,
      q.count - 1) := by
  simp [dequeue_retune, store_state_eq_some q q.rem_idx _ hr, hc, and_15_eq_mod]

/-- C1, as stated, fails: on an empty queue whose `ins_idx` is 16 (so
`count <= 16` holds and `count` is not 16) `enqueue_retune` stores outside
`entries[16]` and returns no result at all. -/
theorem enqueue_retune_ins_idx_outside :
    queue_ins_out.count ≤ 16 ∧ queue_ins_out.count ≠ 16 ∧
      ∀ q1 r, enqueue_retune queue_ins_out none 1000 ≠ some (q1, r) := by
  refine ⟨by decide, by decide, ?_⟩
  intro q1 r h
  simp [enqueue_retune, queue.store, queue_ins_out] at h

/-- C1 (amended): for every queue with `count <= 16` and `ins_idx < 16`, every
profile `p` and timestamp `t`: if `count = 16`, `enqueue_retune` returns
`QUEUE_FULL` and leaves the queue unchanged; otherwise it writes the entry
(New, `p`, `t`) at index `ins_idx`, sets `ins_idx` to `(ins_idx + 1) mod 16`,
increments `count`, leaves `rem_idx` and every other entry unchanged, and
returns the new count. -/
theorem enqueue_retune_contract (q : queue) (p : Option profile_ref) (t : Nat)
    (hc : q.count ≤ 16) (hi : q.ins_idx < 16) :
    (q.count = 16 → enqueue_retune q p t = some (q, QUEUE_FULL)) ∧
    (q.count ≠ 16 → ∃ q1, enqueue_retune q p t = some (q1, q.count + 1) ∧
        q1.load q.ins_idx = some ⟨ENTRY_STATE_NEW, p, t⟩ ∧
        q1.ins_idx = (q.ins_idx + 1) % 16 ∧
        q1.count = q.count + 1 ∧
        q1.rem_idx = q.rem_idx ∧
        ∀ i : Fin 16, i.val ≠ q.ins_idx → q1.entries i = q.entries i) := by
  constructor
  · intro h
    exact enqueue_retune_full q p t (by omega)
  · intro h
    refine ⟨_, enqueue_retune_room q p t (by omega) hi, ?_, rfl, rfl, rfl, ?_⟩
    · simp [queue.load, hi]
    · intro i hne
      have : i ≠ ⟨q.ins_idx, hi⟩ := fun h => hne (by rw [h])
      simp [Function.update_noteq this]

/-- Witness of C1 (amended) on the zero-initialised queue. -/
theorem enqueue_retune_contract_witness :
    (zero_queue.count = 16 → enqueue_retune zero_queue none 1000 = some (zero_queue, QUEUE_FULL)) ∧
    (zero_queue.count ≠ 16 → ∃ q1, enqueue_retune zero_queue none 1000
          = some (q1, zero_queue.count + 1) ∧
        q1.load zero_queue.ins_idx = some ⟨ENTRY_STATE_NEW, none, 1000⟩ ∧
        q1.ins_idx = (zero_queue.ins_idx + 1) % 16 ∧
        q1.count = zero_queue.count + 1 ∧
        q1.rem_idx = zero_queue.rem_idx ∧
        ∀ i : Fin 16, i.val ≠ zero_queue.ins_idx → q1.entries i = zero_queue.entries i) :=
  enqueue_retune_contract zero_queue none 1000 (by decide) (by decide)

/-- C2: for every queue with `rem_idx < 16`, `dequeue_retune` (called with a
NULL out-pointer, as the program calls it): if `count = 0` it returns
`QUEUE_EMPTY` and leaves the queue unchanged; otherwise it sets the state of
the entry at `rem_idx` to Done, sets `rem_idx` to `(rem_idx + 1) mod 16`,
decrements `count`, leaves `ins_idx`, every other entry and the other fields of
that entry unchanged, and returns the number of items left. -/
theorem dequeue_retune_contract (q : queue) (hr : q.rem_idx < 16) :
    (q.count = 0 → dequeue_retune q none = some (q, QUEUE_EMPTY)) ∧
    (q.count ≠ 0 → ∃ q1, dequeue_retune q none = some (q1, q.count - 1) ∧
        q1.entries ⟨q.rem_idx, hr⟩
          = ⟨ENTRY_STATE_DONE, (q.entries ⟨q.rem_idx, hr⟩).profile,
              (q.entries ⟨q.rem_idx, hr⟩).timestamp⟩ ∧
        q1.rem_idx = (q.rem_idx + 1) % 16 ∧
        q1.count = q.count - 1 ∧
        q1.ins_idx = q.ins_idx ∧
        ∀ i : Fin 16, i.val ≠ q.rem_idx → q1.entries i = q.entries i) := by
  constructor
  · intro h
    exact dequeue_retune_empty q none h
  · intro h
    refine ⟨_, dequeue_retune_some q h hr, ?_, rfl, rfl, rfl, ?_⟩
    · simp
    · intro i hne
      have : i ≠ ⟨q.rem_idx, hr⟩ := fun h => hne (by rw [h])
      simp [Function.update_noteq this]

/-- Witness of C2 on a queue that holds one entry. -/
theorem dequeue_retune_contract_witness :
    (queue_one.count = 0 → dequeue_retune queue_one none = some (queue_one, QUEUE_EMPTY)) ∧
    (queue_one.count ≠ 0 → ∃ q1, dequeue_retune queue_one none
          = some (q1, queue_one.count - 1) ∧
        q1.entries ⟨queue_one.rem_idx, by decide⟩
          = ⟨ENTRY_STATE_DONE, (queue_one.entries ⟨queue_one.rem_idx, by decide⟩).profile,
              (queue_one.entries ⟨queue_one.rem_idx, by decide⟩).timestamp⟩ ∧
        q1.rem_idx = (queue_one.rem_idx + 1) % 16 ∧
        q1.count = queue_one.count - 1 ∧
        q1.ins_idx = queue_one.ins_idx ∧
        ∀ i : Fin 16, i.val ≠ queue_one.rem_idx → q1.entries i = queue_one.entries i) :=
  dequeue_retune_contract queue_one (by decide)

/-- C3, as stated, fails: on a queue with one entry the offset 1 is not below
`count`, yet `peek_next_retune_offset` returns the entry at index 1 and not
NULL; and on a queue whose `rem_idx` is 16, `peek_next_retune` returns the
pointer `&entries[16]` while offset 0 gives `&entries[0]`. -/
theorem peek_next_retune_offset_beyond_count :
    (1 ≤ 255 ∧ 1 ≥ queue_one.count ∧ peek_next_retune_offset queue_one 1 = some 1 ∧
      peek_next_retune_offset queue_one 1 ≠ none) ∧
    (peek_next_retune queue_rem_out = some 16 ∧
      peek_next_retune_offset queue_rem_out 0 = some 0 ∧
      peek_next_retune queue_rem_out ≠ peek_next_retune_offset queue_rem_out 0) := by
  refine ⟨⟨by decide, by decide, ?_, ?_⟩, rfl, rfl, by decide⟩ <;>
    simp [peek_next_retune_offset, queue_one]

/-- C3 (amended): for every queue and every offset `k`,
`peek_next_retune_offset` returns NULL when `count = 0` and otherwise the entry
at index `(rem_idx + k) mod 16`, whether or not `k < count`; and when
`rem_idx < 16`, `peek_next_retune` is the case `k = 0`. -/
theorem peek_next_retune_offset_contract (q : queue) (k : Nat) :
    (q.count = 0 → peek_next_retune_offset q k = none) ∧
    (q.count ≠ 0 → peek_next_retune_offset q k = some ((q.rem_idx + k) % 16)) ∧
    (q.rem_idx < 16 → peek_next_retune q = peek_next_retune_offset q 0) := by
  refine ⟨?_, ?_, ?_⟩
  · intro h
    simp [peek_next_retune_offset, h]
  · intro h
    simp [peek_next_retune_offset, h, and_15_eq_mod]
  · intro h
    simp only [peek_next_retune, peek_next_retune_offset]
    split
    · rfl
    · rw [and_mask_eq_mod, Nat.add_zero, Nat.mod_eq_of_lt h]

/-- Witness of C3 (amended) on a queue that holds one entry, at offset 1. -/
theorem peek_next_retune_offset_contract_witness :
    (queue_one.count = 0 → peek_next_retune_offset queue_one 1 = none) ∧
    (queue_one.count ≠ 0 →
      peek_next_retune_offset queue_one 1 = some ((queue_one.rem_idx + 1) % 16)) ∧
    (queue_one.rem_idx < 16 →
      peek_next_retune queue_one = peek_next_retune_offset queue_one 0) :=
  peek_next_retune_offset_contract queue_one 1

/-- C4: for every queue, `reset_queue` yields `count = 0`, `ins_idx = 0`,
`rem_idx = 0` and all 16 entries Invalid, and `retune_isr` run on the reset
queue at any offset returns it unchanged (and counts no error). -/
theorem reset_queue_contract (q : queue) :
    (reset_queue q).count = 0 ∧ (reset_queue q).ins_idx = 0 ∧
    (reset_queue q).rem_idx = 0 ∧
    (∀ i : Fin 16, ((reset_queue q).entries i).state = ENTRY_STATE_INVALID) ∧
    ∀ offset error_count,
      retune_isr (reset_queue q) offset error_count = some (reset_queue q, error_count) := by
  refine ⟨rfl, rfl, rfl, fun _ => rfl, ?_⟩
  intro offset error_count
  simp [retune_isr, peek_next_retune_offset, reset_queue]

/-! ## Sequences of enqueue and dequeue calls (C5) -/

theorem queue_ok_reset (q : queue) : queue_ok (reset_queue q) := by
  simp [queue_ok, reset_queue]

theorem enqueue_retune_ok (q : queue) (p : Option profile_ref) (t : Nat) (h : queue_ok q) :
    ∃ q1 r, enqueue_retune q p t = some (q1, r) ∧ queue_ok q1 ∧
      ((r = QUEUE_FULL ∧ q1 = q ∧ q.count = 16) ∨
       (r = q.count + 1 ∧ q1.count = q.count + 1 ∧ q.count < 16)) := by
  obtain ⟨hc, hi, hr, hring⟩ := h
  by_cases hfull : 16 ≤ q.count
  · exact ⟨q, QUEUE_FULL, enqueue_retune_full q p t hfull, ⟨hc, hi, hr, hring⟩,
      Or.inl ⟨rfl, rfl, by omega⟩⟩
  · have hlt : q.count < 16 := by omega
    refine ⟨_, _, enqueue_retune_room q p t hlt hi, ?_, Or.inr ⟨rfl, rfl, hlt⟩⟩
    refine ⟨?_, ?_, ?_, ?_⟩
    · show q.count + 1 ≤ 16
      omega
    · show (q.ins_idx + 1) % 16 < 16
      omega
    · exact hr
    · show (q.ins_idx + 1) % 16 = (q.rem_idx + (q.count + 1)) % 16
      omega

theorem dequeue_retune_ok (q : queue) (h : queue_ok q) :
    ∃ q1 r, dequeue_retune q none = some (q1, r) ∧ queue_ok q1 ∧
      ((r = QUEUE_EMPTY ∧ q1 = q ∧ q.count = 0) ∨
       (r = q.count - 1 ∧ q1.count + 1 = q.count)) := by
  obtain ⟨hc, hi, hr, hring⟩ := h
  by_cases hz : q.count = 0
  · exact ⟨q, QUEUE_EMPTY, dequeue_retune_empty q none hz, ⟨hc, hi, hr, hring⟩,
      Or.inl ⟨rfl, rfl, hz⟩⟩
  · refine ⟨_, _, dequeue_retune_some q hz hr, ?_, Or.inr ⟨rfl, ?_⟩⟩
    · refine ⟨?_, ?_, ?_, ?_⟩
      · show q.count - 1 ≤ 16
        omega
      · exact hi
      · show (q.rem_idx + 1) % 16 < 16
        omega
      · show q.ins_idx = ((q.rem_idx + 1) % 16 + (q.count - 1)) % 16
        omega
    · show q.count - 1 + 1 = q.count
      omega

theorem run_calls_count (calls : List queue_call) :
    ∀ q : queue, queue_ok q →
      ∃ q1 tr, run_calls q calls = some (q1, tr) ∧ queue_ok q1 ∧
        q1.count + tr.countP dequeue_succeeded = q.count + tr.countP enqueue_succeeded := by
  induction calls with
  | nil =>
    intro q h
    exact ⟨q, [], rfl, h, rfl⟩
  | cons c cs ih =>
    intro q h
    cases c with
    | enqueue p t =>
      obtain ⟨q1, r, hrun, hok, hcase⟩ := enqueue_retune_ok q p t h
      obtain ⟨q2, tr, hrest, hok2, hcnt⟩ := ih q1 hok
      refine ⟨q2, (queue_call.enqueue p t, r) :: tr, ?_, hok2, ?_⟩
      · simp [run_calls, queue_call.run, hrun, hrest]
      · rcases hcase with ⟨hr, hq, _⟩ | ⟨hr, hq, hlt⟩
        · subst hq
          simp [List.countP_cons, enqueue_succeeded, dequeue_succeeded, hr, hcnt]
        · have hne : r ≠ 255 := by omega
          simp [List.countP_cons, enqueue_succeeded, dequeue_succeeded, hne]
          omega
    | dequeue =>
      obtain ⟨q1, r, hrun, hok, hcase⟩ := dequeue_retune_ok q h
      obtain ⟨q2, tr, hrest, hok2, hcnt⟩ := ih q1 hok
      refine ⟨q2, (queue_call.dequeue, r) :: tr, ?_, hok2, ?_⟩
      · simp [run_calls, queue_call.run, hrun, hrest]
      · rcases hcase with ⟨hr, hq, _⟩ | ⟨hr, hq⟩
        · subst hq
          simp [List.countP_cons, enqueue_succeeded, dequeue_succeeded, hr, hcnt]
        · have hne : r ≠ 254 := by
            have := h.1
            omega
          simp [List.countP_cons, enqueue_succeeded, dequeue_succeeded, hne]
          omega

theorem run_enqueues_returns (args : List (Option profile_ref × Nat)) :
    ∀ q : queue, queue_ok q → q.count + args.length ≤ 16 →
      ∃ q1 tr, run_calls q (args.map (fun a => queue_call.enqueue a.1 a.2)) = some (q1, tr) ∧
        queue_ok q1 ∧ q1.count = q.count + args.length ∧
        tr.map Prod.snd = (List.range args.length).map (fun i => q.count + i + 1) := by
  induction args with
  | nil =>
    intro q h _
    exact ⟨q, [], rfl, h, rfl, rfl⟩
  | cons a as ih =>
    intro q h hlen
    simp only [List.length_cons] at hlen
    obtain ⟨q1, r, hrun, hok, hcase⟩ := enqueue_retune_ok q a.1 a.2 h
    rcases hcase with ⟨_, _, hfull⟩ | ⟨hr, hq, _⟩
    · omega
    · obtain ⟨q2, tr, hrest, hok2, hcnt, hret⟩ := ih q1 hok (by omega)
      refine ⟨q2, (queue_call.enqueue a.1 a.2, r) :: tr, ?_, hok2, ?_, ?_⟩
      · simp [run_calls, queue_call.run, hrun, hrest]
      · simp only [List.length_cons]
        omega
      · simp only [List.map_cons, List.length_cons, hret, List.range_succ_eq_map, hr, hq,
          List.map_map]
        congr 1
        apply List.map_congr_left
        intro i _
        simp only [Function.comp]
        omega

theorem run_calls_append (xs ys : List queue_call) :
    ∀ q q1 tr1 q2 tr2, run_calls q xs = some (q1, tr1) → run_calls q1 ys = some (q2, tr2) →
      run_calls q (xs ++ ys) = some (q2, tr1 ++ tr2) := by
  induction xs with
  | nil =>
    intro q q1 tr1 q2 tr2 h1 h2
    simp only [run_calls, Option.some.injEq, Prod.mk.injEq] at h1
    obtain ⟨rfl, rfl⟩ := h1
    simpa using h2
  | cons c cs ih =>
    intro q q1 tr1 q2 tr2 h1 h2
    simp only [run_calls] at h1
    cases hc : c.run q with
    | none => simp [hc] at h1
    | some x =>
      obtain ⟨qa, r⟩ := x
      simp only [hc, Option.map_eq_some'] at h1
      obtain ⟨⟨qb, trb⟩, hb, heq⟩ := h1
      simp only [Prod.mk.injEq] at heq
      obtain ⟨rfl, rfl⟩ := heq
      simp [run_calls, hc, ih qa qb trb q2 tr2 hb h2]

/-- C5: starting from a reset queue, every finite sequence of `enqueue_retune`
and `dequeue_retune` calls runs to the end, and after each call (after the
first `n` calls, for every `n`) `count` plus the number of dequeues that
succeeded equals the number of enqueues that succeeded, and `count` is at most
16; and 17 consecutive enqueues on a reset queue, with any arguments, return
1, 2, ..., 16 and then `QUEUE_FULL`. -/
theorem enqueue_dequeue_count (q0 : queue) :
    (∀ (calls : List queue_call) (n : Nat), ∃ q tr,
        run_calls (reset_queue q0) (calls.take n) = some (q, tr) ∧
        q.count + tr.countP dequeue_succeeded = tr.countP enqueue_succeeded ∧
        q.count ≤ 16) ∧
    (∀ args : Fin 17 → Option profile_ref × Nat, ∃ q tr,
        run_calls (reset_queue q0)
          ((List.ofFn args).map (fun a => queue_call.enqueue a.1 a.2)) = some (q, tr) ∧
        tr.map Prod.snd
          = [1, 2, 3, 4, 5, 6, 7, 8, 9, 10, 11, 12, 13, 14, 15, 16, QUEUE_FULL]) := by
  constructor
  · intro calls n
    obtain ⟨q, tr, hrun, hok, hcnt⟩ :=
      run_calls_count (calls.take n) (reset_queue q0) (queue_ok_reset q0)
    refine ⟨q, tr, hrun, ?_, hok.1⟩
    simpa [reset_queue] using hcnt
  · intro args
    have hsplit : List.ofFn args
        = (List.ofFn (fun i : Fin 16 => args i.castSucc)) ++ [args (Fin.last 16)] := by
      rw [List.ofFn_succ' args]
      simp [List.concat_eq_append]
    obtain ⟨q1, tr1, hrun1, hok1, hcnt1, hret1⟩ :=
      run_enqueues_returns (List.ofFn (fun i : Fin 16 => args i.castSucc)) (reset_queue q0)
        (queue_ok_reset q0) (by simp [reset_queue])
    have hc16 : 16 ≤ q1.count := by
      simp [reset_queue] at hcnt1
      omega
    have hlast := enqueue_retune_full q1 (args (Fin.last 16)).1 (args (Fin.last 16)).2 hc16
    have hrun2 : run_calls q1 [queue_call.enqueue (args (Fin.last 16)).1 (args (Fin.last 16)).2]
        = some (q1, [(queue_call.enqueue (args (Fin.last 16)).1 (args (Fin.last 16)).2,
            QUEUE_FULL)]) := by
      simp [run_calls, queue_call.run, hlast]
    refine ⟨q1, tr1 ++ [(queue_call.enqueue (args (Fin.last 16)).1 (args (Fin.last 16)).2,
      QUEUE_FULL)], ?_, ?_⟩
    · rw [hsplit, List.map_append]
      exact run_calls_append _ _ _ _ _ _ _ hrun1 hrun2
    · rw [List.map_append, hret1]
      simp [reset_queue, List.range_succ]

/-! ## The ring invariant in every reachable state (C6) -/

theorem queue_ok_of_fields (q q1 : queue) (hc : q1.count = q.count)
    (hi : q1.ins_idx = q.ins_idx) (hr : q1.rem_idx = q.rem_idx) (h : queue_ok q) :
    queue_ok q1 := by
  unfold queue_ok at *
  rw [hc, hi, hr]
  exact h

theorem store_state_fields (q q1 : queue) (k : Nat) (st : entry_state)
    (h : q.store_state k st = some q1) :
    q1.count = q.count ∧ q1.ins_idx = q.ins_idx ∧ q1.rem_idx = q.rem_idx := by
  unfold queue.store_state at h
  split at h
  · simp only [Option.some.injEq] at h
    subst h
    exact ⟨rfl, rfl, rfl⟩
  · simp at h

theorem store_state_ok (q q1 : queue) (k : Nat) (st : entry_state)
    (h : q.store_state k st = some q1) (hq : queue_ok q) : queue_ok q1 := by
  obtain ⟨hc, hi, hr⟩ := store_state_fields q q1 k st h
  exact queue_ok_of_fields q q1 hc hi hr hq

theorem retune_isr_fields (q q1 : queue) (offset n n1 : Nat)
    (h : retune_isr q offset n = some (q1, n1)) :
    q1.count = q.count ∧ q1.ins_idx = q.ins_idx ∧ q1.rem_idx = q.rem_idx := by
  unfold retune_isr at h
  split at h
  · simp only [Option.some.injEq, Prod.mk.injEq] at h
    obtain ⟨rfl, _⟩ := h
    exact ⟨rfl, rfl, rfl⟩
  · split at h
    · simp at h
    · split at h
      · simp only [Option.map_eq_some'] at h
        obtain ⟨q2, hq2, heq⟩ := h
        simp only [Prod.mk.injEq] at heq
        obtain ⟨rfl, _⟩ := heq
        exact store_state_fields _ _ _ _ hq2
      · simp only [Option.some.injEq, Prod.mk.injEq] at h
        obtain ⟨rfl, _⟩ := h
        exact ⟨rfl, rfl, rfl⟩

theorem retune_isr_ok (q q1 : queue) (offset n n1 : Nat)
    (h : retune_isr q offset n = some (q1, n1)) (hq : queue_ok q) : queue_ok q1 := by
  obtain ⟨hc, hi, hr⟩ := retune_isr_fields q q1 offset n n1 h
  exact queue_ok_of_fields q q1 hc hi hr hq

theorem enqueue_retune_preserves (q q1 : queue) (p : Option profile_ref) (t r : Nat)
    (h : enqueue_retune q p t = some (q1, r)) (hq : queue_ok q) : queue_ok q1 := by
  obtain ⟨q2, r2, hrun, hok, _⟩ := enqueue_retune_ok q p t hq
  rw [hrun] at h
  simp only [Option.some.injEq, Prod.mk.injEq] at h
  obtain ⟨rfl, _⟩ := h
  exact hok

theorem dequeue_retune_preserves (q q1 : queue) (r : Nat)
    (h : dequeue_retune q none = some (q1, r)) (hq : queue_ok q) : queue_ok q1 := by
  obtain ⟨q2, r2, hrun, hok, _⟩ := dequeue_retune_ok q hq
  rw [hrun] at h
  simp only [Option.some.injEq, Prod.mk.injEq] at h
  obtain ⟨rfl, _⟩ := h
  exact hok

theorem perform_work_trigger_ok (w w1 : work_state) (trigger_ctl now : Nat)
    (e : Option (queue_sel × Nat))
    (h : perform_work_trigger w trigger_ctl now = some (w1, e))
    (hs : queue_ok w.schedule_queue) (ht : queue_ok w.trigger_queue) :
    queue_ok w1.schedule_queue ∧ queue_ok w1.trigger_queue := by
  unfold perform_work_trigger at h
  simp only at h
  split at h
  · split at h <;>
      (simp only [Option.some.injEq, Prod.mk.injEq] at h; obtain ⟨rfl, _⟩ := h; exact ⟨hs, ht⟩)
  · split at h
    · split at h
      · split at h
        · simp at h
        · simp only [Option.map_eq_some'] at h
          obtain ⟨q2, hq2, heq⟩ := h
          simp only [Prod.mk.injEq] at heq
          obtain ⟨rfl, _⟩ := heq
          exact ⟨hs, store_state_ok _ _ _ _ hq2 ht⟩
      · simp only [Option.some.injEq, Prod.mk.injEq] at h
        obtain ⟨rfl, _⟩ := h
        exact ⟨hs, ht⟩
    · simp only [Option.some.injEq, Prod.mk.injEq] at h
      obtain ⟨rfl, _⟩ := h
      exact ⟨hs, ht⟩
  · split at h <;>
      (simp only [Option.some.injEq, Prod.mk.injEq] at h; obtain ⟨rfl, _⟩ := h; exact ⟨hs, ht⟩)
  · simp only [Option.some.injEq, Prod.mk.injEq] at h
    obtain ⟨rfl, _⟩ := h
    exact ⟨hs, ht⟩

theorem set_queue_ok (w : work_state) (sel : queue_sel) (q : queue)
    (hs : queue_ok w.schedule_queue) (ht : queue_ok w.trigger_queue) (hq : queue_ok q) :
    queue_ok (w.set_queue sel q).schedule_queue ∧ queue_ok (w.set_queue sel q).trigger_queue := by
  cases sel
  · exact ⟨hq, ht⟩
  · exact ⟨hs, hq⟩

theorem queue_of_ok (w : work_state) (sel : queue_sel)
    (hs : queue_ok w.schedule_queue) (ht : queue_ok w.trigger_queue) :
    queue_ok (w.queue_of sel) := by
  cases sel
  · exact hs
  · exact ht

theorem perform_work_entry_ok (P : platform) (w w1 : work_state) (module : bladerf_module)
    (sel : queue_sel) (k : Nat)
    (h : perform_work_entry P w module sel k = some w1)
    (hs : queue_ok w.schedule_queue) (ht : queue_ok w.trigger_queue) :
    queue_ok w1.schedule_queue ∧ queue_ok w1.trigger_queue := by
  unfold perform_work_entry at h
  split at h
  · simp at h
  · simp only at h
    split at h
    · split at h
      · simp at h
      · rename_i q hq
        simp only [Option.some.injEq] at h
        subst h
        exact set_queue_ok w sel q hs ht (store_state_ok _ _ _ _ hq (queue_of_ok w sel hs ht))
    · simp only [Option.some.injEq] at h
      subst h
      exact ⟨hs, ht⟩
    · split at h
      · simp only [Option.map_eq_some'] at h
        obtain ⟨⟨q2, r⟩, hq2, rfl⟩ := h
        exact ⟨dequeue_retune_preserves _ _ _ hq2 hs, ht⟩
      · simp only [Option.map_eq_some'] at h
        obtain ⟨q2, hq2, rfl⟩ := h
        exact set_queue_ok _ sel q2 hs ht
          (store_state_ok _ _ _ _ hq2 (queue_of_ok _ sel hs ht))
    · simp only [Option.some.injEq] at h
      subst h
      exact ⟨hs, ht⟩

theorem perform_work_ok (P : platform) (w w1 : work_state) (module : bladerf_module)
    (trigger_ctl now : Nat)
    (h : perform_work P w module trigger_ctl now = some w1)
    (hs : queue_ok w.schedule_queue) (ht : queue_ok w.trigger_queue) :
    queue_ok w1.schedule_queue ∧ queue_ok w1.trigger_queue := by
  unfold perform_work at h
  split at h
  · simp only [Option.some.injEq] at h
    subst h
    exact ⟨hs, ht⟩
  · split at h
    · simp at h
    · rename_i w2 htr
      simp only [Option.some.injEq] at h
      subst h
      exact perform_work_trigger_ok _ _ _ _ _ htr hs ht
    · rename_i w2 sel k htr
      obtain ⟨hs2, ht2⟩ := perform_work_trigger_ok _ _ _ _ _ htr hs ht
      exact perform_work_entry_ok P _ _ _ _ _ h hs2 ht2

theorem pkt_retune2_trigger_ok (P : platform) (s s1 : globals) (req : request)
    (profile : Option profile_ref) (status : Int)
    (h : pkt_retune2_trigger P s req profile = some (s1, status)) (hs : all_ok s) :
    all_ok s1 := by
  obtain ⟨h1, h2, h3, h4⟩ := hs
  unfold pkt_retune2_trigger at h
  simp only at h
  split at h
  · split at h
    · simp at h
    · rename_i q r henq
      split at h
      · simp at h
      · simp only [Option.some.injEq, Prod.mk.injEq] at h
        obtain ⟨rfl, _⟩ := h
        exact ⟨h1, h2, enqueue_retune_preserves _ _ _ _ _ henq h3, h4⟩
  · split at h
    · simp at h
    · rename_i q r henq
      split at h
      · simp at h
      · simp only [Option.some.injEq, Prod.mk.injEq] at h
        obtain ⟨rfl, _⟩ := h
        exact ⟨h1, h2, h3, enqueue_retune_preserves _ _ _ _ _ henq h4⟩
  · simp only [Option.some.injEq, Prod.mk.injEq] at h
    obtain ⟨rfl, _⟩ := h
    exact ⟨h1, h2, h3, h4⟩

theorem pkt_retune2_plain_ok (s s1 : globals) (req : request)
    (profile : Option profile_ref) (status : Int)
    (h : pkt_retune2_plain s req profile = some (s1, status)) (hs : all_ok s) :
    all_ok s1 := by
  obtain ⟨h1, h2, h3, h4⟩ := hs
  unfold pkt_retune2_plain at h
  split at h
  · split at h
    · simp at h
    · rename_i q r henq
      split at h
      · simp at h
      · simp only [Option.some.injEq, Prod.mk.injEq] at h
        obtain ⟨rfl, _⟩ := h
        exact ⟨enqueue_retune_preserves _ _ _ _ _ henq h1, h2, h3, h4⟩
  · split at h
    · simp at h
    · rename_i q r henq
      split at h
      · simp at h
      · simp only [Option.some.injEq, Prod.mk.injEq] at h
        obtain ⟨rfl, _⟩ := h
        exact ⟨h1, enqueue_retune_preserves _ _ _ _ _ henq h2, h3, h4⟩
  · simp only [Option.some.injEq, Prod.mk.injEq] at h
    obtain ⟨rfl, _⟩ := h
    exact ⟨h1, h2, h3, h4⟩

theorem pkt_retune2_ok (P : platform) (s s1 : globals) (req : request)
    (start_time end_time : Nat) (resp : response)
    (h : pkt_retune2 P s req start_time end_time = some (s1, resp)) (hs : all_ok s) :
    all_ok s1 := by
  unfold pkt_retune2 at h
  simp only at h
  split at h
  · simp at h
  · rename_i s2 profile hloc
    have hs2 : all_ok s2 := by
      split at hloc
      · simp only [Option.map_eq_some'] at hloc
        obtain ⟨t, _, heq⟩ := hloc
        simp only [Prod.mk.injEq] at heq
        obtain ⟨rfl, _⟩ := heq
        exact hs
      · simp only [Option.map_eq_some'] at hloc
        obtain ⟨t, _, heq⟩ := hloc
        simp only [Prod.mk.injEq] at heq
        obtain ⟨rfl, _⟩ := heq
        exact hs
      · simp only [Option.some.injEq, Prod.mk.injEq] at hloc
        obtain ⟨rfl, _⟩ := hloc
        exact hs
    split at h
    · simp at h
    · rename_i s3 status flags hbr
      simp only [Option.some.injEq, Prod.mk.injEq] at h
      obtain ⟨rfl, _⟩ := h
      obtain ⟨h1, h2, h3, h4⟩ := hs2
      split at hbr
      · split at hbr <;>
          (simp only [Option.some.injEq, Prod.mk.injEq] at hbr
           obtain ⟨rfl, _⟩ := hbr
           exact ⟨h1, h2, h3, h4⟩)
      · split at hbr
        · split at hbr <;>
            (simp only [Option.some.injEq, Prod.mk.injEq] at hbr
             obtain ⟨rfl, _⟩ := hbr
             first
               | exact ⟨queue_ok_reset _, h2, queue_ok_reset _, h4⟩
               | exact ⟨h1, queue_ok_reset _, h3, queue_ok_reset _⟩
               | exact ⟨h1, h2, h3, h4⟩)
        · split at hbr
          · simp only [Option.map_eq_some'] at hbr
            obtain ⟨⟨s4, st⟩, hb, heq⟩ := hbr
            simp only [Prod.mk.injEq] at heq
            obtain ⟨rfl, _⟩ := heq
            exact pkt_retune2_trigger_ok P _ _ _ _ _ hb ⟨h1, h2, h3, h4⟩
          · simp only [Option.map_eq_some'] at hbr
            obtain ⟨⟨s4, st⟩, hb, heq⟩ := hbr
            simp only [Prod.mk.injEq] at heq
            obtain ⟨rfl, _⟩ := heq
            exact pkt_retune2_plain_ok _ _ _ _ _ hb ⟨h1, h2, h3, h4⟩

theorem retune_rx_ok (s s1 : globals) (h : retune_rx s = some s1) (hs : all_ok s) :
    all_ok s1 := by
  obtain ⟨h1, h2, h3, h4⟩ := hs
  unfold retune_rx at h
  split at h
  · simp only [Option.map_eq_some'] at h
    obtain ⟨⟨q, n⟩, hq, rfl⟩ := h
    exact ⟨retune_isr_ok _ _ _ _ _ hq h1, h2, h3, h4⟩
  · simp only [Option.map_eq_some'] at h
    obtain ⟨⟨q, n⟩, hq, rfl⟩ := h
    exact ⟨h1, h2, retune_isr_ok _ _ _ _ _ hq h3, h4⟩

theorem retune_tx_ok (s s1 : globals) (h : retune_tx s = some s1) (hs : all_ok s) :
    all_ok s1 := by
  obtain ⟨h1, h2, h3, h4⟩ := hs
  unfold retune_tx at h
  split at h
  · simp only [Option.map_eq_some'] at h
    obtain ⟨⟨q, n⟩, hq, rfl⟩ := h
    exact ⟨h1, retune_isr_ok _ _ _ _ _ hq h2, h3, h4⟩
  · simp only [Option.map_eq_some'] at h
    obtain ⟨⟨q, n⟩, hq, rfl⟩ := h
    exact ⟨h1, h2, h3, retune_isr_ok _ _ _ _ _ hq h4⟩

theorem perform_work_rx_ok (P : platform) (s s1 : globals) (trigger_ctl now : Nat)
    (h : perform_work_rx P s trigger_ctl now = some s1) (hs : all_ok s) : all_ok s1 := by
  obtain ⟨h1, h2, h3, h4⟩ := hs
  unfold perform_work_rx at h
  simp only [Option.map_eq_some'] at h
  obtain ⟨w, hw, rfl⟩ := h
  obtain ⟨ha, hb⟩ := perform_work_ok P _ _ _ _ _ hw h1 h3
  exact ⟨ha, h2, hb, h4⟩

theorem perform_work_tx_ok (P : platform) (s s1 : globals) (trigger_ctl now : Nat)
    (h : perform_work_tx P s trigger_ctl now = some s1) (hs : all_ok s) : all_ok s1 := by
  obtain ⟨h1, h2, h3, h4⟩ := hs
  unfold perform_work_tx at h
  simp only [Option.map_eq_some'] at h
  obtain ⟨w, hw, rfl⟩ := h
  obtain ⟨ha, hb⟩ := perform_work_ok P _ _ _ _ _ hw h2 h4
  exact ⟨h1, ha, h3, hb⟩

theorem set_queue_all_ok (s : globals) (i : queue_id) (q : queue) (hs : all_ok s)
    (hq : queue_ok q) : all_ok (s.set_queue i q) := by
  obtain ⟨h1, h2, h3, h4⟩ := hs
  cases i
  · exact ⟨hq, h2, h3, h4⟩
  · exact ⟨h1, hq, h3, h4⟩
  · exact ⟨h1, h2, hq, h4⟩
  · exact ⟨h1, h2, h3, hq⟩

theorem get_queue_ok (s : globals) (i : queue_id) (hs : all_ok s) :
    queue_ok (s.get_queue i) := by
  obtain ⟨h1, h2, h3, h4⟩ := hs
  cases i
  · exact h1
  · exact h2
  · exact h3
  · exact h4

theorem step_ok (P : platform) (s s1 : globals) (h : step P s s1) (hs : all_ok s) :
    all_ok s1 := by
  cases h with
  | init =>
    obtain ⟨_, _, h3, h4⟩ := hs
    exact ⟨queue_ok_reset _, queue_ok_reset _, h3, h4⟩
  | work_rx _ ctl now hw => exact perform_work_rx_ok P _ _ _ _ hw hs
  | work_tx _ ctl now hw => exact perform_work_tx_ok P _ _ _ _ hw hs
  | isr_rx _ hw => exact retune_rx_ok _ _ hw hs
  | isr_tx _ hw => exact retune_tx_ok _ _ hw hs
  | pkt _ req st en resp hw => exact pkt_retune2_ok P _ _ _ _ _ _ hw hs
  | enqueue i p t q r hw =>
    exact set_queue_all_ok _ i q hs (enqueue_retune_preserves _ _ _ _ _ hw (get_queue_ok _ i hs))
  | dequeue i q r hw =>
    exact set_queue_all_ok _ i q hs (dequeue_retune_preserves _ _ _ hw (get_queue_ok _ i hs))
  | reset i => exact set_queue_all_ok _ i _ hs (queue_ok_reset _)
  | isr i offset q n hw =>
    have := set_queue_all_ok s i q hs (retune_isr_ok _ _ _ _ _ hw (get_queue_ok _ i hs))
    cases i <;> exact this

theorem initial_ok (s : globals) (h : initial s) : all_ok s := by
  obtain ⟨hq, _⟩ := h
  have key : ∀ i, queue_ok (s.get_queue i) := by
    intro i
    obtain ⟨q0, h0⟩ := hq i
    rw [h0]
    exact queue_ok_reset q0
  exact ⟨key queue_id.rx_queue, key queue_id.tx_queue, key queue_id.rx_trigger_queue,
    key queue_id.tx_trigger_queue⟩

theorem reachable_ok (P : platform) (s : globals) (h : reachable P s) : all_ok s := by
  induction h with
  | start s hi => exact initial_ok s hi
  | next s s1 _ hstep ih => exact step_ok P s s1 hstep ih

/-- C6: every state reachable from an initial (reset) state by any sequence of
`enqueue_retune`, `dequeue_retune`, `reset_queue`, `retune_isr`, `perform_work`,
interrupt handler, `pkt_retune2_init` and `pkt_retune2` steps has, for each of
its four queues, `count <= 16`, `ins_idx < 16`, `rem_idx < 16` and
`ins_idx = (rem_idx + count) mod 16`. -/
theorem reachable_queue_invariant (P : platform) (s : globals) (h : reachable P s)
    (i : queue_id) :
    (s.get_queue i).count ≤ 16 ∧ (s.get_queue i).ins_idx < 16 ∧
    (s.get_queue i).rem_idx < 16 ∧
    (s.get_queue i).ins_idx = ((s.get_queue i).rem_idx + (s.get_queue i).count) % 16 :=
  get_queue_ok s i (reachable_ok P s h)

theorem initial_zero_globals : initial zero_globals := by
  refine ⟨?_, rfl, rfl, rfl, rfl, rfl, rfl⟩
  intro i
  cases i <;> exact ⟨zero_queue, rfl⟩

theorem reachable_after_enqueue :
    reachable sample_platform (zero_globals.set_queue queue_id.rx_queue queue_after_enqueue) :=
  reachable.next _ _ (reachable.start _ initial_zero_globals)
    (step.enqueue zero_globals queue_id.rx_queue (some (profile_ref.rx 0)) 1000
      queue_after_enqueue 1
      (enqueue_retune_room (reset_queue zero_queue) (some (profile_ref.rx 0)) 1000
        (by decide) (by decide)))

/-- Witness of C6: the state reached from the start state by one enqueue on the
RX schedule queue. -/
theorem reachable_queue_invariant_witness :
    reachable sample_platform (zero_globals.set_queue queue_id.rx_queue queue_after_enqueue) ∧
    ((zero_globals.set_queue queue_id.rx_queue queue_after_enqueue).get_queue
        queue_id.rx_queue).count ≤ 16 ∧
    ((zero_globals.set_queue queue_id.rx_queue queue_after_enqueue).get_queue
        queue_id.rx_queue).ins_idx < 16 ∧
    ((zero_globals.set_queue queue_id.rx_queue queue_after_enqueue).get_queue
        queue_id.rx_queue).rem_idx < 16 ∧
    ((zero_globals.set_queue queue_id.rx_queue queue_after_enqueue).get_queue
        queue_id.rx_queue).ins_idx
      = (((zero_globals.set_queue queue_id.rx_queue queue_after_enqueue).get_queue
            queue_id.rx_queue).rem_idx
          + ((zero_globals.set_queue queue_id.rx_queue queue_after_enqueue).get_queue
            queue_id.rx_queue).count) % 16 :=
  ⟨reachable_after_enqueue,
   reachable_queue_invariant sample_platform _ reachable_after_enqueue queue_id.rx_queue⟩

/-! ## One retune through the RX schedule queue (C7) -/

theorem perform_work_trigger_idle (w : work_state) (trigger_ctl now : Nat)
    (hst : w.trigger_info.state = TRIGGER_IDLE) (hc : w.trigger_queue.count = 0) :
    perform_work_trigger w trigger_ctl now
      = some (w, (peek_next_retune w.schedule_queue).map (fun k => (queue_sel.schedule, k))) := by
  simp [perform_work_trigger, hst, hc]

theorem perform_work_idle_new (P : platform) (w : work_state) (module : bladerf_module)
    (trigger_ctl now : Nat) (hm : module ≠ BLADERF_MODULE_OTHER)
    (hst : w.trigger_info.state = TRIGGER_IDLE) (hc : w.trigger_queue.count = 0)
    (hn : w.schedule_queue.count ≠ 0) (hr : w.schedule_queue.rem_idx < 16)
    (he : (w.schedule_queue.entries ⟨w.schedule_queue.rem_idx, hr⟩).state = ENTRY_STATE_NEW) :
    perform_work P w module trigger_ctl now
      = some { w with
          schedule_queue := ⟨w.schedule_queue.count, w.schedule_queue.ins_idx,
            w.schedule_queue.rem_idx,
            Function.update w.schedule_queue.entries ⟨w.schedule_queue.rem_idx, hr⟩
              ⟨ENTRY_STATE_SCHEDULED,
               (w.schedule_queue.entries ⟨w.schedule_queue.rem_idx, hr⟩).profile,
               (w.schedule_queue.entries ⟨w.schedule_queue.rem_idx, hr⟩).timestamp⟩⟩,
          hw := profile_load module
                  (w.schedule_queue.entries ⟨w.schedule_queue.rem_idx, hr⟩).profile w.hw
                ++ [hw_op.tamer_schedule module
                      (w.schedule_queue.entries ⟨w.schedule_queue.rem_idx, hr⟩).timestamp] } := by
  cases module
  · simp [perform_work, perform_work_trigger_idle w trigger_ctl now hst hc, peek_next_retune, hn,
      perform_work_entry, work_state.queue_of, load_eq_some _ _ hr, he,
      store_state_eq_some _ _ _ hr, work_state.set_queue, hst]
  · simp [perform_work, perform_work_trigger_idle w trigger_ctl now hst hc, peek_next_retune, hn,
      perform_work_entry, work_state.queue_of, load_eq_some _ _ hr, he,
      store_state_eq_some _ _ _ hr, work_state.set_queue, hst]
  · exact absurd rfl hm

theorem perform_work_idle_ready (P : platform) (w : work_state) (module : bladerf_module)
    (trigger_ctl now : Nat) (hm : module ≠ BLADERF_MODULE_OTHER)
    (hst : w.trigger_info.state = TRIGGER_IDLE) (hc : w.trigger_queue.count = 0)
    (hn : w.schedule_queue.count ≠ 0) (hr : w.schedule_queue.rem_idx < 16)
    (he : (w.schedule_queue.entries ⟨w.schedule_queue.rem_idx, hr⟩).state = ENTRY_STATE_READY) :
    perform_work P w module trigger_ctl now
      = some { w with
          schedule_queue := ⟨w.schedule_queue.count - 1, w.schedule_queue.ins_idx,
            (w.schedule_queue.rem_idx + 1) % 16,
            Function.update w.schedule_queue.entries ⟨w.schedule_queue.rem_idx, hr⟩
              ⟨ENTRY_STATE_DONE,
               (w.schedule_queue.entries ⟨w.schedule_queue.rem_idx, hr⟩).profile,
               (w.schedule_queue.entries ⟨w.schedule_queue.rem_idx, hr⟩).timestamp⟩⟩,
          hw := profile_activate P module
                  (w.schedule_queue.entries ⟨w.schedule_queue.rem_idx, hr⟩).profile w.hw } := by
  cases module
  · simp [perform_work, perform_work_trigger_idle w trigger_ctl now hst hc, peek_next_retune, hn,
      perform_work_entry, work_state.queue_of, load_eq_some _ _ hr, he,
      dequeue_retune_some _ hn hr, hst]
  · simp [perform_work, perform_work_trigger_idle w trigger_ctl now hst hc, peek_next_retune, hn,
      perform_work_entry, work_state.queue_of, load_eq_some _ _ hr, he,
      dequeue_retune_some _ hn hr, hst]
  · exact absurd rfl hm


theorem retune_isr_scheduled (q : queue) (n : Nat) (hn : q.count ≠ 0) (hr : q.rem_idx < 16)
    (he : (q.entries ⟨q.rem_idx, hr⟩).state = ENTRY_STATE_SCHEDULED) :
    retune_isr q 0 n = some (⟨q.count, q.ins_idx, q.rem_idx,
      Function.update q.entries ⟨q.rem_idx, hr⟩
        ⟨ENTRY_STATE_READY, (q.entries ⟨q.rem_idx, hr⟩).profile,
         (q.entries ⟨q.rem_idx, hr⟩).timestamp⟩⟩, n) := by
  have hk : (q.rem_idx + 0) &&& (RETUNE2_QUEUE_MAX - 1) = q.rem_idx := by
    rw [and_mask_eq_mod, Nat.add_zero, Nat.mod_eq_of_lt hr]
  simp only [retune_isr, peek_next_retune_offset, if_neg hn, hk, load_eq_some _ _ hr, he,
    if_true, store_state_eq_some _ _ _ hr, Option.map_some']

theorem perform_work_rx_idle_new (P : platform) (s : globals) (trigger_ctl now : Nat)
    (p : Option profile_ref) (T : Nat)
    (hst : s.rx_trigger_info.state = TRIGGER_IDLE) (hc : s.rx_trigger_queue.count = 0)
    (hn : s.rx_queue.count ≠ 0) (hr : s.rx_queue.rem_idx < 16)
    (he : s.rx_queue.entries ⟨s.rx_queue.rem_idx, hr⟩ = ⟨ENTRY_STATE_NEW, p, T⟩) :
    perform_work_rx P s trigger_ctl now
      = some { s with
          rx_queue := ⟨s.rx_queue.count, s.rx_queue.ins_idx, s.rx_queue.rem_idx,
            Function.update s.rx_queue.entries ⟨s.rx_queue.rem_idx, hr⟩
              ⟨ENTRY_STATE_SCHEDULED, p, T⟩⟩,
          hw := profile_load BLADERF_MODULE_RX p s.hw
                  ++ [hw_op.tamer_schedule BLADERF_MODULE_RX T] } := by
  have h := perform_work_idle_new P s.rx_work BLADERF_MODULE_RX trigger_ctl now (by decide)
    hst hc hn hr (by simp [globals.rx_work, he])
  rw [perform_work_rx, h]
  simp only [Option.map_some', globals.put_rx, globals.rx_work, he]

theorem retune_rx_idle_scheduled (s : globals) (p : Option profile_ref) (T : Nat)
    (hst : s.rx_trigger_info.state = TRIGGER_IDLE)
    (hn : s.rx_queue.count ≠ 0) (hr : s.rx_queue.rem_idx < 16)
    (he : s.rx_queue.entries ⟨s.rx_queue.rem_idx, hr⟩ = ⟨ENTRY_STATE_SCHEDULED, p, T⟩) :
    retune_rx s
      = some { s with
          rx_queue := ⟨s.rx_queue.count, s.rx_queue.ins_idx, s.rx_queue.rem_idx,
            Function.update s.rx_queue.entries ⟨s.rx_queue.rem_idx, hr⟩
              ⟨ENTRY_STATE_READY, p, T⟩⟩,
          hw := s.hw ++ [hw_op.timer_tamer_clear_interrupt BLADERF_MODULE_RX] } := by
  have h := retune_isr_scheduled s.rx_queue s.pkt_retune2_error_count hn hr (by rw [he])
  simp only [retune_rx, hst, true_or, if_true, h, Option.map_some', he]

theorem perform_work_rx_idle_ready (P : platform) (s : globals) (trigger_ctl now : Nat)
    (p : Option profile_ref) (T : Nat)
    (hst : s.rx_trigger_info.state = TRIGGER_IDLE) (hc : s.rx_trigger_queue.count = 0)
    (hn : s.rx_queue.count ≠ 0) (hr : s.rx_queue.rem_idx < 16)
    (he : s.rx_queue.entries ⟨s.rx_queue.rem_idx, hr⟩ = ⟨ENTRY_STATE_READY, p, T⟩) :
    perform_work_rx P s trigger_ctl now
      = some { s with
          rx_queue := ⟨s.rx_queue.count - 1, s.rx_queue.ins_idx, (s.rx_queue.rem_idx + 1) % 16,
            Function.update s.rx_queue.entries ⟨s.rx_queue.rem_idx, hr⟩
              ⟨ENTRY_STATE_DONE, p, T⟩⟩,
          hw := profile_activate P BLADERF_MODULE_RX p s.hw } := by
  have h := perform_work_idle_ready P s.rx_work BLADERF_MODULE_RX trigger_ctl now (by decide)
    hst hc hn hr (by simp [globals.rx_work, he])
  rw [perform_work_rx, h]
  simp only [Option.map_some', globals.put_rx, globals.rx_work, he]

/-- C7: in a state whose RX schedule queue is an empty ring buffer (the ring
invariant holds and `count = 0`), whose RX trigger queue is empty and whose RX
trigger state is Idle, for every profile `r` and timestamp `T` and whatever the
trigger control register and the clock read: `enqueue_retune` on the schedule
queue returns 1; one `perform_work` tick then loads `r` into hardware, schedules
exactly one timer, for time `T`, and leaves the head entry Scheduled; the RX
interrupt handler then makes the head Ready; and one more tick activates `r`
and leaves the schedule queue with `count = 0` and that entry Done. -/
theorem rx_schedule_scenario (P : platform) (s : globals) (r : profile_ref)
    (T ctl1 now1 ctl2 now2 : Nat)
    (hok : queue_ok s.rx_queue) (hc : s.rx_queue.count = 0)
    (ht : s.rx_trigger_queue.count = 0)
    (hst : s.rx_trigger_info.state = TRIGGER_IDLE) :
    ∃ q1 s2 s3 s4,
      enqueue_retune s.rx_queue (some r) T = some (q1, 1) ∧
      perform_work_rx P { s with rx_queue := q1 } ctl1 now1 = some s2 ∧
      s2.hw = s.hw ++ [hw_op.adi_fastlock_load BLADERF_MODULE_RX r,
                       hw_op.tamer_schedule BLADERF_MODULE_RX T] ∧
      peek_next_retune s2.rx_queue = some s.rx_queue.rem_idx ∧
      s2.rx_queue.load s.rx_queue.rem_idx = some ⟨ENTRY_STATE_SCHEDULED, some r, T⟩ ∧
      s2.rx_queue.count = 1 ∧
      retune_rx s2 = some s3 ∧
      s3.rx_queue.load s.rx_queue.rem_idx = some ⟨ENTRY_STATE_READY, some r, T⟩ ∧
      perform_work_rx P s3 ctl2 now2 = some s4 ∧
      s4.hw = (if P.BLADERF_NIOS_LIBAD936X
                then s3.hw ++ [hw_op.rfic_invalidate_frequency BLADERF_MODULE_RX]
                else s3.hw)
              ++ [hw_op.adi_fastlock_recall BLADERF_MODULE_RX r, hw_op.adi_rfport_select r,
                  hw_op.adi_rfspdt_select BLADERF_MODULE_RX r] ∧
      s4.rx_queue.count = 0 ∧
      s4.rx_queue.load s.rx_queue.rem_idx = some ⟨ENTRY_STATE_DONE, some r, T⟩ := by
  obtain ⟨hc16, hi, hr, hring⟩ := hok
  have hir : s.rx_queue.ins_idx = s.rx_queue.rem_idx := by omega
  have henq := enqueue_retune_room s.rx_queue (some r) T (by omega) hi
  simp only [hc, Nat.zero_add] at henq
  have hfin : (⟨s.rx_queue.rem_idx, hr⟩ : Fin 16) = ⟨s.rx_queue.ins_idx, hi⟩ := by
    simp [hir]
  have h2 := perform_work_rx_idle_new P
    { s with rx_queue := ⟨1, (s.rx_queue.ins_idx + 1) % 16, s.rx_queue.rem_idx,
        Function.update s.rx_queue.entries ⟨s.rx_queue.ins_idx, hi⟩
          ⟨ENTRY_STATE_NEW, some r, T⟩⟩ }
    ctl1 now1 (some r) T hst ht (by simp) hr
      (by show Function.update s.rx_queue.entries ⟨s.rx_queue.ins_idx, hi⟩
            ⟨ENTRY_STATE_NEW, some r, T⟩ ⟨s.rx_queue.rem_idx, hr⟩ = _
          rw [hfin, Function.update_same])
  have h3 := retune_rx_idle_scheduled _ (some r) T
    (show ({ s with
          rx_queue := ⟨1, (s.rx_queue.ins_idx + 1) % 16, s.rx_queue.rem_idx,
            Function.update (Function.update s.rx_queue.entries ⟨s.rx_queue.ins_idx, hi⟩
              ⟨ENTRY_STATE_NEW, some r, T⟩) ⟨s.rx_queue.rem_idx, hr⟩
              ⟨ENTRY_STATE_SCHEDULED, some r, T⟩⟩,
          hw := profile_load BLADERF_MODULE_RX (some r) s.hw
                  ++ [hw_op.tamer_schedule BLADERF_MODULE_RX T] } : globals).rx_trigger_info.state
        = TRIGGER_IDLE from hst)
    (by simp) hr (by simp)
  have h4 := perform_work_rx_idle_ready P _ ctl2 now2 (some r) T
    (show ({ s with
          rx_queue := ⟨1, (s.rx_queue.ins_idx + 1) % 16, s.rx_queue.rem_idx,
            Function.update (Function.update (Function.update s.rx_queue.entries
              ⟨s.rx_queue.ins_idx, hi⟩ ⟨ENTRY_STATE_NEW, some r, T⟩) ⟨s.rx_queue.rem_idx, hr⟩
              ⟨ENTRY_STATE_SCHEDULED, some r, T⟩) ⟨s.rx_queue.rem_idx, hr⟩
              ⟨ENTRY_STATE_READY, some r, T⟩⟩,
          hw := profile_load BLADERF_MODULE_RX (some r) s.hw
                  ++ [hw_op.tamer_schedule BLADERF_MODULE_RX T]
                  ++ [hw_op.timer_tamer_clear_interrupt BLADERF_MODULE_RX] } :
        globals).rx_trigger_info.state = TRIGGER_IDLE from hst)
    ht (by simp) hr (by simp)
  refine ⟨_, _, _, _, henq, h2, ?_, ?_, ?_, rfl, h3, ?_, h4, ?_, rfl, ?_⟩
  · simp [profile_load]
  · simp [peek_next_retune]
  · simp [queue.load, hr]
  · simp [queue.load, hr]
  · simp [profile_activate]
  · simp [queue.load, hr]

/-- Witness of C7: the start state, the first RX profile, `T = 1000`. -/
theorem rx_schedule_scenario_witness :
    queue_ok zero_globals.rx_queue ∧
    ∃ q1 s2 s3 s4,
      enqueue_retune zero_globals.rx_queue (some (profile_ref.rx 0)) 1000 = some (q1, 1) ∧
      perform_work_rx sample_platform { zero_globals with rx_queue := q1 } 0 0 = some s2 ∧
      s2.hw = zero_globals.hw
        ++ [hw_op.adi_fastlock_load BLADERF_MODULE_RX (profile_ref.rx 0),
            hw_op.tamer_schedule BLADERF_MODULE_RX 1000] ∧
      peek_next_retune s2.rx_queue = some zero_globals.rx_queue.rem_idx ∧
      s2.rx_queue.load zero_globals.rx_queue.rem_idx
        = some ⟨ENTRY_STATE_SCHEDULED, some (profile_ref.rx 0), 1000⟩ ∧
      s2.rx_queue.count = 1 ∧
      retune_rx s2 = some s3 ∧
      s3.rx_queue.load zero_globals.rx_queue.rem_idx
        = some ⟨ENTRY_STATE_READY, some (profile_ref.rx 0), 1000⟩ ∧
      perform_work_rx sample_platform s3 8 50 = some s4 ∧
      s4.hw = (if sample_platform.BLADERF_NIOS_LIBAD936X
                then s3.hw ++ [hw_op.rfic_invalidate_frequency BLADERF_MODULE_RX]
                else s3.hw)
              ++ [hw_op.adi_fastlock_recall BLADERF_MODULE_RX (profile_ref.rx 0),
                  hw_op.adi_rfport_select (profile_ref.rx 0),
                  hw_op.adi_rfspdt_select BLADERF_MODULE_RX (profile_ref.rx 0)] ∧
      s4.rx_queue.count = 0 ∧
      s4.rx_queue.load zero_globals.rx_queue.rem_idx
        = some ⟨ENTRY_STATE_DONE, some (profile_ref.rx 0), 1000⟩ :=
  ⟨by decide,
   rx_schedule_scenario sample_platform zero_globals (profile_ref.rx 0) 1000 0 0 8 50
     (by decide) rfl rfl rfl⟩

/-! ## The CLEAR_QUEUE request (C8) -/

/-- C8, as stated, fails: with the TX trigger state Run, a CLEAR_QUEUE request
for TX empties both TX queues and reports success, and the TX trigger state is
still Run, not Idle; and a CLEAR_QUEUE request naming a profile outside the TX
table writes outside the table before it reaches the queues. -/
theorem clear_queue_leaves_trigger_state :
    (∃ s1 resp, pkt_retune2 sample_platform tx_running_globals tx_clear_request 0 0
        = some (s1, resp) ∧
      s1.tx_queue.count = 0 ∧ s1.tx_trigger_queue.count = 0 ∧
      s1.tx_trigger_info.state = TRIGGER_RUN ∧ s1.tx_trigger_info.state ≠ TRIGGER_IDLE) ∧
    pkt_retune2 sample_platform tx_running_globals tx_clear_request_outside 0 0 = none :=
  ⟨⟨_, _, rfl, rfl, rfl, rfl, by decide⟩, rfl⟩

/-- C8 (amended): for every prior state, after `pkt_retune2` handles a request
for TX whose timestamp is the CLEAR_QUEUE sentinel (the sentinel differing from
NOW, the profile identifier lying inside the TX table), the TX schedule queue
and the TX trigger queue are reset (so both have `count = 0`), the TX trigger
record, its state included, is unchanged, and the response is exactly the
success flag. -/
theorem clear_queue_tx (P : platform) (s : globals) (req : request)
    (start_time end_time : Nat)
    (hm : req.module = BLADERF_MODULE_TX)
    (hts : req.timestamp = P.NIOS_PKT_RETUNE2_CLEAR_QUEUE)
    (hne : P.NIOS_PKT_RETUNE2_CLEAR_QUEUE ≠ P.NIOS_PKT_RETUNE2_NOW)
    (htbl : req.nios_profile < s.fastlocks_tx.length) :
    ∃ s1 resp, pkt_retune2 P s req start_time end_time = some (s1, resp) ∧
      s1.tx_queue = reset_queue s.tx_queue ∧
      s1.tx_trigger_queue = reset_queue s.tx_trigger_queue ∧
      s1.tx_queue.count = 0 ∧ s1.tx_trigger_queue.count = 0 ∧
      s1.tx_trigger_info = s.tx_trigger_info ∧
      resp.flags = P.NIOS_PKT_RETUNE2_RESP_FLAG_SUCCESS ∧
      resp.flags &&& P.NIOS_PKT_RETUNE2_RESP_FLAG_SUCCESS
        = P.NIOS_PKT_RETUNE2_RESP_FLAG_SUCCESS := by
  refine ⟨{ s with
      fastlocks_tx := s.fastlocks_tx.set req.nios_profile ⟨req.rffe_profile, req.port, req.spdt⟩
      tx_queue := reset_queue s.tx_queue
      tx_trigger_queue := reset_queue s.tx_trigger_queue },
    ⟨(end_time + 2 ^ 64 - start_time % 2 ^ 64) % 2 ^ 64, P.NIOS_PKT_RETUNE2_RESP_FLAG_SUCCESS⟩,
    ?_, rfl, rfl, rfl, rfl, rfl, rfl, Nat.and_self _⟩
  simp [pkt_retune2, hm, hts, hne, update_profile, htbl]

/-- Witness of C8 (amended): the running TX state and a CLEAR_QUEUE request. -/
theorem clear_queue_tx_witness :
    ∃ s1 resp, pkt_retune2 sample_platform tx_running_globals tx_clear_request 3 9
        = some (s1, resp) ∧
      s1.tx_queue = reset_queue tx_running_globals.tx_queue ∧
      s1.tx_trigger_queue = reset_queue tx_running_globals.tx_trigger_queue ∧
      s1.tx_queue.count = 0 ∧ s1.tx_trigger_queue.count = 0 ∧
      s1.tx_trigger_info = tx_running_globals.tx_trigger_info ∧
      resp.flags = sample_platform.NIOS_PKT_RETUNE2_RESP_FLAG_SUCCESS ∧
      resp.flags &&& sample_platform.NIOS_PKT_RETUNE2_RESP_FLAG_SUCCESS
        = sample_platform.NIOS_PKT_RETUNE2_RESP_FLAG_SUCCESS :=
  clear_queue_tx sample_platform tx_running_globals tx_clear_request 3 9 rfl rfl
    (by decide) (by decide)

/-! ## Initialisation (C9) -/

/-- C9, as stated, fails: run on a state whose TX trigger state is Run and whose
TX trigger queue holds an entry, `pkt_retune2_init` leaves the trigger state
Run and the trigger queue non-empty. -/
theorem init_leaves_trigger_state :
    (pkt_retune2_init tx_running_globals).tx_trigger_info.state = TRIGGER_RUN ∧
    (pkt_retune2_init tx_running_globals).tx_trigger_info.state ≠ TRIGGER_IDLE ∧
    (pkt_retune2_init tx_running_globals).tx_trigger_queue.count = 1 :=
  ⟨rfl, by decide, rfl⟩

/-- C9 (amended): for every prior state, `pkt_retune2_init` run twice yields the
same state as run once; after it the RX and TX schedule queues are reset
(`count = 0`, indices 0, every entry Invalid) and the two trigger records are
as they were before; and from a start state of the program all four queues are
empty and both trigger states are Idle. -/
theorem init_idempotent (s : globals) :
    pkt_retune2_init (pkt_retune2_init s) = pkt_retune2_init s ∧
    (pkt_retune2_init s).rx_queue = reset_queue s.rx_queue ∧
    (pkt_retune2_init s).tx_queue = reset_queue s.tx_queue ∧
    (pkt_retune2_init s).rx_queue.count = 0 ∧
    (pkt_retune2_init s).tx_queue.count = 0 ∧
    (pkt_retune2_init s).rx_trigger_info = s.rx_trigger_info ∧
    (pkt_retune2_init s).tx_trigger_info = s.tx_trigger_info ∧
    (initial s →
      (∀ i, ((pkt_retune2_init s).get_queue i).count = 0) ∧
      (pkt_retune2_init s).rx_trigger_info.state = TRIGGER_IDLE ∧
      (pkt_retune2_init s).tx_trigger_info.state = TRIGGER_IDLE) := by
  refine ⟨rfl, rfl, rfl, rfl, rfl, rfl, rfl, ?_⟩
  intro h
  obtain ⟨hq, hrx, htx, _⟩ := h
  refine ⟨?_, ?_, ?_⟩
  · intro i
    cases i
    · rfl
    · rfl
    · obtain ⟨q0, h0⟩ := hq queue_id.rx_trigger_queue
      show s.rx_trigger_queue.count = 0
      simp only [globals.get_queue] at h0
      rw [h0]
      rfl
    · obtain ⟨q0, h0⟩ := hq queue_id.tx_trigger_queue
      show s.tx_trigger_queue.count = 0
      simp only [globals.get_queue] at h0
      rw [h0]
      rfl
  · show s.rx_trigger_info.state = TRIGGER_IDLE
    rw [hrx]
    rfl
  · show s.tx_trigger_info.state = TRIGGER_IDLE
    rw [htx]
    rfl

/-- Witness of C9 (amended): the start state. -/
theorem init_idempotent_witness :
    initial zero_globals ∧
    (∀ i, ((pkt_retune2_init zero_globals).get_queue i).count = 0) ∧
    (pkt_retune2_init zero_globals).rx_trigger_info.state = TRIGGER_IDLE ∧
    (pkt_retune2_init zero_globals).tx_trigger_info.state = TRIGGER_IDLE :=
  ⟨initial_zero_globals, (init_idempotent zero_globals).2.2.2.2.2.2.2 initial_zero_globals⟩

/-! ## Requests against a full queue (C10) -/

theorem flag_clear (F S : Nat) (hS : S < 256) : (F &&& (0xff ^^^ S)) &&& S = 0 := by
  apply Nat.eq_of_testBit_eq
  intro i
  have h255 : (255 : Nat) = 2 ^ 8 - 1 := by norm_num
  simp only [Nat.testBit_and, Nat.testBit_xor, Nat.zero_testBit, h255,
    Nat.testBit_two_pow_sub_one]
  by_cases hi : i < 8
  · simp [hi]
  · have : S.testBit i = false := by
      apply Nat.testBit_lt_two_pow
      calc S < 2 ^ 8 := by simpa using hS
        _ ≤ 2 ^ i := Nat.pow_le_pow_right (by decide) (by omega)
    simp [this]

theorem peek_next_retune_offset_lt (q : queue) (offset k : Nat)
    (h : peek_next_retune_offset q offset = some k) : k < 16 := by
  unfold peek_next_retune_offset at h
  split at h
  · simp at h
  · simp only [Option.some.injEq] at h
    rw [← h, and_mask_eq_mod]
    omega

theorem profile_load_scheduled_iter_defined (fastlocks_rx fastlocks_tx : List fastlock_profile)
    (q : queue) (module : bladerf_module) (hsafe : preload_safe fastlocks_rx fastlocks_tx q)
    (acc : Nat × List hw_op) (i : Nat) :
    ∃ acc1, profile_load_scheduled_iter fastlocks_rx fastlocks_tx q module acc i
      = some acc1 := by
  unfold profile_load_scheduled_iter
  split
  · exact ⟨acc, rfl⟩
  · rename_i k hk
    have hlt := peek_next_retune_offset_lt q _ k hk
    rw [load_eq_some q k hlt]
    simp only
    by_cases hnew : (q.entries ⟨k, hlt⟩).state = ENTRY_STATE_NEW
    · obtain ⟨r, fp, hp, hd, hnum⟩ := hsafe ⟨k, hlt⟩ hnew
      rw [if_pos hnew, hp]
      simp only [hd]
      rw [if_neg (by omega)]
      split
      · exact ⟨_, rfl⟩
      · exact ⟨_, rfl⟩
    · rw [if_neg hnew]
      exact ⟨acc, rfl⟩

theorem profile_load_scheduled_defined (fastlocks_rx fastlocks_tx : List fastlock_profile)
    (q : queue) (module : bladerf_module) (hsafe : preload_safe fastlocks_rx fastlocks_tx q)
    (hw : List hw_op) :
    ∃ hw1, profile_load_scheduled fastlocks_rx fastlocks_tx q module hw = some hw1 := by
  have key : ∀ (l : List Nat) (acc : Nat × List hw_op), ∃ acc1,
      l.foldlM (profile_load_scheduled_iter fastlocks_rx fastlocks_tx q module) acc
        = some acc1 := by
    intro l
    induction l with
    | nil => intro acc; exact ⟨acc, rfl⟩
    | cons x xs ih =>
      intro acc
      obtain ⟨a1, h1⟩ :=
        profile_load_scheduled_iter_defined fastlocks_rx fastlocks_tx q module hsafe acc x
      obtain ⟨a2, h2⟩ := ih a1
      exact ⟨a2, by simp [List.foldlM_cons, h1, h2]⟩
  unfold profile_load_scheduled
  split
  · exact ⟨hw, rfl⟩
  · obtain ⟨a, ha⟩ := key (List.range q.count) (0, hw)
    exact ⟨a.2, by simp [ha]⟩

/-- C10, as stated, fails for a trigger-tagged word: with the RX trigger queue
full and the RX trigger state Idle, `pkt_retune2` leaves the queue unchanged
and returns a response whose success flag is set. It also returns no response
at all for a request on the full schedule queue that names a profile outside
the table, or that gives the profile of the queued New entries the slot number
40, which the preloader's `int` shift cannot take. -/
theorem full_trigger_queue_reports_success :
    (rx_full_globals.rx_trigger_queue.count = 16 ∧
     rx_trigger_request.timestamp &&& sample_platform.NIOS_PKT_RETUNE2_TRIGGER_MASK
       = sample_platform.NIOS_PKT_RETUNE2_TRIGGER_MASK ∧
     ∃ s1 resp, pkt_retune2 sample_platform rx_full_globals rx_trigger_request 0 0
         = some (s1, resp) ∧
       s1.rx_trigger_queue.count = 16 ∧
       resp.flags &&& sample_platform.NIOS_PKT_RETUNE2_RESP_FLAG_SUCCESS
         = sample_platform.NIOS_PKT_RETUNE2_RESP_FLAG_SUCCESS ∧
       resp.flags &&& sample_platform.NIOS_PKT_RETUNE2_RESP_FLAG_SUCCESS ≠ 0) ∧
    (rx_full_globals.rx_queue.count = 16 ∧
     pkt_retune2 sample_platform rx_full_globals rx_plain_request_outside 0 0 = none ∧
     pkt_retune2 sample_platform rx_full_globals rx_plain_request_slot40 0 0 = none) :=
  ⟨⟨rfl, by decide, _, _, rfl, rfl, by decide, by decide⟩, rfl, rfl, rfl⟩

/-- C10 (amended): for every request on channel RX or TX whose timestamp word
is neither NOW nor CLEAR_QUEUE, whose profile identifier lies inside the
channel's table, and with the preloader's accesses to the targeted queue
defined: if the word is plain and the schedule queue holds 16 entries,
`pkt_retune2` returns, leaves that queue unchanged and clears the success flag;
if the word is trigger-tagged and the trigger queue holds 16 entries,
`pkt_retune2` returns, leaves that queue unchanged, and the success flag is
clear exactly when the channel's trigger state is not Idle. -/
theorem full_queue_request (P : platform) (s : globals) (req : request) (ch : channel)
    (start_time end_time : Nat)
    (hm : req.module = ch.module)
    (hnow : req.timestamp ≠ P.NIOS_PKT_RETUNE2_NOW)
    (hclr : req.timestamp ≠ P.NIOS_PKT_RETUNE2_CLEAR_QUEUE)
    (htbl : req.nios_profile < (s.fastlocks ch).length)
    (hS : P.NIOS_PKT_RETUNE2_RESP_FLAG_SUCCESS < 256)
    (hS0 : P.NIOS_PKT_RETUNE2_RESP_FLAG_SUCCESS ≠ 0) :
    (req.timestamp &&& P.NIOS_PKT_RETUNE2_TRIGGER_MASK ≠ P.NIOS_PKT_RETUNE2_TRIGGER_MASK →
      (s.schedule_queue ch).count = 16 →
      preload_safe (s.with_profile req).fastlocks_rx (s.with_profile req).fastlocks_tx
        (s.schedule_queue ch) →
      ∃ s1 resp, pkt_retune2 P s req start_time end_time = some (s1, resp) ∧
        s1.schedule_queue ch = s.schedule_queue ch ∧
        resp.flags &&& P.NIOS_PKT_RETUNE2_RESP_FLAG_SUCCESS = 0) ∧
    (req.timestamp &&& P.NIOS_PKT_RETUNE2_TRIGGER_MASK = P.NIOS_PKT_RETUNE2_TRIGGER_MASK →
      (s.trigger_queue ch).count = 16 →
      preload_safe (s.with_profile req).fastlocks_rx (s.with_profile req).fastlocks_tx
        (s.trigger_queue ch) →
      ∃ s1 resp, pkt_retune2 P s req start_time end_time = some (s1, resp) ∧
        s1.trigger_queue ch = s.trigger_queue ch ∧
        (resp.flags &&& P.NIOS_PKT_RETUNE2_RESP_FLAG_SUCCESS = 0 ↔
          (s.trigger_info ch).state ≠ TRIGGER_IDLE)) := by
  have hclear := flag_clear P.NIOS_PKT_RETUNE2_RESP_FLAG_SUCCESS
    P.NIOS_PKT_RETUNE2_RESP_FLAG_SUCCESS hS
  constructor
  · intro hplain hfull hsafe
    cases ch with
    | rx =>
      simp only [channel.module] at hm
      simp only [globals.schedule_queue] at hfull hsafe
      simp only [globals.fastlocks] at htbl
      simp only [globals.with_profile, hm] at hsafe
      obtain ⟨hw1, hpre⟩ := profile_load_scheduled_defined _ _ _ BLADERF_MODULE_RX hsafe s.hw
      refine ⟨{ s with
          fastlocks_rx :=
            s.fastlocks_rx.set req.nios_profile ⟨req.rffe_profile, req.port, req.spdt⟩
          hw := hw1 },
        ⟨(end_time + 2 ^ 64 - start_time % 2 ^ 64) % 2 ^ 64,
         P.NIOS_PKT_RETUNE2_RESP_FLAG_SUCCESS
           &&& (0xff ^^^ P.NIOS_PKT_RETUNE2_RESP_FLAG_SUCCESS)⟩, ?_, rfl, hclear⟩
      simp [pkt_retune2, hm, hnow, hclr, hplain, update_profile, htbl, pkt_retune2_plain,
        enqueue_retune_full s.rx_queue _ _ (le_of_eq hfull.symm), hpre]
    | tx =>
      simp only [channel.module] at hm
      simp only [globals.schedule_queue] at hfull hsafe
      simp only [globals.fastlocks] at htbl
      simp only [globals.with_profile, hm] at hsafe
      obtain ⟨hw1, hpre⟩ := profile_load_scheduled_defined _ _ _ BLADERF_MODULE_TX hsafe s.hw
      refine ⟨{ s with
          fastlocks_tx :=
            s.fastlocks_tx.set req.nios_profile ⟨req.rffe_profile, req.port, req.spdt⟩
          hw := hw1 },
        ⟨(end_time + 2 ^ 64 - start_time % 2 ^ 64) % 2 ^ 64,
         P.NIOS_PKT_RETUNE2_RESP_FLAG_SUCCESS
           &&& (0xff ^^^ P.NIOS_PKT_RETUNE2_RESP_FLAG_SUCCESS)⟩, ?_, rfl, hclear⟩
      simp [pkt_retune2, hm, hnow, hclr, hplain, update_profile, htbl, pkt_retune2_plain,
        enqueue_retune_full s.tx_queue _ _ (le_of_eq hfull.symm), hpre]
  · intro htrig hfull hsafe
    cases ch with
    | rx =>
      simp only [channel.module] at hm
      simp only [globals.trigger_queue] at hfull hsafe
      simp only [globals.fastlocks] at htbl
      simp only [globals.with_profile, hm] at hsafe
      obtain ⟨hw1, hpre⟩ := profile_load_scheduled_defined _ _ _ BLADERF_MODULE_RX hsafe s.hw
      have hti : ∀ ti : trigger_state_info, ti.state = s.rx_trigger_info.state →
          ∃ resp : response,
            resp = ⟨(end_time + 2 ^ 64 - start_time % 2 ^ 64) % 2 ^ 64,
                    if (ti.state.toCtorIdx : Int) ≠ 0 then
                      P.NIOS_PKT_RETUNE2_RESP_FLAG_SUCCESS
                        &&& (0xff ^^^ P.NIOS_PKT_RETUNE2_RESP_FLAG_SUCCESS)
                    else P.NIOS_PKT_RETUNE2_RESP_FLAG_SUCCESS⟩ ∧
            (resp.flags &&& P.NIOS_PKT_RETUNE2_RESP_FLAG_SUCCESS = 0 ↔
              s.rx_trigger_info.state ≠ TRIGGER_IDLE) := by
        intro ti hst
        refine ⟨_, rfl, ?_⟩
        rw [hst]
        cases s.rx_trigger_info.state
        · simp [trigger_state.toCtorIdx, hS0]
        · simp [trigger_state.toCtorIdx, hclear]
        · simp [trigger_state.toCtorIdx, hclear]
        · simp [trigger_state.toCtorIdx, hclear]
      have henq := enqueue_retune_full s.rx_trigger_queue
        (some (profile_ref.rx req.nios_profile))
        (req.timestamp &&& P.NIOS_PKT_RETUNE2_TRIGGER_TIMESTAMP_MASK) (le_of_eq hfull.symm)
      by_cases hp : (req.timestamp &&& P.NIOS_PKT_RETUNE2_TRIGGER_PERIOD_MASK) >>> 16
          = 65535
      · obtain ⟨resp, hresp, hflag⟩ := hti s.rx_trigger_info rfl
        refine ⟨{ s with
            fastlocks_rx :=
              s.fastlocks_rx.set req.nios_profile ⟨req.rffe_profile, req.port, req.spdt⟩
            hw := hw1 }, resp, ?_, rfl, hflag⟩
        rw [hresp]
        simp [pkt_retune2, hm, hnow, hclr, htrig, update_profile, htbl, pkt_retune2_trigger,
          henq, hpre, hp]
      · obtain ⟨resp, hresp, hflag⟩ := hti
          { s.rx_trigger_info with
              period := (req.timestamp &&& P.NIOS_PKT_RETUNE2_TRIGGER_PERIOD_MASK) >>> 16 } rfl
        refine ⟨{ s with
            fastlocks_rx :=
              s.fastlocks_rx.set req.nios_profile ⟨req.rffe_profile, req.port, req.spdt⟩
            hw := hw1
            rx_trigger_info :=
              { s.rx_trigger_info with
                  period := (req.timestamp &&& P.NIOS_PKT_RETUNE2_TRIGGER_PERIOD_MASK) >>> 16 } },
          resp, ?_, rfl, hflag⟩
        rw [hresp]
        simp [pkt_retune2, hm, hnow, hclr, htrig, update_profile, htbl, pkt_retune2_trigger,
          henq, hpre, hp]
    | tx =>
      simp only [channel.module] at hm
      simp only [globals.trigger_queue] at hfull hsafe
      simp only [globals.fastlocks] at htbl
      simp only [globals.with_profile, hm] at hsafe
      obtain ⟨hw1, hpre⟩ := profile_load_scheduled_defined _ _ _ BLADERF_MODULE_TX hsafe s.hw
      have hti : ∀ ti : trigger_state_info, ti.state = s.tx_trigger_info.state →
          ∃ resp : response,
            resp = ⟨(end_time + 2 ^ 64 - start_time % 2 ^ 64) % 2 ^ 64,
                    if (ti.state.toCtorIdx : Int) ≠ 0 then
                      P.NIOS_PKT_RETUNE2_RESP_FLAG_SUCCESS
                        &&& (0xff ^^^ P.NIOS_PKT_RETUNE2_RESP_FLAG_SUCCESS)
                    else P.NIOS_PKT_RETUNE2_RESP_FLAG_SUCCESS⟩ ∧
            (resp.flags &&& P.NIOS_PKT_RETUNE2_RESP_FLAG_SUCCESS = 0 ↔
              s.tx_trigger_info.state ≠ TRIGGER_IDLE) := by
        intro ti hst
        refine ⟨_, rfl, ?_⟩
        rw [hst]
        cases s.tx_trigger_info.state
        · simp [trigger_state.toCtorIdx, hS0]
        · simp [trigger_state.toCtorIdx, hclear]
        · simp [trigger_state.toCtorIdx, hclear]
        · simp [trigger_state.toCtorIdx, hclear]
      have henq := enqueue_retune_full s.tx_trigger_queue
        (some (profile_ref.tx req.nios_profile))
        (req.timestamp &&& P.NIOS_PKT_RETUNE2_TRIGGER_TIMESTAMP_MASK) (le_of_eq hfull.symm)
      by_cases hp : (req.timestamp &&& P.NIOS_PKT_RETUNE2_TRIGGER_PERIOD_MASK) >>> 16
          = 65535
      · obtain ⟨resp, hresp, hflag⟩ := hti s.tx_trigger_info rfl
        refine ⟨{ s with
            fastlocks_tx :=
              s.fastlocks_tx.set req.nios_profile ⟨req.rffe_profile, req.port, req.spdt⟩
            hw := hw1 }, resp, ?_, rfl, hflag⟩
        rw [hresp]
        simp [pkt_retune2, hm, hnow, hclr, htrig, update_profile, htbl, pkt_retune2_trigger,
          henq, hpre, hp]
      · obtain ⟨resp, hresp, hflag⟩ := hti
          { s.tx_trigger_info with
              period := (req.timestamp &&& P.NIOS_PKT_RETUNE2_TRIGGER_PERIOD_MASK) >>> 16 } rfl
        refine ⟨{ s with
            fastlocks_tx :=
              s.fastlocks_tx.set req.nios_profile ⟨req.rffe_profile, req.port, req.spdt⟩
            hw := hw1
            tx_trigger_info :=
              { s.tx_trigger_info with
                  period := (req.timestamp &&& P.NIOS_PKT_RETUNE2_TRIGGER_PERIOD_MASK) >>> 16 } },
          resp, ?_, rfl, hflag⟩
        rw [hresp]
        simp [pkt_retune2, hm, hnow, hclr, htrig, update_profile, htbl, pkt_retune2_trigger,
          henq, hpre, hp]

theorem preload_safe_queue_full (req : request) (hr : req.module = BLADERF_MODULE_RX)
    (hp : req.nios_profile = 0) (hs : req.rffe_profile = 0) :
    preload_safe (rx_full_globals.with_profile req).fastlocks_rx
      (rx_full_globals.with_profile req).fastlocks_tx queue_full := by
  intro i _
  refine ⟨profile_ref.rx 0, ⟨0, req.port, req.spdt⟩, rfl, ?_, Nat.zero_lt_succ 30⟩
  simp [globals.with_profile, hr, hp, hs, rx_full_globals, zero_globals, deref_profile]

/-- Witness of C10 (amended): a plain and a trigger-tagged request for RX on a
state whose RX queues are full. -/
theorem full_queue_request_witness :
    (∃ s1 resp, pkt_retune2 sample_platform rx_full_globals rx_plain_request 0 0
        = some (s1, resp) ∧
      s1.schedule_queue channel.rx = rx_full_globals.schedule_queue channel.rx ∧
      resp.flags &&& sample_platform.NIOS_PKT_RETUNE2_RESP_FLAG_SUCCESS = 0) ∧
    (∃ s1 resp, pkt_retune2 sample_platform rx_full_globals rx_trigger_request 0 0
        = some (s1, resp) ∧
      s1.trigger_queue channel.rx = rx_full_globals.trigger_queue channel.rx ∧
      (resp.flags &&& sample_platform.NIOS_PKT_RETUNE2_RESP_FLAG_SUCCESS = 0 ↔
        (rx_full_globals.trigger_info channel.rx).state ≠ TRIGGER_IDLE)) :=
  ⟨(full_queue_request sample_platform rx_full_globals rx_plain_request channel.rx 0 0
      rfl (by decide) (by decide) (by decide) (by decide) (by decide)).1
      (by decide) rfl (preload_safe_queue_full rx_plain_request rfl rfl rfl),
   (full_queue_request sample_platform rx_full_globals rx_trigger_request channel.rx 0 0
      rfl (by decide) (by decide) (by decide) (by decide) (by decide)).2
      (by decide) rfl (preload_safe_queue_full rx_trigger_request rfl rfl rfl)⟩

/-! ## A tick on a New entry (C13) -/

theorem perform_work_trigger_frame (w w1 : work_state) (trigger_ctl now : Nat)
    (e : Option (queue_sel × Nat))
    (h : perform_work_trigger w trigger_ctl now = some (w1, e)) :
    w1.schedule_queue = w.schedule_queue ∧ w1.hw = w.hw ∧ w1.error_count = w.error_count ∧
    (e ≠ none → w1.trigger_queue = w.trigger_queue) := by
  unfold perform_work_trigger at h
  simp only at h
  split at h
  · split at h <;>
      (simp only [Option.some.injEq, Prod.mk.injEq] at h
       obtain ⟨rfl, _⟩ := h
       exact ⟨rfl, rfl, rfl, fun _ => rfl⟩)
  · split at h
    · split at h
      · split at h
        · simp at h
        · simp only [Option.map_eq_some'] at h
          obtain ⟨q2, _, heq⟩ := h
          simp only [Prod.mk.injEq] at heq
          obtain ⟨rfl, rfl⟩ := heq
          exact ⟨rfl, rfl, rfl, fun hne => absurd rfl hne⟩
      · simp only [Option.some.injEq, Prod.mk.injEq] at h
        obtain ⟨rfl, _⟩ := h
        exact ⟨rfl, rfl, rfl, fun _ => rfl⟩
    · simp only [Option.some.injEq, Prod.mk.injEq] at h
      obtain ⟨rfl, _⟩ := h
      exact ⟨rfl, rfl, rfl, fun _ => rfl⟩
  · split at h <;>
      (simp only [Option.some.injEq, Prod.mk.injEq] at h
       obtain ⟨rfl, _⟩ := h
       exact ⟨rfl, rfl, rfl, fun _ => rfl⟩)
  · simp only [Option.some.injEq, Prod.mk.injEq] at h
    obtain ⟨rfl, _⟩ := h
    exact ⟨rfl, rfl, rfl, fun _ => rfl⟩

theorem perform_work_eq_entry (P : platform) (w w1 : work_state) (module : bladerf_module)
    (trigger_ctl now : Nat) (sel : queue_sel) (k : Nat)
    (hm : module ≠ BLADERF_MODULE_OTHER)
    (h : perform_work_trigger w trigger_ctl now = some (w1, some (sel, k))) :
    perform_work P w module trigger_ctl now = perform_work_entry P w1 module sel k := by
  cases module
  · simp [perform_work, h]
  · simp [perform_work, h]
  · exact absurd rfl hm

theorem perform_work_eq_none (P : platform) (w w1 : work_state) (module : bladerf_module)
    (trigger_ctl now : Nat)
    (hm : module ≠ BLADERF_MODULE_OTHER)
    (h : perform_work_trigger w trigger_ctl now = some (w1, none)) :
    perform_work P w module trigger_ctl now = some w1 := by
  cases module
  · simp [perform_work, h]
  · simp [perform_work, h]
  · exact absurd rfl hm

theorem perform_work_entry_new (P : platform) (w : work_state) (module : bladerf_module)
    (sel : queue_sel) (k : Nat) (hk : k < 16)
    (he : ((w.queue_of sel).entries ⟨k, hk⟩).state = ENTRY_STATE_NEW) :
    perform_work_entry P w module sel k
      = some { w.set_queue sel ⟨(w.queue_of sel).count, (w.queue_of sel).ins_idx,
                (w.queue_of sel).rem_idx,
                Function.update (w.queue_of sel).entries ⟨k, hk⟩
                  ⟨ENTRY_STATE_SCHEDULED, ((w.queue_of sel).entries ⟨k, hk⟩).profile,
                   ((w.queue_of sel).entries ⟨k, hk⟩).timestamp⟩⟩ with
          hw := profile_load module ((w.queue_of sel).entries ⟨k, hk⟩).profile w.hw
            ++ [hw_op.tamer_schedule module
                  (if w.trigger_info.state = TRIGGER_IDLE ∨ w.trigger_info.state = TRIGGER_DONE
                   then ((w.queue_of sel).entries ⟨k, hk⟩).timestamp
                   else (((w.queue_of sel).entries ⟨k, hk⟩).timestamp
                          + w.trigger_info.timestamp
                          + w.trigger_info.iter * w.trigger_info.period) % 2 ^ 64)] } := by
  simp only [perform_work_entry, load_eq_some _ _ hk, he, store_state_eq_some _ _ _ hk]
  cases hst : w.trigger_info.state <;> simp

/-- C13: for every `perform_work` tick (on RX or TX) whose active entry, the
entry at index `k` of the queue `sel` the coordinator step selects, is in state
New: the tick returns; after it that entry is Scheduled with its profile and
timestamp as before, every other entry, the other queue and every count and
index are unchanged; and the hardware log has grown by the call
`profile_load(module, e->profile)` and then by exactly one `tamer_schedule`,
for `e.timestamp` if the trigger state after the coordinator step is Idle or
Done and otherwise for
`(e.timestamp + trigger base timestamp + iteration * period) mod 2^64`. -/
theorem perform_work_new_entry (P : platform) (w w1 : work_state) (module : bladerf_module)
    (trigger_ctl now : Nat) (sel : queue_sel) (k : Nat)
    (hm : module ≠ BLADERF_MODULE_OTHER) (hk : k < 16)
    (htr : perform_work_trigger w trigger_ctl now = some (w1, some (sel, k)))
    (he : ((w.queue_of sel).entries ⟨k, hk⟩).state = ENTRY_STATE_NEW) :
    ∃ w2, perform_work P w module trigger_ctl now = some w2 ∧
      (w2.queue_of sel).entries ⟨k, hk⟩
        = ⟨ENTRY_STATE_SCHEDULED, ((w.queue_of sel).entries ⟨k, hk⟩).profile,
            ((w.queue_of sel).entries ⟨k, hk⟩).timestamp⟩ ∧
      (∀ i : Fin 16, i ≠ ⟨k, hk⟩ → (w2.queue_of sel).entries i = (w.queue_of sel).entries i) ∧
      (∀ other : queue_sel, other ≠ sel → w2.queue_of other = w.queue_of other) ∧
      (∀ x : queue_sel, (w2.queue_of x).count = (w.queue_of x).count ∧
        (w2.queue_of x).ins_idx = (w.queue_of x).ins_idx ∧
        (w2.queue_of x).rem_idx = (w.queue_of x).rem_idx) ∧
      w2.hw = profile_load module ((w.queue_of sel).entries ⟨k, hk⟩).profile w.hw
        ++ [hw_op.tamer_schedule module
              (if w1.trigger_info.state = TRIGGER_IDLE ∨ w1.trigger_info.state = TRIGGER_DONE
               then ((w.queue_of sel).entries ⟨k, hk⟩).timestamp
               else (((w.queue_of sel).entries ⟨k, hk⟩).timestamp
                      + w1.trigger_info.timestamp
                      + w1.trigger_info.iter * w1.trigger_info.period) % 2 ^ 64)] ∧
      w2.trigger_info = w1.trigger_info ∧
      w2.error_count = w.error_count := by
  obtain ⟨hs, hhw, herr, htq⟩ := perform_work_trigger_frame w w1 trigger_ctl now _ htr
  have htq1 := htq (by simp)
  have hq : w1.queue_of sel = w.queue_of sel := by
    cases sel
    · exact hs
    · exact htq1
  have he1 : ((w1.queue_of sel).entries ⟨k, hk⟩).state = ENTRY_STATE_NEW := by
    rw [hq]
    exact he
  have hrun := perform_work_entry_new P w1 module sel k hk he1
  rw [← perform_work_eq_entry P w w1 module trigger_ctl now sel k hm htr] at hrun
  refine ⟨_, hrun, ?_, ?_, ?_, ?_, ?_, ?_, ?_⟩
  · cases sel <;> simp [work_state.set_queue, work_state.queue_of, hs, htq1]
  · intro i hi
    cases sel <;> simp [work_state.set_queue, work_state.queue_of, hs, htq1,
      Function.update_noteq hi]
  · intro other hne
    cases sel <;> cases other <;>
      first
        | exact absurd rfl hne
        | simp [work_state.set_queue, work_state.queue_of, hs, htq1]
  · intro x
    cases sel <;> cases x <;> simp [work_state.set_queue, work_state.queue_of, hs, htq1]
  · cases sel <;> simp [work_state.set_queue, work_state.queue_of, hs, htq1, hhw]
  · cases sel <;> simp [work_state.set_queue]
  · cases sel <;> simp [work_state.set_queue, herr]

/-- Witness of C13: the head of the schedule queue is New, the trigger state
Idle; the tick loads its profile and schedules one timer for its timestamp. -/
theorem perform_work_new_entry_witness :
    ∃ w2, perform_work sample_platform work_one BLADERF_MODULE_RX 0 0 = some w2 ∧
      w2.hw = [hw_op.adi_fastlock_load BLADERF_MODULE_RX (profile_ref.rx 0),
               hw_op.tamer_schedule BLADERF_MODULE_RX 7] := by
  obtain ⟨w2, h1, _, _, _, _, h6, _, _⟩ :=
    perform_work_new_entry sample_platform work_one work_one BLADERF_MODULE_RX 0 0
      queue_sel.schedule 0 (by decide) (by decide) rfl (by decide)
  exact ⟨w2, h1, h6⟩

/-! ## The trigger coordinator (C14 to C16) -/

theorem perform_work_entry_info (P : platform) (w w2 : work_state) (module : bladerf_module)
    (sel : queue_sel) (k : Nat) (h : perform_work_entry P w module sel k = some w2) :
    w2.trigger_info.state = w.trigger_info.state ∧
    w2.trigger_info.timestamp = w.trigger_info.timestamp ∧
    w2.trigger_info.period = w.trigger_info.period ∧
    w2.trigger_info.iter = w.trigger_info.iter ∧
    ((w.trigger_info.state = TRIGGER_IDLE ∨ w.trigger_info.state = TRIGGER_DONE) →
      w2.trigger_info = w.trigger_info) := by
  unfold perform_work_entry at h
  split at h
  · simp at h
  · simp only at h
    split at h
    · split at h
      · simp at h
      · simp only [Option.some.injEq] at h
        subst h
        cases sel <;> exact ⟨rfl, rfl, rfl, rfl, fun _ => rfl⟩
    · simp only [Option.some.injEq] at h
      subst h
      exact ⟨rfl, rfl, rfl, rfl, fun _ => rfl⟩
    · split at h
      · simp only [Option.map_eq_some'] at h
        obtain ⟨r, _, rfl⟩ := h
        exact ⟨rfl, rfl, rfl, rfl, fun _ => rfl⟩
      · rename_i hdir
        simp only [Option.map_eq_some'] at h
        obtain ⟨q2, _, rfl⟩ := h
        refine ⟨?_, ?_, ?_, ?_, ?_⟩
        · cases sel <;> rfl
        · cases sel <;> rfl
        · cases sel <;> rfl
        · cases sel <;> rfl
        · intro hd
          exfalso
          apply hdir
          rcases hd with hd | hd <;> simp [hd]
    · simp only [Option.some.injEq] at h
      subst h
      exact ⟨rfl, rfl, rfl, rfl, fun _ => rfl⟩

theorem perform_work_entry_defined (P : platform) (w : work_state) (module : bladerf_module)
    (sel : queue_sel) (k : Nat) (hk : k < 16) (hr : w.schedule_queue.rem_idx < 16) :
    ∃ w2, perform_work_entry P w module sel k = some w2 := by
  simp only [perform_work_entry, load_eq_some _ _ hk]
  split
  · simp [store_state_eq_some _ _ _ hk]
  · exact ⟨_, rfl⟩
  · split
    · by_cases hc : w.schedule_queue.count = 0
      · simp [dequeue_retune_empty _ none hc]
      · simp [dequeue_retune_some _ hc hr]
    · cases sel <;> simp [work_state.queue_of, store_state_eq_some _ _ _ hk]
  · exact ⟨_, rfl⟩

theorem perform_work_trigger_run_wrap (w : work_state) (trigger_ctl now : Nat)
    (hst : w.trigger_info.state = TRIGGER_RUN)
    (hnr : trigger_ctl &&& BLADERF_TRIGGER_REG_LINE ≠ BLADERF_TRIGGER_REG_LINE)
    (hidx : w.trigger_queue.count = w.trigger_info.idx)
    (hn : 1 ≤ w.trigger_queue.count) :
    perform_work_trigger w trigger_ctl now
      = some (⟨w.schedule_queue, w.trigger_queue,
                ⟨if w.trigger_info.period = 0 then TRIGGER_DONE else TRIGGER_RUN,
                 w.trigger_info.timestamp, 0, w.trigger_info.period,
                 (w.trigger_info.iter + 1) % 2 ^ 64⟩, w.error_count, w.hw⟩,
              some (queue_sel.trigger, w.trigger_queue.rem_idx % 16)) := by
  have hc : w.trigger_queue.count ≠ 0 := by omega
  simp [perform_work_trigger, hst, hnr, hidx, peek_next_retune_offset, hidx ▸ hc,
    and_15_eq_mod]

/-- C14: in Run with the trigger line not rearmed, once the last of the
`n >= 1` trigger entries has been retired (cursor = `n` = count), the
coordinator step of the next `perform_work` tick sets the cursor to 0,
increments the iteration counter by one (a `uint64_t`; 0 becomes 1), keeps the
trigger state Run when the period is not 0 and makes it Done when the period
is 0, and takes the trigger queue entry at offset 0 as the active entry: the
tick continues with the entry dispatch on it. With that entry New, as its
retirement left it, the whole tick returns with exactly this trigger record. -/
theorem run_wrap (P : platform) (w : work_state) (module : bladerf_module)
    (trigger_ctl now : Nat)
    (hm : module ≠ BLADERF_MODULE_OTHER)
    (hst : w.trigger_info.state = TRIGGER_RUN)
    (hnr : trigger_ctl &&& BLADERF_TRIGGER_REG_LINE ≠ BLADERF_TRIGGER_REG_LINE)
    (hidx : w.trigger_queue.count = w.trigger_info.idx)
    (hn : 1 ≤ w.trigger_queue.count) :
    perform_work_trigger w trigger_ctl now
      = some (⟨w.schedule_queue, w.trigger_queue,
                ⟨if w.trigger_info.period = 0 then TRIGGER_DONE else TRIGGER_RUN,
                 w.trigger_info.timestamp, 0, w.trigger_info.period,
                 (w.trigger_info.iter + 1) % 2 ^ 64⟩, w.error_count, w.hw⟩,
              some (queue_sel.trigger, w.trigger_queue.rem_idx % 16)) ∧
    peek_next_retune_offset w.trigger_queue 0 = some (w.trigger_queue.rem_idx % 16) ∧
    (w.trigger_info.iter = 0 → (w.trigger_info.iter + 1) % 2 ^ 64 = 1) ∧
    (w.trigger_info.iter + 1 < 2 ^ 64 →
      (w.trigger_info.iter + 1) % 2 ^ 64 = w.trigger_info.iter + 1) ∧
    perform_work P w module trigger_ctl now
      = perform_work_entry P
          ⟨w.schedule_queue, w.trigger_queue,
            ⟨if w.trigger_info.period = 0 then TRIGGER_DONE else TRIGGER_RUN,
             w.trigger_info.timestamp, 0, w.trigger_info.period,
             (w.trigger_info.iter + 1) % 2 ^ 64⟩, w.error_count, w.hw⟩
          module queue_sel.trigger (w.trigger_queue.rem_idx % 16) ∧
    ((w.trigger_queue.entries ⟨w.trigger_queue.rem_idx % 16, Nat.mod_lt _ (by decide)⟩).state
        = ENTRY_STATE_NEW →
      ∃ w2, perform_work P w module trigger_ctl now = some w2 ∧
        w2.trigger_info
          = ⟨if w.trigger_info.period = 0 then TRIGGER_DONE else TRIGGER_RUN,
             w.trigger_info.timestamp, 0, w.trigger_info.period,
             (w.trigger_info.iter + 1) % 2 ^ 64⟩) := by
  have htr := perform_work_trigger_run_wrap w trigger_ctl now hst hnr hidx hn
  have hrun := perform_work_eq_entry P w _ module trigger_ctl now _ _ hm htr
  refine ⟨htr, ?_, ?_, ?_, hrun, ?_⟩
  · have hc : w.trigger_queue.count ≠ 0 := by omega
    simp [peek_next_retune_offset, hc, and_15_eq_mod]
  · intro h0
    rw [h0]
    rfl
  · intro hlt
    exact Nat.mod_eq_of_lt hlt
  · intro he
    have hnew := perform_work_entry_new P
      ⟨w.schedule_queue, w.trigger_queue,
        ⟨if w.trigger_info.period = 0 then TRIGGER_DONE else TRIGGER_RUN,
         w.trigger_info.timestamp, 0, w.trigger_info.period,
         (w.trigger_info.iter + 1) % 2 ^ 64⟩, w.error_count, w.hw⟩
      module queue_sel.trigger (w.trigger_queue.rem_idx % 16) (Nat.mod_lt _ (by decide)) he
    rw [← hrun] at hnew
    exact ⟨_, hnew, rfl⟩

/-- Witness of C14: three trigger entries, period 5, cursor 3; the tick wraps
to cursor 0 and iteration 1 and stays in Run. -/
theorem run_wrap_witness :
    ∃ w2, perform_work sample_platform work_wrap BLADERF_MODULE_RX 0 0 = some w2 ∧
      w2.trigger_info = ⟨TRIGGER_RUN, 100, 0, 5, 1⟩ := by
  obtain ⟨w2, h1, h2⟩ :=
    (run_wrap sample_platform work_wrap BLADERF_MODULE_RX 0 0 (by decide) rfl (by decide) rfl
      (by decide)).2.2.2.2.2 (by decide)
  exact ⟨w2, h1, h2⟩

theorem perform_work_trigger_idle_fired (w : work_state) (trigger_ctl now : Nat)
    (hst : w.trigger_info.state = TRIGGER_IDLE)
    (hf : trigger_ctl &&& BLADERF_TRIGGER_REG_LINE = 0)
    (hc : w.trigger_queue.count ≠ 0) :
    perform_work_trigger w trigger_ctl now
      = some (⟨w.schedule_queue, w.trigger_queue,
                ⟨TRIGGER_INIT, now, w.trigger_info.idx, w.trigger_info.period,
                 w.trigger_info.iter⟩, w.error_count, w.hw⟩, none) := by
  simp [perform_work_trigger, hst, hf, hc]

theorem perform_work_trigger_init_fired (w : work_state) (trigger_ctl now : Nat)
    (hst : w.trigger_info.state = TRIGGER_INIT)
    (hf : trigger_ctl &&& BLADERF_TRIGGER_REG_LINE = 0)
    (hc : w.trigger_queue.count ≠ 0) :
    perform_work_trigger w trigger_ctl now
      = some (⟨w.schedule_queue, w.trigger_queue,
                ⟨TRIGGER_RUN, w.trigger_info.timestamp, 0, w.trigger_info.period, 0⟩,
                w.error_count, w.hw⟩,
              some (queue_sel.trigger, w.trigger_queue.rem_idx)) := by
  simp [perform_work_trigger, hst, hf, hc, peek_next_retune]

/-- C15: starting in trigger state Idle with the line observed fired. If the
trigger queue is empty, the coordinator step of a `perform_work` tick changes
nothing and takes the schedule queue head as the active entry, and the tick
(which returns whenever that head lies in the array) leaves the trigger record
as it was, so the state stays Idle. If the trigger queue is non-empty, the
first tick moves to Init, records the clock value it reads as the trigger base
timestamp and changes nothing else (it acts on no entry); and the coordinator
step of a second tick with the line still fired moves to Run with cursor 0 and
iteration 0 and takes the trigger queue head as the active entry, on which the
tick continues with the entry dispatch. -/
theorem idle_fired (P : platform) (w : work_state) (module : bladerf_module)
    (trigger_ctl now trigger_ctl2 now2 : Nat)
    (hm : module ≠ BLADERF_MODULE_OTHER)
    (hst : w.trigger_info.state = TRIGGER_IDLE)
    (hf : trigger_ctl &&& BLADERF_TRIGGER_REG_LINE = 0)
    (hf2 : trigger_ctl2 &&& BLADERF_TRIGGER_REG_LINE = 0) :
    (w.trigger_queue.count = 0 →
      perform_work_trigger w trigger_ctl now
        = some (w, (peek_next_retune w.schedule_queue).map
                     (fun k => (queue_sel.schedule, k))) ∧
      (∀ w2, perform_work P w module trigger_ctl now = some w2 →
        w2.trigger_info = w.trigger_info ∧ w2.trigger_info.state = TRIGGER_IDLE) ∧
      (w.schedule_queue.count = 0 ∨ w.schedule_queue.rem_idx < 16 →
        ∃ w2, perform_work P w module trigger_ctl now = some w2)) ∧
    (w.trigger_queue.count ≠ 0 →
      perform_work P w module trigger_ctl now
        = some ⟨w.schedule_queue, w.trigger_queue,
                ⟨TRIGGER_INIT, now, w.trigger_info.idx, w.trigger_info.period,
                 w.trigger_info.iter⟩, w.error_count, w.hw⟩ ∧
      perform_work_trigger
          ⟨w.schedule_queue, w.trigger_queue,
            ⟨TRIGGER_INIT, now, w.trigger_info.idx, w.trigger_info.period,
             w.trigger_info.iter⟩, w.error_count, w.hw⟩ trigger_ctl2 now2
        = some (⟨w.schedule_queue, w.trigger_queue,
                  ⟨TRIGGER_RUN, now, 0, w.trigger_info.period, 0⟩, w.error_count, w.hw⟩,
                some (queue_sel.trigger, w.trigger_queue.rem_idx)) ∧
      peek_next_retune w.trigger_queue = some w.trigger_queue.rem_idx ∧
      perform_work P
          ⟨w.schedule_queue, w.trigger_queue,
            ⟨TRIGGER_INIT, now, w.trigger_info.idx, w.trigger_info.period,
             w.trigger_info.iter⟩, w.error_count, w.hw⟩ module trigger_ctl2 now2
        = perform_work_entry P
            ⟨w.schedule_queue, w.trigger_queue,
              ⟨TRIGGER_RUN, now, 0, w.trigger_info.period, 0⟩, w.error_count, w.hw⟩
            module queue_sel.trigger w.trigger_queue.rem_idx) := by
  constructor
  · intro hc
    have htr := perform_work_trigger_idle w trigger_ctl now hst hc
    refine ⟨htr, ?_, ?_⟩
    · intro w2 h2
      by_cases hs : w.schedule_queue.count = 0
      · simp only [peek_next_retune, hs, if_true, Option.map_none'] at htr
        rw [perform_work_eq_none P w w module trigger_ctl now hm htr] at h2
        simp only [Option.some.injEq] at h2
        subst h2
        exact ⟨rfl, hst⟩
      · simp only [peek_next_retune, hs, if_false, Option.map_some'] at htr
        rw [perform_work_eq_entry P w w module trigger_ctl now _ _ hm htr] at h2
        have hinfo := (perform_work_entry_info P w w2 module _ _ h2).2.2.2.2 (Or.inl hst)
        exact ⟨hinfo, by rw [hinfo]; exact hst⟩
    · intro hs
      by_cases hs0 : w.schedule_queue.count = 0
      · simp only [peek_next_retune, hs0, if_true, Option.map_none'] at htr
        exact ⟨w, perform_work_eq_none P w w module trigger_ctl now hm htr⟩
      · have hr : w.schedule_queue.rem_idx < 16 := by
          rcases hs with h | h
          · exact absurd h hs0
          · exact h
        simp only [peek_next_retune, hs0, if_false, Option.map_some'] at htr
        rw [perform_work_eq_entry P w w module trigger_ctl now _ _ hm htr]
        exact perform_work_entry_defined P w module _ _ hr hr
  · intro hc
    have h1 := perform_work_trigger_idle_fired w trigger_ctl now hst hf hc
    have h2 := perform_work_trigger_init_fired
      ⟨w.schedule_queue, w.trigger_queue,
        ⟨TRIGGER_INIT, now, w.trigger_info.idx, w.trigger_info.period,
         w.trigger_info.iter⟩, w.error_count, w.hw⟩ trigger_ctl2 now2 rfl hf2 hc
    refine ⟨perform_work_eq_none P w _ module trigger_ctl now hm h1, h2, ?_,
      perform_work_eq_entry P _ _ module trigger_ctl2 now2 _ _ hm h2⟩
    simp [peek_next_retune, hc]

/-- Witness of C15: Idle with three trigger entries and the line fired; the
first tick gives Init with base timestamp 42. -/
theorem idle_fired_witness :
    perform_work sample_platform work_idle_three BLADERF_MODULE_RX 0 42
      = some ⟨work_idle_three.schedule_queue, work_idle_three.trigger_queue,
              ⟨TRIGGER_INIT, 42, work_idle_three.trigger_info.idx,
               work_idle_three.trigger_info.period, work_idle_three.trigger_info.iter⟩,
              work_idle_three.error_count, work_idle_three.hw⟩ :=
  ((idle_fired sample_platform work_idle_three BLADERF_MODULE_RX 0 42 0 43 (by decide) rfl
      (by decide) (by decide)).2 (by decide)).1

theorem perform_work_trigger_run_rearmed (w : work_state) (trigger_ctl now : Nat)
    (hst : w.trigger_info.state = TRIGGER_RUN)
    (hre : trigger_ctl &&& BLADERF_TRIGGER_REG_LINE = BLADERF_TRIGGER_REG_LINE) :
    (w.trigger_info.idx < w.trigger_queue.count →
      perform_work_trigger w trigger_ctl now
        = some (⟨w.schedule_queue,
                  ⟨w.trigger_queue.count, w.trigger_queue.ins_idx, w.trigger_queue.rem_idx,
                   Function.update w.trigger_queue.entries
                     ⟨(w.trigger_queue.rem_idx + w.trigger_info.idx) % 16,
                       Nat.mod_lt _ (by decide)⟩
                     ⟨ENTRY_STATE_NEW,
                      (w.trigger_queue.entries
                        ⟨(w.trigger_queue.rem_idx + w.trigger_info.idx) % 16,
                          Nat.mod_lt _ (by decide)⟩).profile,
                      (w.trigger_queue.entries
                        ⟨(w.trigger_queue.rem_idx + w.trigger_info.idx) % 16,
                          Nat.mod_lt _ (by decide)⟩).timestamp⟩⟩,
                  ⟨TRIGGER_IDLE, w.trigger_info.timestamp, w.trigger_info.idx,
                   w.trigger_info.period, w.trigger_info.iter⟩, w.error_count, w.hw⟩, none)) ∧
    (¬ w.trigger_info.idx < w.trigger_queue.count →
      perform_work_trigger w trigger_ctl now
        = some (⟨w.schedule_queue, w.trigger_queue,
                  ⟨TRIGGER_IDLE, w.trigger_info.timestamp, w.trigger_info.idx,
                   w.trigger_info.period, w.trigger_info.iter⟩, w.error_count, w.hw⟩, none)) := by
  constructor
  · intro hlt
    have hc : w.trigger_queue.count ≠ 0 := by omega
    have hk : (w.trigger_queue.rem_idx + w.trigger_info.idx) &&& 15
        = (w.trigger_queue.rem_idx + w.trigger_info.idx) % 16 := and_15_eq_mod _
    simp [perform_work_trigger, hst, hre, hlt, peek_next_retune_offset, hc, hk,
      store_state_eq_some _ _ _ (Nat.mod_lt (w.trigger_queue.rem_idx + w.trigger_info.idx)
        (by decide : 0 < 16))]
  · intro hge
    simp [perform_work_trigger, hst, hre, hge]

/-- C16, as stated, fails: in Run with the cursor equal to the count (the only
trigger entry has been retired), a tick that observes the line rearmed goes to
Idle and leaves the trigger queue entry at the cursor, which is Invalid, as it
is: it is not set to New. -/
theorem run_rearmed_cursor_at_count :
    work_run_retired.trigger_info.state = TRIGGER_RUN ∧
    peek_next_retune_offset work_run_retired.trigger_queue work_run_retired.trigger_info.idx
      = some 1 ∧
    ∃ w1, perform_work sample_platform work_run_retired BLADERF_MODULE_RX 8 0 = some w1 ∧
      w1.trigger_info.state = TRIGGER_IDLE ∧
      (w1.trigger_queue.entries 1).state = ENTRY_STATE_INVALID ∧
      (w1.trigger_queue.entries 1).state ≠ ENTRY_STATE_NEW :=
  ⟨rfl, rfl, _, rfl, rfl, rfl, by decide⟩

/-- C16 (amended): for every channel state with trigger state Run, a
`perform_work` tick that observes the trigger line rearmed returns, leaves the
trigger state Idle and the rest of the trigger record as it was, and acts on
no entry: the hardware log (timers, profile loads and activations), the error
counter, the schedule queue and every count and index are unchanged. When the
cursor is below the trigger queue's count, the trigger queue entry at the
cursor gets state New whatever state it was in, keeping its profile and
timestamp, and no other entry changes; when it is not, the trigger queue is
unchanged. -/
theorem run_rearmed (P : platform) (w : work_state) (module : bladerf_module)
    (trigger_ctl now : Nat)
    (hm : module ≠ BLADERF_MODULE_OTHER)
    (hst : w.trigger_info.state = TRIGGER_RUN)
    (hre : trigger_ctl &&& BLADERF_TRIGGER_REG_LINE = BLADERF_TRIGGER_REG_LINE) :
    ∃ w1, perform_work P w module trigger_ctl now = some w1 ∧
      w1.trigger_info = ⟨TRIGGER_IDLE, w.trigger_info.timestamp, w.trigger_info.idx,
                          w.trigger_info.period, w.trigger_info.iter⟩ ∧
      w1.hw = w.hw ∧ w1.error_count = w.error_count ∧
      w1.schedule_queue = w.schedule_queue ∧
      w1.trigger_queue.count = w.trigger_queue.count ∧
      w1.trigger_queue.ins_idx = w.trigger_queue.ins_idx ∧
      w1.trigger_queue.rem_idx = w.trigger_queue.rem_idx ∧
      (w.trigger_info.idx < w.trigger_queue.count →
        w1.trigger_queue.entries
            ⟨(w.trigger_queue.rem_idx + w.trigger_info.idx) % 16, Nat.mod_lt _ (by decide)⟩
          = ⟨ENTRY_STATE_NEW,
             (w.trigger_queue.entries
               ⟨(w.trigger_queue.rem_idx + w.trigger_info.idx) % 16,
                 Nat.mod_lt _ (by decide)⟩).profile,
             (w.trigger_queue.entries
               ⟨(w.trigger_queue.rem_idx + w.trigger_info.idx) % 16,
                 Nat.mod_lt _ (by decide)⟩).timestamp⟩ ∧
        ∀ i : Fin 16, i.val ≠ (w.trigger_queue.rem_idx + w.trigger_info.idx) % 16 →
          w1.trigger_queue.entries i = w.trigger_queue.entries i) ∧
      (¬ w.trigger_info.idx < w.trigger_queue.count →
        w1.trigger_queue = w.trigger_queue) := by
  obtain ⟨hlo, hhi⟩ := perform_work_trigger_run_rearmed w trigger_ctl now hst hre
  by_cases hlt : w.trigger_info.idx < w.trigger_queue.count
  · refine ⟨_, perform_work_eq_none P w _ module trigger_ctl now hm (hlo hlt),
      rfl, rfl, rfl, rfl, rfl, rfl, rfl, ?_, fun h => absurd hlt h⟩
    intro _
    refine ⟨by simp, ?_⟩
    intro i hi
    have hne : i ≠ ⟨(w.trigger_queue.rem_idx + w.trigger_info.idx) % 16,
        Nat.mod_lt _ (by decide)⟩ := fun h => hi (by rw [h])
    simp [Function.update_noteq hne]
  · exact ⟨_, perform_work_eq_none P w _ module trigger_ctl now hm (hhi hlt),
      rfl, rfl, rfl, rfl, rfl, rfl, rfl, fun h => absurd h hlt, fun _ => rfl⟩

/-- Witness of C16 (amended): Run at cursor 1 of three entries, the entry at
the cursor Scheduled; the rearmed tick makes it New and goes to Idle. -/
theorem run_rearmed_witness :
    ∃ w1, perform_work sample_platform work_run_scheduled BLADERF_MODULE_RX 8 0 = some w1 ∧
      w1.trigger_info.state = TRIGGER_IDLE ∧
      (w1.trigger_queue.entries 1).state = ENTRY_STATE_NEW := by
  obtain ⟨w1, h1, h2, _, _, _, _, _, _, h9, _⟩ :=
    run_rearmed sample_platform work_run_scheduled BLADERF_MODULE_RX 8 0 (by decide) rfl
      (by decide)
  refine ⟨w1, h1, by rw [h2], ?_⟩
  have := (h9 (by decide)).1
  exact congrArg queue_entry.state this

/-! ## The interrupt handler changes one entry state at most (C17) -/

theorem retune_isr_total (q : queue) (offset n : Nat) :
    ∃ q1 n1, retune_isr q offset n = some (q1, n1) ∧
      q1.count = q.count ∧ q1.ins_idx = q.ins_idx ∧ q1.rem_idx = q.rem_idx ∧
      (∀ i : Fin 16, (q1.entries i).profile = (q.entries i).profile ∧
        (q1.entries i).timestamp = (q.entries i).timestamp) ∧
      (∀ i : Fin 16, (q1.entries i).state ≠ (q.entries i).state →
        (q.entries i).state = ENTRY_STATE_SCHEDULED ∧
        (q1.entries i).state = ENTRY_STATE_READY ∧
        peek_next_retune_offset q offset = some i.val) ∧
      (∀ i : Fin 16, peek_next_retune_offset q offset = some i.val →
        ((q.entries i).state ≠ ENTRY_STATE_SCHEDULED → n1 = (n + 1) % 2 ^ 32 ∧ q1 = q) ∧
        ((q.entries i).state = ENTRY_STATE_SCHEDULED →
          n1 = n ∧ (q1.entries i).state = ENTRY_STATE_READY)) ∧
      (peek_next_retune_offset q offset = none → n1 = n ∧ q1 = q) := by
  by_cases hc : q.count = 0
  · have hp : peek_next_retune_offset q offset = none := by
      simp [peek_next_retune_offset, hc]
    refine ⟨q, n, by simp [retune_isr, hp], rfl, rfl, rfl, fun _ => ⟨rfl, rfl⟩,
      fun i h => absurd rfl h, ?_, fun _ => ⟨rfl, rfl⟩⟩
    intro i hi
    rw [hp] at hi
    simp at hi
  · have hlt : (q.rem_idx + offset) % 16 < 16 := Nat.mod_lt _ (by decide)
    have hp : peek_next_retune_offset q offset = some ((q.rem_idx + offset) % 16) := by
      simp [peek_next_retune_offset, hc, and_15_eq_mod]
    by_cases hs : (q.entries ⟨(q.rem_idx + offset) % 16, hlt⟩).state = ENTRY_STATE_SCHEDULED
    · refine ⟨⟨q.count, q.ins_idx, q.rem_idx,
          Function.update q.entries ⟨(q.rem_idx + offset) % 16, hlt⟩
            ⟨ENTRY_STATE_READY, (q.entries ⟨(q.rem_idx + offset) % 16, hlt⟩).profile,
              (q.entries ⟨(q.rem_idx + offset) % 16, hlt⟩).timestamp⟩⟩, n, ?_, rfl, rfl, rfl,
          ?_, ?_, ?_, ?_⟩
      · simp [retune_isr, hp, load_eq_some _ _ hlt, hs, store_state_eq_some _ _ _ hlt]
      · intro i
        by_cases hi : i = ⟨(q.rem_idx + offset) % 16, hlt⟩
        · subst hi
          simp
        · simp [Function.update_noteq hi]
      · intro i hne
        by_cases hi : i = ⟨(q.rem_idx + offset) % 16, hlt⟩
        · subst hi
          exact ⟨hs, by simp, hp⟩
        · simp [Function.update_noteq hi] at hne
      · intro i hi
        rw [hp] at hi
        simp only [Option.some.injEq] at hi
        have hi2 : i = ⟨(q.rem_idx + offset) % 16, hlt⟩ := Fin.ext hi.symm
        subst hi2
        exact ⟨fun h => absurd hs h, fun _ => ⟨rfl, by simp⟩⟩
      · intro h
        rw [hp] at h
        simp at h
    · refine ⟨q, (n + 1) % 2 ^ 32, ?_, rfl, rfl, rfl, fun _ => ⟨rfl, rfl⟩,
        fun i h => absurd rfl h, ?_, ?_⟩
      · simp [retune_isr, hp, load_eq_some _ _ hlt, hs]
      · intro i hi
        rw [hp] at hi
        simp only [Option.some.injEq] at hi
        have hi2 : i = ⟨(q.rem_idx + offset) % 16, hlt⟩ := Fin.ext hi.symm
        subst hi2
        exact ⟨fun _ => ⟨rfl, rfl⟩, fun h => absurd h hs⟩
      · intro h
        rw [hp] at h
        simp at h

theorem retune_eq (s : globals) (ch : channel) :
    retune ch s
      = (retune_isr (s.get_queue (isr_queue s ch)) (isr_offset s ch)
          s.pkt_retune2_error_count).map (fun r =>
            { s.set_queue (isr_queue s ch) r.1 with
                pkt_retune2_error_count := r.2
                hw := s.hw ++ [hw_op.timer_tamer_clear_interrupt ch.module] }) := by
  cases ch
  · by_cases h : s.rx_trigger_info.state = TRIGGER_IDLE ∨ s.rx_trigger_info.state = TRIGGER_DONE
    · simp [retune, retune_rx, isr_queue, isr_offset, globals.trigger_info, h,
        globals.get_queue, globals.set_queue, channel.module]
    · simp [retune, retune_rx, isr_queue, isr_offset, globals.trigger_info, h,
        globals.get_queue, globals.set_queue, channel.module]
  · by_cases h : s.tx_trigger_info.state = TRIGGER_IDLE ∨ s.tx_trigger_info.state = TRIGGER_DONE
    · simp [retune, retune_tx, isr_queue, isr_offset, globals.trigger_info, h,
        globals.get_queue, globals.set_queue, channel.module]
    · simp [retune, retune_tx, isr_queue, isr_offset, globals.trigger_info, h,
        globals.get_queue, globals.set_queue, channel.module]

theorem get_set_queue_same (s : globals) (a : queue_id) (q : queue) :
    (s.set_queue a q).get_queue a = q := by
  cases a <;> rfl

theorem get_set_queue_other (s : globals) (a b : queue_id) (q : queue) (h : b ≠ a) :
    (s.set_queue a q).get_queue b = s.get_queue b := by
  cases a <;> cases b <;> first | rfl | exact absurd rfl h

/-- C17: for every state and each channel, one run of the interrupt handler
returns and leaves unchanged the two trigger records, the profile tables, and,
in every queue, `count`, `ins_idx`, `rem_idx` and every entry's profile and
timestamp. An entry state changes only from Scheduled to Ready and only at the
entry the handler selects (the entry `retune_isr` gets from
`peek_next_retune_offset` on the schedule queue at offset 0 in Idle and Done,
on the trigger queue at the cursor in Init and Run). When the selected entry
is in a state other than Scheduled, the error counter increases by one (as a
`uint32_t`) and every queue is unchanged; when it is Scheduled it becomes Ready
and the counter is unchanged; when no entry is selected nothing changes. -/
theorem retune_frame (s : globals) (ch : channel) :
    ∃ s1, retune ch s = some s1 ∧
      s1.rx_trigger_info = s.rx_trigger_info ∧ s1.tx_trigger_info = s.tx_trigger_info ∧
      s1.fastlocks_rx = s.fastlocks_rx ∧ s1.fastlocks_tx = s.fastlocks_tx ∧
      (∀ qid : queue_id,
        (s1.get_queue qid).count = (s.get_queue qid).count ∧
        (s1.get_queue qid).ins_idx = (s.get_queue qid).ins_idx ∧
        (s1.get_queue qid).rem_idx = (s.get_queue qid).rem_idx ∧
        ∀ i : Fin 16,
          ((s1.get_queue qid).entries i).profile = ((s.get_queue qid).entries i).profile ∧
          ((s1.get_queue qid).entries i).timestamp
            = ((s.get_queue qid).entries i).timestamp) ∧
      (∀ (qid : queue_id) (i : Fin 16),
        ((s1.get_queue qid).entries i).state ≠ ((s.get_queue qid).entries i).state →
          ((s.get_queue qid).entries i).state = ENTRY_STATE_SCHEDULED ∧
          ((s1.get_queue qid).entries i).state = ENTRY_STATE_READY ∧
          qid = isr_queue s ch ∧
          peek_next_retune_offset (s.get_queue (isr_queue s ch)) (isr_offset s ch)
            = some i.val) ∧
      (∀ i : Fin 16,
        peek_next_retune_offset (s.get_queue (isr_queue s ch)) (isr_offset s ch)
            = some i.val →
          (((s.get_queue (isr_queue s ch)).entries i).state ≠ ENTRY_STATE_SCHEDULED →
            s1.pkt_retune2_error_count = (s.pkt_retune2_error_count + 1) % 2 ^ 32 ∧
            (s.pkt_retune2_error_count + 1 < 2 ^ 32 →
              s1.pkt_retune2_error_count = s.pkt_retune2_error_count + 1) ∧
            ∀ qid, s1.get_queue qid = s.get_queue qid) ∧
          (((s.get_queue (isr_queue s ch)).entries i).state = ENTRY_STATE_SCHEDULED →
            s1.pkt_retune2_error_count = s.pkt_retune2_error_count ∧
            ((s1.get_queue (isr_queue s ch)).entries i).state = ENTRY_STATE_READY)) ∧
      (peek_next_retune_offset (s.get_queue (isr_queue s ch)) (isr_offset s ch) = none →
        s1.pkt_retune2_error_count = s.pkt_retune2_error_count ∧
        ∀ qid, s1.get_queue qid = s.get_queue qid) := by
  obtain ⟨q1, n1, hrun, hc, hi, hr, hpt, hst, hsel, hnone⟩ :=
    retune_isr_total (s.get_queue (isr_queue s ch)) (isr_offset s ch) s.pkt_retune2_error_count
  have hq : ∀ qid, ({ s.set_queue (isr_queue s ch) q1 with
        pkt_retune2_error_count := n1
        hw := s.hw ++ [hw_op.timer_tamer_clear_interrupt ch.module] } : globals).get_queue qid
      = (s.set_queue (isr_queue s ch) q1).get_queue qid := by
    intro qid
    cases qid <;> rfl
  have hsame : ∀ qid, q1 = s.get_queue (isr_queue s ch) →
      (s.set_queue (isr_queue s ch) q1).get_queue qid = s.get_queue qid := by
    intro qid heq
    by_cases hqid : qid = isr_queue s ch
    · rw [hqid, get_set_queue_same, heq]
    · exact get_set_queue_other _ _ _ _ hqid
  refine ⟨{ s.set_queue (isr_queue s ch) q1 with
        pkt_retune2_error_count := n1
        hw := s.hw ++ [hw_op.timer_tamer_clear_interrupt ch.module] }, ?_, ?_, ?_, ?_, ?_,
      ?_, ?_, ?_, ?_⟩
  · rw [retune_eq, hrun]
    rfl
  · cases h : isr_queue s ch <;> simp [globals.set_queue]
  · cases h : isr_queue s ch <;> simp [globals.set_queue]
  · cases h : isr_queue s ch <;> simp [globals.set_queue]
  · cases h : isr_queue s ch <;> simp [globals.set_queue]
  · intro qid
    rw [hq]
    by_cases hqid : qid = isr_queue s ch
    · rw [hqid, get_set_queue_same]
      exact ⟨hc, hi, hr, hpt⟩
    · rw [get_set_queue_other _ _ _ _ hqid]
      exact ⟨rfl, rfl, rfl, fun _ => ⟨rfl, rfl⟩⟩
  · intro qid i hne
    rw [hq] at hne ⊢
    by_cases hqid : qid = isr_queue s ch
    · subst hqid
      rw [get_set_queue_same] at hne ⊢
      obtain ⟨h1, h2, h3⟩ := hst i hne
      exact ⟨h1, h2, rfl, h3⟩
    · rw [get_set_queue_other _ _ _ _ hqid] at hne
      exact absurd rfl hne
  · intro i hp
    obtain ⟨hA, hB⟩ := hsel i hp
    constructor
    · intro hns
      obtain ⟨hn1, hq1⟩ := hA hns
      refine ⟨hn1, ?_, ?_⟩
      · intro hlt
        show n1 = _
        rw [hn1, Nat.mod_eq_of_lt hlt]
      · intro qid
        rw [hq]
        exact hsame qid hq1
    · intro hs
      obtain ⟨hn1, hq1⟩ := hB hs
      refine ⟨hn1, ?_⟩
      rw [hq, get_set_queue_same]
      exact hq1
  · intro hp
    obtain ⟨hn1, hq1⟩ := hnone hp
    refine ⟨hn1, ?_⟩
    intro qid
    rw [hq]
    exact hsame qid hq1

/-! ## The preloader (C18) -/

theorem and_one_shiftLeft_eq_zero (x s : Nat) : x &&& (1 <<< s) = 0 ↔ x.testBit s = false := by
  rw [Nat.one_shiftLeft]
  constructor
  · intro h
    have := congrArg (fun y => Nat.testBit y s) h
    simpa [Nat.testBit_and, Nat.testBit_two_pow_self] using this
  · intro h
    apply Nat.eq_of_testBit_eq
    intro i
    simp only [Nat.testBit_and, Nat.testBit_two_pow, Nat.zero_testBit]
    by_cases hi : s = i
    · subst hi
      simp [h]
    · simp [hi]

theorem or_one_shiftLeft_lt (x s : Nat) (hx : x < 256) (hs : s < 8) :
    x ||| (1 <<< s) < 256 := by
  rw [Nat.one_shiftLeft]
  have h2 : (2 : Nat) ^ s < 2 ^ 8 := Nat.pow_lt_pow_right (by decide) hs
  exact Nat.or_lt_two_pow (n := 8) hx h2

theorem testBit_or_one_shiftLeft (x s b : Nat) :
    (x ||| (1 <<< s)).testBit b = (x.testBit b || decide (s = b)) := by
  rw [Nat.one_shiftLeft, Nat.testBit_or, Nat.testBit_two_pow]

theorem profile_load_scheduled_iter_eq (fastlocks_rx fastlocks_tx : List fastlock_profile)
    (q : queue) (module : bladerf_module) (acc : Nat × List hw_op) (n : Nat)
    (hc0 : q.count ≠ 0) (hn : n < 256) :
    profile_load_scheduled_iter fastlocks_rx fastlocks_tx q module acc n
      = if (q.visited n).state = ENTRY_STATE_NEW then
          match (q.visited n).profile with
          | none => none
          | some r =>
            match deref_profile fastlocks_rx fastlocks_tx r with
            | none => none
            | some fp =>
              if fp.profile_num ≥ 31 then none
              else if acc.1 &&& (1 <<< fp.profile_num) = 0 then
                some ((acc.1 ||| (1 <<< fp.profile_num)) % 256,
                      profile_load module (q.visited n).profile acc.2)
              else some acc
        else some acc := by
  have hk : (q.rem_idx + n % 256) &&& (RETUNE2_QUEUE_MAX - 1) = (q.rem_idx + n) % 16 := by
    rw [and_mask_eq_mod, Nat.mod_eq_of_lt hn]
  have hlt : (q.rem_idx + n) % 16 < 16 := Nat.mod_lt _ (by decide)
  simp only [profile_load_scheduled_iter, peek_next_retune_offset, if_neg hc0, hk,
    load_eq_some _ _ hlt, queue.visited]

theorem earlier_same_slot_iff (fastlocks_rx fastlocks_tx : List fastlock_profile) (q : queue)
    (i : Nat) :
    earlier_same_slot fastlocks_rx fastlocks_tx q i = true ↔
      ∃ j, j < i ∧ (q.visited j).state = ENTRY_STATE_NEW ∧
        entry_slot fastlocks_rx fastlocks_tx (q.visited j)
          = entry_slot fastlocks_rx fastlocks_tx (q.visited i) := by
  simp [earlier_same_slot, List.any_eq_true]

theorem preload_loop (fastlocks_rx fastlocks_tx : List fastlock_profile) (q : queue)
    (module : bladerf_module) (hw : List hw_op)
    (hc0 : q.count ≠ 0) (hc : q.count < 256)
    (hsafe : ∀ i, i < q.count → (q.visited i).state = ENTRY_STATE_NEW →
      ∃ r fp, (q.visited i).profile = some r ∧
        deref_profile fastlocks_rx fastlocks_tx r = some fp ∧ fp.profile_num < 8) :
    ∀ n, n ≤ q.count → ∃ used,
      (List.range n).foldlM (profile_load_scheduled_iter fastlocks_rx fastlocks_tx q module)
          (0, hw)
        = some (used, hw ++ ((List.range n).filter (fun i =>
              decide ((q.visited i).state = ENTRY_STATE_NEW) &&
              !earlier_same_slot fastlocks_rx fastlocks_tx q i)).filterMap
            (fun i => (q.visited i).profile.map (hw_op.adi_fastlock_load module))) ∧
      used < 256 ∧
      ∀ b, used.testBit b = true ↔
        ∃ j, j < n ∧ (q.visited j).state = ENTRY_STATE_NEW ∧
          entry_slot fastlocks_rx fastlocks_tx (q.visited j) = some b := by
  intro n
  induction n with
  | zero =>
    intro _
    refine ⟨0, by simp, by decide, ?_⟩
    intro b
    simp
  | succ n ih =>
    intro hn
    obtain ⟨used, hrun, hused, hbits⟩ := ih (by omega)
    have hn256 : n < 256 := by omega
    have hiter := profile_load_scheduled_iter_eq fastlocks_rx fastlocks_tx q module
      (used, hw ++ ((List.range n).filter (fun i =>
              decide ((q.visited i).state = ENTRY_STATE_NEW) &&
              !earlier_same_slot fastlocks_rx fastlocks_tx q i)).filterMap
            (fun i => (q.visited i).profile.map (hw_op.adi_fastlock_load module))) n hc0 hn256
    rw [List.range_succ, List.foldlM_append, hrun]
    simp only [Option.bind_eq_bind, Option.some_bind, List.foldlM_cons, List.foldlM_nil,
      List.filter_append, List.filterMap_append]
    by_cases hnew : (q.visited n).state = ENTRY_STATE_NEW
    · obtain ⟨r, fp, hp, hd, hnum⟩ := hsafe n (by omega) hnew
      have hslot : entry_slot fastlocks_rx fastlocks_tx (q.visited n) = some fp.profile_num := by
        simp [entry_slot, hp, hd]
      have hearly : earlier_same_slot fastlocks_rx fastlocks_tx q n = true ↔
          used.testBit fp.profile_num = true := by
        rw [earlier_same_slot_iff, hbits, hslot]
      have h31 : ¬ fp.profile_num ≥ 31 := by omega
      simp only [hnew, if_true, hp, hd, h31, if_false] at hiter
      by_cases hbit : used.testBit fp.profile_num = true
      · have hand : ¬ (used &&& (1 <<< fp.profile_num) = 0) := by
          rw [and_one_shiftLeft_eq_zero]
          simp [hbit]
        have he : earlier_same_slot fastlocks_rx fastlocks_tx q n = true := hearly.mpr hbit
        rw [if_neg hand] at hiter
        refine ⟨used, ?_, hused, ?_⟩
        · rw [hiter]
          simp [hnew, he]
        · intro b
          rw [hbits]
          constructor
          · rintro ⟨j, hj, h1, h2⟩
            exact ⟨j, by omega, h1, h2⟩
          · rintro ⟨j, hj, h1, h2⟩
            by_cases hjn : j = n
            · subst hjn
              rw [hslot] at h2
              simp only [Option.some.injEq] at h2
              subst h2
              exact (hbits _).mp hbit
            · exact ⟨j, by omega, h1, h2⟩
      · have hbf : used.testBit fp.profile_num = false := by simpa using hbit
        have hand : used &&& (1 <<< fp.profile_num) = 0 :=
          (and_one_shiftLeft_eq_zero _ _).mpr hbf
        have he : earlier_same_slot fastlocks_rx fastlocks_tx q n = false := by
          cases h : earlier_same_slot fastlocks_rx fastlocks_tx q n
          · rfl
          · exact absurd (hearly.mp h) hbit
        have hlt := or_one_shiftLeft_lt used fp.profile_num hused hnum
        rw [if_pos hand, Nat.mod_eq_of_lt hlt] at hiter
        refine ⟨used ||| (1 <<< fp.profile_num), ?_, hlt, ?_⟩
        · rw [hiter]
          simp [hnew, he, hp, profile_load]
        · intro b
          rw [testBit_or_one_shiftLeft]
          simp only [Bool.or_eq_true, decide_eq_true_eq, hbits]
          constructor
          · rintro (⟨j, hj, h1, h2⟩ | hb)
            · exact ⟨j, by omega, h1, h2⟩
            · exact ⟨n, by omega, hnew, by rw [hslot, hb]⟩
          · rintro ⟨j, hj, h1, h2⟩
            by_cases hjn : j = n
            · subst hjn
              rw [hslot] at h2
              simp only [Option.some.injEq] at h2
              exact Or.inr h2
            · exact Or.inl ⟨j, by omega, h1, h2⟩
    · simp only [hnew, if_false] at hiter
      refine ⟨used, ?_, hused, ?_⟩
      · rw [hiter]
        simp [hnew]
      · intro b
        rw [hbits]
        constructor
        · rintro ⟨j, hj, h1, h2⟩
          exact ⟨j, by omega, h1, h2⟩
        · rintro ⟨j, hj, h1, h2⟩
          by_cases hjn : j = n
          · subst hjn
            exact absurd h1 hnew
          · exact ⟨j, by omega, h1, h2⟩

/-- C18, as stated, fails: two New entries whose profile has slot number 8 are
both loaded in one call, although an earlier New entry has the same slot (the
claim's rule loads the entry at offset 0 only): the `uint8_t` mask `used` cannot
hold bit 8. And a New entry with a NULL profile pointer makes the call
dereference NULL. -/
theorem preload_slot_8_loaded_twice :
    ((queue_two.visited 0).state = ENTRY_STATE_NEW ∧
     (queue_two.visited 1).state = ENTRY_STATE_NEW ∧
     entry_slot [⟨8, 0, 0⟩] [] (queue_two.visited 0) = some 8 ∧
     entry_slot [⟨8, 0, 0⟩] [] (queue_two.visited 1) = some 8 ∧
     preload_spec [⟨8, 0, 0⟩] [] queue_two = [0] ∧
     profile_load_scheduled [⟨8, 0, 0⟩] [] queue_two BLADERF_MODULE_RX []
       = some [hw_op.adi_fastlock_load BLADERF_MODULE_RX (profile_ref.rx 0),
               hw_op.adi_fastlock_load BLADERF_MODULE_RX (profile_ref.rx 0)]) ∧
    profile_load_scheduled [⟨0, 0, 0⟩] [] queue_null_profile BLADERF_MODULE_RX [] = none :=
  ⟨⟨rfl, rfl, rfl, rfl, by decide, rfl⟩, rfl⟩

theorem mem_preload_spec (fastlocks_rx fastlocks_tx : List fastlock_profile) (q : queue)
    (i : Nat) :
    i ∈ preload_spec fastlocks_rx fastlocks_tx q ↔
      i < q.count ∧ (q.visited i).state = ENTRY_STATE_NEW ∧
      ¬ ∃ j, j < i ∧ (q.visited j).state = ENTRY_STATE_NEW ∧
          entry_slot fastlocks_rx fastlocks_tx (q.visited j)
            = entry_slot fastlocks_rx fastlocks_tx (q.visited i) := by
  rw [← earlier_same_slot_iff]
  simp [preload_spec, List.mem_filter]

/-- C18 (amended): for every queue (its `count` a `uint8_t`) in which every New
entry within `count` of the head has a non-NULL profile pointer inside its
table with a slot number below 8, `profile_load_scheduled` returns, and the
hardware log grows by one `adi_fastlock_load` per offset of `preload_spec`, in
that order. An offset is there if and only if it is below `count`, its entry is
New and no earlier New entry, counting from the head, has the same slot number;
so loads occur in queue order, entries not New are never loaded and two loaded
entries never share a slot. The function only reads the queue. -/
theorem preload_contract (fastlocks_rx fastlocks_tx : List fastlock_profile) (q : queue)
    (module : bladerf_module) (hw : List hw_op)
    (hc : q.count < 256)
    (hsafe : ∀ i, i < q.count → (q.visited i).state = ENTRY_STATE_NEW →
      ∃ r fp, (q.visited i).profile = some r ∧
        deref_profile fastlocks_rx fastlocks_tx r = some fp ∧ fp.profile_num < 8) :
    profile_load_scheduled fastlocks_rx fastlocks_tx q module hw
      = some (hw ++ (preload_spec fastlocks_rx fastlocks_tx q).filterMap
          (fun i => (q.visited i).profile.map (hw_op.adi_fastlock_load module))) ∧
    (∀ i, i ∈ preload_spec fastlocks_rx fastlocks_tx q ↔
      i < q.count ∧ (q.visited i).state = ENTRY_STATE_NEW ∧
      ¬ ∃ j, j < i ∧ (q.visited j).state = ENTRY_STATE_NEW ∧
          entry_slot fastlocks_rx fastlocks_tx (q.visited j)
            = entry_slot fastlocks_rx fastlocks_tx (q.visited i)) ∧
    List.Pairwise (fun i j => i < j) (preload_spec fastlocks_rx fastlocks_tx q) ∧
    (∀ i j, i ∈ preload_spec fastlocks_rx fastlocks_tx q →
      j ∈ preload_spec fastlocks_rx fastlocks_tx q →
      entry_slot fastlocks_rx fastlocks_tx (q.visited i)
        = entry_slot fastlocks_rx fastlocks_tx (q.visited j) → i = j) ∧
    (∀ i, i ∈ preload_spec fastlocks_rx fastlocks_tx q →
      ∃ r, (q.visited i).profile = some r) := by
  refine ⟨?_, mem_preload_spec fastlocks_rx fastlocks_tx q, ?_, ?_, ?_⟩
  · by_cases hc0 : q.count = 0
    · simp [profile_load_scheduled, preload_spec, hc0]
    · obtain ⟨used, hrun, _, _⟩ :=
        preload_loop fastlocks_rx fastlocks_tx q module hw hc0 hc hsafe q.count (le_refl _)
      simp [profile_load_scheduled, hc0, hrun, preload_spec]
  · exact List.Pairwise.filter _ (List.pairwise_lt_range q.count)
  · intro i j hi hj hslot
    rw [mem_preload_spec] at hi hj
    rcases Nat.lt_trichotomy i j with h | h | h
    · exact absurd ⟨i, h, hi.2.1, hslot⟩ hj.2.2
    · exact h
    · exact absurd ⟨j, h, hj.2.1, hslot.symm⟩ hi.2.2
  · intro i hi
    rw [mem_preload_spec] at hi
    obtain ⟨r, _, hp, _⟩ := hsafe i hi.1 hi.2.1
    exact ⟨r, hp⟩

/-- Witness of C18 (amended): two New entries with the same profile, slot 3;
the call loads the profile once. -/
theorem preload_contract_witness :
    profile_load_scheduled [⟨3, 0, 0⟩] [] queue_two BLADERF_MODULE_RX []
      = some ([] ++ (preload_spec [⟨3, 0, 0⟩] [] queue_two).filterMap
          (fun i => (queue_two.visited i).profile.map
            (hw_op.adi_fastlock_load BLADERF_MODULE_RX))) ∧
    preload_spec [⟨3, 0, 0⟩] [] queue_two = [0] :=
  ⟨(preload_contract [⟨3, 0, 0⟩] [] queue_two BLADERF_MODULE_RX [] (by decide)
      (by
        intro i hi _
        have h2 : i < 2 := hi
        refine ⟨profile_ref.rx 0, ⟨3, 0, 0⟩, ?_, rfl, by decide⟩
        interval_cases i <;> rfl)).1,
   by decide⟩

/-! ## No step takes an entry from New to Ready (C19) -/

theorem quiet_refl (q : queue) : quiet q q := fun _ h => h

theorem quiet_trans (q q1 q2 : queue) (h1 : quiet q q1) (h2 : quiet q1 q2) : quiet q q2 :=
  fun i h => h1 i (h2 i h)

theorem store_state_quiet (q q1 : queue) (k : Nat) (st : entry_state)
    (hst : st ≠ ENTRY_STATE_READY) (h : q.store_state k st = some q1) : quiet q q1 := by
  unfold queue.store_state at h
  split at h
  · rename_i hk
    simp only [Option.some.injEq] at h
    subst h
    intro i hi
    by_cases hik : i = ⟨k, hk⟩
    · subst hik
      simp at hi
      exact absurd hi hst
    · simpa [Function.update_noteq hik] using hi
  · simp at h

theorem enqueue_retune_quiet (q q1 : queue) (p : Option profile_ref) (t r : Nat)
    (h : enqueue_retune q p t = some (q1, r)) : quiet q q1 := by
  unfold enqueue_retune at h
  split at h
  · simp only [Option.some.injEq, Prod.mk.injEq] at h
    obtain ⟨rfl, _⟩ := h
    exact quiet_refl _
  · split at h
    · simp at h
    · rename_i q2 hq2
      simp only [Option.some.injEq, Prod.mk.injEq] at h
      obtain ⟨rfl, _⟩ := h
      unfold queue.store at hq2
      split at hq2
      · rename_i hk
        simp only [Option.some.injEq] at hq2
        subst hq2
        intro i hi
        by_cases hik : i = ⟨q.ins_idx, hk⟩
        · subst hik
          simp at hi
        · simpa [Function.update_noteq hik] using hi
      · simp at hq2

theorem dequeue_retune_quiet (q q1 : queue) (e : Option Nat) (r : Nat)
    (h : dequeue_retune q e = some (q1, r)) : quiet q q1 := by
  unfold dequeue_retune at h
  split at h
  · simp only [Option.some.injEq, Prod.mk.injEq] at h
    obtain ⟨rfl, _⟩ := h
    exact quiet_refl _
  · split at h
    · simp at h
    · split at h
      · simp at h
      · rename_i q2 hq2
        simp only [Option.some.injEq, Prod.mk.injEq] at h
        obtain ⟨rfl, _⟩ := h
        exact fun i hi => store_state_quiet q q2 _ _ (by decide) hq2 i hi

theorem reset_queue_quiet (q : queue) : quiet q (reset_queue q) := by
  intro i hi
  simp [reset_queue] at hi

theorem perform_work_trigger_quiet (w w1 : work_state) (trigger_ctl now : Nat)
    (e : Option (queue_sel × Nat))
    (h : perform_work_trigger w trigger_ctl now = some (w1, e)) :
    quiet w.schedule_queue w1.schedule_queue ∧ quiet w.trigger_queue w1.trigger_queue := by
  obtain ⟨hs, _, _, _⟩ := perform_work_trigger_frame w w1 trigger_ctl now e h
  refine ⟨by rw [hs]; exact quiet_refl _, ?_⟩
  unfold perform_work_trigger at h
  simp only at h
  split at h
  · split at h <;>
      (simp only [Option.some.injEq, Prod.mk.injEq] at h
       obtain ⟨rfl, _⟩ := h
       exact quiet_refl _)
  · split at h
    · split at h
      · split at h
        · simp at h
        · simp only [Option.map_eq_some'] at h
          obtain ⟨q2, hq2, heq⟩ := h
          simp only [Prod.mk.injEq] at heq
          obtain ⟨rfl, _⟩ := heq
          exact store_state_quiet _ _ _ _ (by decide) hq2
      · simp only [Option.some.injEq, Prod.mk.injEq] at h
        obtain ⟨rfl, _⟩ := h
        exact quiet_refl _
    · simp only [Option.some.injEq, Prod.mk.injEq] at h
      obtain ⟨rfl, _⟩ := h
      exact quiet_refl _
  · split at h <;>
      (simp only [Option.some.injEq, Prod.mk.injEq] at h
       obtain ⟨rfl, _⟩ := h
       exact quiet_refl _)
  · simp only [Option.some.injEq, Prod.mk.injEq] at h
    obtain ⟨rfl, _⟩ := h
    exact quiet_refl _

theorem set_queue_quiet (w : work_state) (sel : queue_sel) (q : queue)
    (hq : quiet (w.queue_of sel) q) :
    quiet w.schedule_queue (w.set_queue sel q).schedule_queue ∧
    quiet w.trigger_queue (w.set_queue sel q).trigger_queue := by
  cases sel
  · exact ⟨hq, quiet_refl _⟩
  · exact ⟨quiet_refl _, hq⟩

theorem perform_work_entry_quiet (P : platform) (w w1 : work_state) (module : bladerf_module)
    (sel : queue_sel) (k : Nat) (h : perform_work_entry P w module sel k = some w1) :
    quiet w.schedule_queue w1.schedule_queue ∧ quiet w.trigger_queue w1.trigger_queue := by
  unfold perform_work_entry at h
  split at h
  · simp at h
  · simp only at h
    split at h
    · split at h
      · simp at h
      · rename_i q hq
        simp only [Option.some.injEq] at h
        subst h
        exact set_queue_quiet w sel q (store_state_quiet _ _ _ _ (by decide) hq)
    · simp only [Option.some.injEq] at h
      subst h
      exact ⟨quiet_refl _, quiet_refl _⟩
    · split at h
      · simp only [Option.map_eq_some'] at h
        obtain ⟨⟨q2, r⟩, hq2, rfl⟩ := h
        exact ⟨dequeue_retune_quiet _ _ _ _ hq2, quiet_refl _⟩
      · simp only [Option.map_eq_some'] at h
        obtain ⟨q2, hq2, rfl⟩ := h
        exact set_queue_quiet _ sel q2 (store_state_quiet _ _ _ _ (by decide) hq2)
    · simp only [Option.some.injEq] at h
      subst h
      exact ⟨quiet_refl _, quiet_refl _⟩

theorem perform_work_quiet (P : platform) (w w1 : work_state) (module : bladerf_module)
    (trigger_ctl now : Nat) (h : perform_work P w module trigger_ctl now = some w1) :
    quiet w.schedule_queue w1.schedule_queue ∧ quiet w.trigger_queue w1.trigger_queue := by
  unfold perform_work at h
  split at h
  · simp only [Option.some.injEq] at h
    subst h
    exact ⟨quiet_refl _, quiet_refl _⟩
  · split at h
    · simp at h
    · rename_i w2 htr
      simp only [Option.some.injEq] at h
      subst h
      exact perform_work_trigger_quiet _ _ _ _ _ htr
    · rename_i w2 sel k htr
      obtain ⟨ha, hb⟩ := perform_work_trigger_quiet _ _ _ _ _ htr
      obtain ⟨hc, hd⟩ := perform_work_entry_quiet P _ _ _ _ _ h
      exact ⟨quiet_trans _ _ _ ha hc, quiet_trans _ _ _ hb hd⟩

theorem all_quiet_refl (s : globals) : all_quiet s s :=
  ⟨quiet_refl _, quiet_refl _, quiet_refl _, quiet_refl _⟩

theorem all_quiet_trans (s s1 s2 : globals) (h1 : all_quiet s s1) (h2 : all_quiet s1 s2) :
    all_quiet s s2 :=
  ⟨quiet_trans _ _ _ h1.1 h2.1, quiet_trans _ _ _ h1.2.1 h2.2.1,
   quiet_trans _ _ _ h1.2.2.1 h2.2.2.1, quiet_trans _ _ _ h1.2.2.2 h2.2.2.2⟩

theorem pkt_retune2_trigger_quiet (P : platform) (s s1 : globals) (req : request)
    (profile : Option profile_ref) (status : Int)
    (h : pkt_retune2_trigger P s req profile = some (s1, status)) : all_quiet s s1 := by
  unfold pkt_retune2_trigger at h
  simp only at h
  split at h
  · split at h
    · simp at h
    · rename_i q r henq
      split at h
      · simp at h
      · simp only [Option.some.injEq, Prod.mk.injEq] at h
        obtain ⟨rfl, _⟩ := h
        exact ⟨quiet_refl _, quiet_refl _, enqueue_retune_quiet _ _ _ _ _ henq, quiet_refl _⟩
  · split at h
    · simp at h
    · rename_i q r henq
      split at h
      · simp at h
      · simp only [Option.some.injEq, Prod.mk.injEq] at h
        obtain ⟨rfl, _⟩ := h
        exact ⟨quiet_refl _, quiet_refl _, quiet_refl _, enqueue_retune_quiet _ _ _ _ _ henq⟩
  · simp only [Option.some.injEq, Prod.mk.injEq] at h
    obtain ⟨rfl, _⟩ := h
    exact all_quiet_refl _

theorem pkt_retune2_plain_quiet (s s1 : globals) (req : request)
    (profile : Option profile_ref) (status : Int)
    (h : pkt_retune2_plain s req profile = some (s1, status)) : all_quiet s s1 := by
  unfold pkt_retune2_plain at h
  split at h
  · split at h
    · simp at h
    · rename_i q r henq
      split at h
      · simp at h
      · simp only [Option.some.injEq, Prod.mk.injEq] at h
        obtain ⟨rfl, _⟩ := h
        exact ⟨enqueue_retune_quiet _ _ _ _ _ henq, quiet_refl _, quiet_refl _, quiet_refl _⟩
  · split at h
    · simp at h
    · rename_i q r henq
      split at h
      · simp at h
      · simp only [Option.some.injEq, Prod.mk.injEq] at h
        obtain ⟨rfl, _⟩ := h
        exact ⟨quiet_refl _, enqueue_retune_quiet _ _ _ _ _ henq, quiet_refl _, quiet_refl _⟩
  · simp only [Option.some.injEq, Prod.mk.injEq] at h
    obtain ⟨rfl, _⟩ := h
    exact all_quiet_refl _

theorem pkt_retune2_quiet (P : platform) (s s1 : globals) (req : request)
    (start_time end_time : Nat) (resp : response)
    (h : pkt_retune2 P s req start_time end_time = some (s1, resp)) : all_quiet s s1 := by
  unfold pkt_retune2 at h
  simp only at h
  split at h
  · simp at h
  · rename_i s2 profile hloc
    have hs2 : all_quiet s s2 := by
      split at hloc
      · simp only [Option.map_eq_some'] at hloc
        obtain ⟨t, _, heq⟩ := hloc
        simp only [Prod.mk.injEq] at heq
        obtain ⟨rfl, _⟩ := heq
        exact all_quiet_refl _
      · simp only [Option.map_eq_some'] at hloc
        obtain ⟨t, _, heq⟩ := hloc
        simp only [Prod.mk.injEq] at heq
        obtain ⟨rfl, _⟩ := heq
        exact all_quiet_refl _
      · simp only [Option.some.injEq, Prod.mk.injEq] at hloc
        obtain ⟨rfl, _⟩ := hloc
        exact all_quiet_refl _
    refine all_quiet_trans s s2 s1 hs2 ?_
    split at h
    · simp at h
    · rename_i s3 status flags hbr
      simp only [Option.some.injEq, Prod.mk.injEq] at h
      obtain ⟨rfl, _⟩ := h
      split at hbr
      · split at hbr <;>
          (simp only [Option.some.injEq, Prod.mk.injEq] at hbr
           obtain ⟨rfl, _⟩ := hbr
           exact all_quiet_refl _)
      · split at hbr
        · split at hbr <;>
            (simp only [Option.some.injEq, Prod.mk.injEq] at hbr
             obtain ⟨rfl, _⟩ := hbr
             first
               | exact ⟨reset_queue_quiet _, quiet_refl _, reset_queue_quiet _, quiet_refl _⟩
               | exact ⟨quiet_refl _, reset_queue_quiet _, quiet_refl _, reset_queue_quiet _⟩
               | exact all_quiet_refl _)
        · split at hbr
          · simp only [Option.map_eq_some'] at hbr
            obtain ⟨⟨s4, st⟩, hb, heq⟩ := hbr
            simp only [Prod.mk.injEq] at heq
            obtain ⟨rfl, _⟩ := heq
            exact pkt_retune2_trigger_quiet P _ _ _ _ _ hb
          · simp only [Option.map_eq_some'] at hbr
            obtain ⟨⟨s4, st⟩, hb, heq⟩ := hbr
            simp only [Prod.mk.injEq] at heq
            obtain ⟨rfl, _⟩ := heq
            exact pkt_retune2_plain_quiet _ _ _ _ _ hb

theorem perform_work_rx_quiet (P : platform) (s s1 : globals) (trigger_ctl now : Nat)
    (h : perform_work_rx P s trigger_ctl now = some s1) : all_quiet s s1 := by
  unfold perform_work_rx at h
  simp only [Option.map_eq_some'] at h
  obtain ⟨w, hw, rfl⟩ := h
  obtain ⟨ha, hb⟩ := perform_work_quiet P _ _ _ _ _ hw
  exact ⟨ha, quiet_refl _, hb, quiet_refl _⟩

theorem perform_work_tx_quiet (P : platform) (s s1 : globals) (trigger_ctl now : Nat)
    (h : perform_work_tx P s trigger_ctl now = some s1) : all_quiet s s1 := by
  unfold perform_work_tx at h
  simp only [Option.map_eq_some'] at h
  obtain ⟨w, hw, rfl⟩ := h
  obtain ⟨ha, hb⟩ := perform_work_quiet P _ _ _ _ _ hw
  exact ⟨quiet_refl _, ha, quiet_refl _, hb⟩

theorem all_quiet_get (s s1 : globals) (h : all_quiet s s1) (qid : queue_id) :
    quiet (s.get_queue qid) (s1.get_queue qid) := by
  obtain ⟨h1, h2, h3, h4⟩ := h
  cases qid
  · exact h1
  · exact h2
  · exact h3
  · exact h4

theorem retune_isr_ready (q q1 : queue) (offset n n1 : Nat)
    (h : retune_isr q offset n = some (q1, n1)) (i : Fin 16)
    (hi : (q1.entries i).state = ENTRY_STATE_READY) :
    (q.entries i).state = ENTRY_STATE_SCHEDULED ∨ (q.entries i).state = ENTRY_STATE_READY := by
  obtain ⟨q2, n2, hrun, _, _, _, _, hst, _, _⟩ := retune_isr_total q offset n
  rw [hrun] at h
  simp only [Option.some.injEq, Prod.mk.injEq] at h
  obtain ⟨rfl, _⟩ := h
  by_cases hsame : (q2.entries i).state = (q.entries i).state
  · right
    rw [← hsame]
    exact hi
  · left
    exact (hst i hsame).1

theorem set_queue_ready (s : globals) (a : queue_id) (q1 : queue)
    (hq : ∀ i : Fin 16, (q1.entries i).state = ENTRY_STATE_READY →
      ((s.get_queue a).entries i).state = ENTRY_STATE_SCHEDULED ∨
      ((s.get_queue a).entries i).state = ENTRY_STATE_READY)
    (qid : queue_id) (i : Fin 16)
    (hi : (((s.set_queue a q1).get_queue qid).entries i).state = ENTRY_STATE_READY) :
    ((s.get_queue qid).entries i).state = ENTRY_STATE_SCHEDULED ∨
    ((s.get_queue qid).entries i).state = ENTRY_STATE_READY := by
  by_cases hqid : qid = a
  · subst hqid
    rw [get_set_queue_same] at hi
    exact hq i hi
  · rw [get_set_queue_other _ _ _ _ hqid] at hi
    exact Or.inr hi

/-- C19: over the steps of the program (the queue operations on any of the
four queues, a `perform_work` call, an interrupt handler, `pkt_retune2`,
`pkt_retune2_init`), every entry that is Ready after a step was Scheduled or
Ready before it; so no step takes an entry from New to Ready. -/
theorem no_new_to_ready (P : platform) (s s1 : globals) (h : step P s s1)
    (qid : queue_id) (i : Fin 16) :
    (((s1.get_queue qid).entries i).state = ENTRY_STATE_READY →
      ((s.get_queue qid).entries i).state = ENTRY_STATE_SCHEDULED ∨
      ((s.get_queue qid).entries i).state = ENTRY_STATE_READY) ∧
    (((s.get_queue qid).entries i).state = ENTRY_STATE_NEW →
      ((s1.get_queue qid).entries i).state ≠ ENTRY_STATE_READY) := by
  have key : ((s1.get_queue qid).entries i).state = ENTRY_STATE_READY →
      ((s.get_queue qid).entries i).state = ENTRY_STATE_SCHEDULED ∨
      ((s.get_queue qid).entries i).state = ENTRY_STATE_READY := by
    intro hi
    have quiet_case : all_quiet s s1 →
        ((s.get_queue qid).entries i).state = ENTRY_STATE_SCHEDULED ∨
        ((s.get_queue qid).entries i).state = ENTRY_STATE_READY :=
      fun hq => Or.inr (all_quiet_get s s1 hq qid i hi)
    cases h with
    | init =>
      apply quiet_case
      exact ⟨reset_queue_quiet _, reset_queue_quiet _, quiet_refl _, quiet_refl _⟩
    | work_rx _ ctl now hw => exact quiet_case (perform_work_rx_quiet P _ _ _ _ hw)
    | work_tx _ ctl now hw => exact quiet_case (perform_work_tx_quiet P _ _ _ _ hw)
    | isr_rx _ hw =>
      have heq := retune_eq s channel.rx
      simp only [retune] at heq
      rw [heq, Option.map_eq_some'] at hw
      obtain ⟨⟨q1, n1⟩, hq1, rfl⟩ := hw
      have hi2 : (((s.set_queue (isr_queue s channel.rx) q1).get_queue qid).entries i).state
          = ENTRY_STATE_READY := by
        cases qid <;> exact hi
      exact set_queue_ready s _ q1 (retune_isr_ready _ _ _ _ _ hq1) qid i hi2
    | isr_tx _ hw =>
      have heq := retune_eq s channel.tx
      simp only [retune] at heq
      rw [heq, Option.map_eq_some'] at hw
      obtain ⟨⟨q1, n1⟩, hq1, rfl⟩ := hw
      have hi2 : (((s.set_queue (isr_queue s channel.tx) q1).get_queue qid).entries i).state
          = ENTRY_STATE_READY := by
        cases qid <;> exact hi
      exact set_queue_ready s _ q1 (retune_isr_ready _ _ _ _ _ hq1) qid i hi2
    | pkt _ req st en resp hw => exact quiet_case (pkt_retune2_quiet P _ _ _ _ _ _ hw)
    | enqueue a p t q r hw =>
      exact set_queue_ready s a q
        (fun j hj => Or.inr (enqueue_retune_quiet _ _ _ _ _ hw j hj)) qid i hi
    | dequeue a q r hw =>
      exact set_queue_ready s a q
        (fun j hj => Or.inr (dequeue_retune_quiet _ _ _ _ hw j hj)) qid i hi
    | reset a =>
      exact set_queue_ready s a _
        (fun j hj => Or.inr (reset_queue_quiet _ j hj)) qid i hi
    | isr a offset q n hw =>
      have hi2 : (((s.set_queue a q).get_queue qid).entries i).state = ENTRY_STATE_READY := by
        cases qid <;> cases a <;> exact hi
      exact set_queue_ready s a q (retune_isr_ready _ _ _ _ _ hw) qid i hi2
  refine ⟨key, ?_⟩
  intro hnew hready
  rcases key hready with h1 | h1 <;> rw [hnew] at h1 <;> exact absurd h1 (by decide)

/-- Witness of C17: the RX handler on a state whose RX schedule queue head is
Scheduled. -/
theorem retune_frame_witness :
    ∃ s1, retune channel.rx rx_scheduled_globals = some s1 ∧
      s1.rx_trigger_info = rx_scheduled_globals.rx_trigger_info := by
  obtain ⟨s1, h1, h2, _⟩ := retune_frame rx_scheduled_globals channel.rx
  exact ⟨s1, h1, h2⟩

theorem step_isr_rx_scheduled :
    step sample_platform rx_scheduled_globals
      ((retune_rx rx_scheduled_globals).getD rx_scheduled_globals) :=
  step.isr_rx _ _ rfl

/-- Witness of C19: the RX handler makes the Scheduled head of the RX schedule
queue Ready. -/
theorem no_new_to_ready_witness :
    ((((retune_rx rx_scheduled_globals).getD rx_scheduled_globals).get_queue
        queue_id.rx_queue).entries 0).state = ENTRY_STATE_READY ∧
    (((rx_scheduled_globals.get_queue queue_id.rx_queue).entries 0).state
        = ENTRY_STATE_SCHEDULED ∨
     ((rx_scheduled_globals.get_queue queue_id.rx_queue).entries 0).state
        = ENTRY_STATE_READY) :=
  ⟨rfl, (no_new_to_ready sample_platform _ _ step_isr_rx_scheduled queue_id.rx_queue 0).1 rfl⟩

/-! ## The queue is a first-in-first-out list (C20) -/

theorem run_calls_snoc (q q1 q2 : queue) (cs : List queue_call) (c : queue_call)
    (tr : List (queue_call × Nat)) (r : Nat)
    (h1 : run_calls q cs = some (q1, tr)) (h2 : c.run q1 = some (q2, r)) :
    run_calls q (cs ++ [c]) = some (q2, tr ++ [(c, r)]) := by
  apply run_calls_append cs [c] q q1 tr q2 [(c, r)] h1
  simp [run_calls, h2]

theorem enqueued_pairs_snoc_enqueue (tr : List (queue_call × Nat)) (p : Option profile_ref)
    (t r : Nat) :
    enqueued_pairs (tr ++ [(queue_call.enqueue p t, r)])
      = enqueued_pairs tr ++ (if r = QUEUE_FULL then [] else [(p, t)]) := by
  unfold enqueued_pairs
  rw [List.filterMap_append]
  by_cases h : r = 255 <;> simp [h]

theorem enqueued_pairs_snoc_dequeue (tr : List (queue_call × Nat)) (r : Nat) :
    enqueued_pairs (tr ++ [(queue_call.dequeue, r)]) = enqueued_pairs tr := by
  unfold enqueued_pairs
  rw [List.filterMap_append]
  simp

theorem visited_eq (q : queue) (i : Nat) :
    q.visited i = q.entries ⟨(q.rem_idx + i) % 16, Nat.mod_lt _ (by decide)⟩ := rfl

theorem entries_congr (q : queue) (a b : Nat) (ha : a < 16) (hb : b < 16) (h : a = b) :
    q.entries ⟨a, ha⟩ = q.entries ⟨b, hb⟩ := by
  subst h
  rfl

theorem visited_update (c ins rem : Nat) (es : Fin 16 → queue_entry) (k : Nat) (hk : k < 16)
    (v : queue_entry) (i : Nat) :
    (⟨c, ins, rem, Function.update es ⟨k, hk⟩ v⟩ : queue).visited i
      = if (rem + i) % 16 = k then v else es ⟨(rem + i) % 16, Nat.mod_lt _ (by decide)⟩ := by
  simp only [queue.visited]
  by_cases h : (rem + i) % 16 = k
  · subst h
    simp
  · have hne : (⟨(rem + i) % 16, Nat.mod_lt _ (by decide)⟩ : Fin 16) ≠ ⟨k, hk⟩ := by
      intro heq
      exact h (congrArg Fin.val heq)
    simp [h, Function.update_noteq hne]

theorem fifo_invariant (q0 : queue) (calls : List queue_call) :
    ∃ q tr, run_calls (reset_queue q0) calls = some (q, tr) ∧ queue_ok q ∧
      tr.countP dequeue_succeeded + q.count = (enqueued_pairs tr).length ∧
      ∀ i, i < q.count →
        (enqueued_pairs tr)[tr.countP dequeue_succeeded + i]? = some (entry_pair (q.visited i)) := by
  induction calls using List.reverseRecOn with
  | nil =>
    refine ⟨reset_queue q0, [], rfl, queue_ok_reset q0, rfl, ?_⟩
    intro i hi
    simp [reset_queue] at hi
  | append_singleton cs c ih =>
    obtain ⟨q, tr, hrun, hok, hlen, hent⟩ := ih
    obtain ⟨hc16, hins, hrem, hring⟩ := hok
    cases c with
    | enqueue p t =>
      by_cases hfull : 16 ≤ q.count
      · have hstep := enqueue_retune_full q p t hfull
        refine ⟨q, tr ++ [(queue_call.enqueue p t, QUEUE_FULL)],
          run_calls_snoc _ _ _ _ _ _ _ hrun hstep, ⟨hc16, hins, hrem, hring⟩, ?_, ?_⟩
        · simp [enqueued_pairs_snoc_enqueue, List.countP_append, dequeue_succeeded, hlen]
        · intro i hi
          simp [enqueued_pairs_snoc_enqueue, List.countP_append, dequeue_succeeded, hent i hi]
      · have hlt : q.count < 16 := by omega
        have hstep := enqueue_retune_room q p t hlt hins
        have hne : q.count + 1 ≠ 255 := by omega
        refine ⟨_, tr ++ [(queue_call.enqueue p t, q.count + 1)],
          run_calls_snoc _ _ _ _ _ _ _ hrun hstep, ?_, ?_, ?_⟩
        · refine ⟨?_, ?_, hrem, ?_⟩
          · show q.count + 1 ≤ 16
            omega
          · show (q.ins_idx + 1) % 16 < 16
            omega
          · show (q.ins_idx + 1) % 16 = (q.rem_idx + (q.count + 1)) % 16
            omega
        · simp only [enqueued_pairs_snoc_enqueue, List.countP_append, if_neg hne,
            List.length_append, List.length_singleton]
          simp [dequeue_succeeded]
          omega
        · intro i hi
          have hi' : i < q.count + 1 := hi
          have hcnt : List.countP dequeue_succeeded
              (tr ++ [(queue_call.enqueue p t, q.count + 1)])
              = List.countP dequeue_succeeded tr := by
            simp [List.countP_append, dequeue_succeeded]
          rw [hcnt, enqueued_pairs_snoc_enqueue, if_neg hne]
          rw [visited_update]
          by_cases hic : i < q.count
          · rw [List.getElem?_append_left (by omega), hent i hic, if_neg (by omega)]
            rfl
          · have hieq : i = q.count := by omega
            subst hieq
            rw [List.getElem?_append_right (by omega), hlen, if_pos (by omega)]
            simp [entry_pair]
    | dequeue =>
      by_cases hz : q.count = 0
      · have hstep := dequeue_retune_empty q none hz
        refine ⟨q, tr ++ [(queue_call.dequeue, QUEUE_EMPTY)],
          run_calls_snoc _ _ _ _ _ _ _ hrun hstep, ⟨hc16, hins, hrem, hring⟩, ?_, ?_⟩
        · simp [enqueued_pairs_snoc_dequeue, List.countP_append, dequeue_succeeded, hlen]
        · intro i hi
          omega
      · have hstep := dequeue_retune_some q hz hrem
        have hne : q.count - 1 ≠ 254 := by omega
        have hcnt : List.countP dequeue_succeeded (tr ++ [(queue_call.dequeue, q.count - 1)])
            = List.countP dequeue_succeeded tr + 1 := by
          simp [List.countP_append, dequeue_succeeded, hne]
        refine ⟨_, tr ++ [(queue_call.dequeue, q.count - 1)],
          run_calls_snoc _ _ _ _ _ _ _ hrun hstep, ?_, ?_, ?_⟩
        · refine ⟨?_, hins, ?_, ?_⟩
          · show q.count - 1 ≤ 16
            omega
          · show (q.rem_idx + 1) % 16 < 16
            omega
          · show q.ins_idx = ((q.rem_idx + 1) % 16 + (q.count - 1)) % 16
            omega
        · rw [hcnt, enqueued_pairs_snoc_dequeue]
          show List.countP dequeue_succeeded tr + 1 + (q.count - 1) = _
          omega
        · intro i hi
          have hi' : i < q.count - 1 := hi
          rw [hcnt, enqueued_pairs_snoc_dequeue]
          have hprev := hent (i + 1) (by omega)
          have hadd : List.countP dequeue_succeeded tr + 1 + i
              = List.countP dequeue_succeeded tr + (i + 1) := by omega
          rw [hadd, hprev, visited_update]
          have hmod : ((q.rem_idx + 1) % 16 + i) % 16 = (q.rem_idx + (i + 1)) % 16 := by omega
          by_cases hidx : ((q.rem_idx + 1) % 16 + i) % 16 = q.rem_idx
          · rw [if_pos hidx, visited_eq,
              entries_congr q _ q.rem_idx _ hrem (by omega)]
            rfl
          · rw [if_neg hidx, visited_eq, entries_congr q _ _ _ _ hmod]

/-- C20: starting from a reset queue, every sequence of `enqueue_retune` and
`dequeue_retune` calls runs to the end, and with `pending` the list of pairs
enqueued successfully and not yet dequeued, in enqueue order: `count` is the
length of the list, and for every `i < count` `peek_next_retune_offset(q, i)`
is the entry that holds the `i`-th pair. A dequeue on the non-empty queue then
marks Done the entry at offset 0, which holds the oldest pair, and leaves the
rest of the list. -/
theorem fifo_refinement (q0 : queue) (calls : List queue_call) :
    ∃ q tr, run_calls (reset_queue q0) calls = some (q, tr) ∧
      q.count = (pending tr).length ∧
      (∀ i, i < q.count → ∃ k, ∃ hk : k < 16,
        peek_next_retune_offset q i = some k ∧
        (pending tr)[i]? = some (entry_pair (q.entries ⟨k, hk⟩))) ∧
      (q.count ≠ 0 → ∃ q1 k, ∃ hk : k < 16,
        dequeue_retune q none = some (q1, q.count - 1) ∧
        run_calls (reset_queue q0) (calls ++ [queue_call.dequeue])
          = some (q1, tr ++ [(queue_call.dequeue, q.count - 1)]) ∧
        peek_next_retune_offset q 0 = some k ∧
        (pending tr).head? = some (entry_pair (q.entries ⟨k, hk⟩)) ∧
        (q1.entries ⟨k, hk⟩).state = ENTRY_STATE_DONE ∧
        pending (tr ++ [(queue_call.dequeue, q.count - 1)]) = (pending tr).tail) := by
  obtain ⟨q, tr, hrun, hok, hlen, hent⟩ := fifo_invariant q0 calls
  obtain ⟨hc16, hins, hrem, hring⟩ := hok
  have hpeek : ∀ i, q.count ≠ 0 →
      peek_next_retune_offset q i = some ((q.rem_idx + i) % 16) := by
    intro i hc
    simp [peek_next_retune_offset, hc, and_15_eq_mod]
  have hget : ∀ i, i < q.count →
      (pending tr)[i]? = some (entry_pair (q.visited i)) := by
    intro i hi
    rw [pending, List.getElem?_drop]
    exact hent i hi
  refine ⟨q, tr, hrun, ?_, ?_, ?_⟩
  · simp only [pending, List.length_drop]
    omega
  · intro i hi
    exact ⟨(q.rem_idx + i) % 16, Nat.mod_lt _ (by decide), hpeek i (by omega), hget i hi⟩
  · intro hz
    have hstep := dequeue_retune_some q hz hrem
    have hne : q.count - 1 ≠ 254 := by omega
    refine ⟨_, (q.rem_idx + 0) % 16, Nat.mod_lt _ (by decide), hstep,
      run_calls_snoc _ _ _ _ _ _ _ hrun hstep, hpeek 0 hz, ?_, ?_, ?_⟩
    · rw [List.head?_eq_getElem?]
      exact hget 0 (by omega)
    · have hidx : (⟨(q.rem_idx + 0) % 16, Nat.mod_lt _ (by decide)⟩ : Fin 16)
          = ⟨q.rem_idx, hrem⟩ := by
        apply Fin.ext
        simp only
        omega
      rw [hidx]
      simp
    · simp only [pending, enqueued_pairs_snoc_dequeue, List.countP_append]
      simp [dequeue_succeeded, hne, List.tail_drop]

/-! ## The handler and the entry a tick arms (C11) -/

theorem perform_work_trigger_selected (w w1 : work_state) (trigger_ctl now : Nat)
    (sel : queue_sel) (k : Nat) (hk : k < 16)
    (htr : perform_work_trigger w trigger_ctl now = some (w1, some (sel, k)))
    (hnw : ¬ (w.trigger_info.state = TRIGGER_RUN ∧
              trigger_ctl &&& BLADERF_TRIGGER_REG_LINE ≠ BLADERF_TRIGGER_REG_LINE ∧
              w.trigger_queue.count = w.trigger_info.idx ∧ w.trigger_info.period = 0)) :
    sel = (if w1.trigger_info.state = TRIGGER_IDLE ∨ w1.trigger_info.state = TRIGGER_DONE
           then queue_sel.schedule else queue_sel.trigger) ∧
    (w1.queue_of sel).count ≠ 0 ∧
    ((w1.queue_of sel).rem_idx
      + (if w1.trigger_info.state = TRIGGER_IDLE ∨ w1.trigger_info.state = TRIGGER_DONE
         then 0 else w1.trigger_info.idx)) % 16 = k := by
  unfold perform_work_trigger at htr
  simp only at htr
  split at htr
  · split at htr
    · simp at htr
    · simp only [Option.some.injEq, Prod.mk.injEq, Option.map_eq_some', peek_next_retune] at htr
      obtain ⟨rfl, a, ha, hsel⟩ := htr
      obtain ⟨rfl, rfl⟩ := hsel
      split at ha
      · simp at ha
      · rename_i h0
        simp only [Option.some.injEq] at ha
        subst ha
        refine ⟨by simp, h0, ?_⟩
        simp only [work_state.queue_of]
        simpa using Nat.mod_eq_of_lt hk
  · rename_i hrun
    split at htr
    · split at htr
      · split at htr
        · simp at htr
        · simp only [Option.map_eq_some'] at htr
          obtain ⟨q2, _, heq⟩ := htr
          simp at heq
      · simp at htr
    · rename_i hnr
      simp only [Option.some.injEq, Prod.mk.injEq, Option.map_eq_some',
        peek_next_retune_offset] at htr
      obtain ⟨rfl, a, ha, hsel⟩ := htr
      obtain ⟨rfl, rfl⟩ := hsel
      split at ha
      · simp at ha
      · rename_i h0
        simp only [Option.some.injEq, and_mask_eq_mod] at ha
        subst ha
        have hnr1 : trigger_ctl &&& BLADERF_TRIGGER_REG_LINE ≠ BLADERF_TRIGGER_REG_LINE := by
          simpa using hnr
        by_cases hw : w.trigger_queue.count = w.trigger_info.idx
        · have hp : w.trigger_info.period ≠ 0 := fun hp => hnw ⟨hrun, hnr1, hw, hp⟩
          simp only [hw, if_true, hp, if_false, hrun]
          refine ⟨by simp, ?_, by simp [work_state.queue_of]⟩
          simpa [work_state.queue_of] using h0
        · simp only [hw, if_false, hrun]
          refine ⟨by simp, ?_, by simp [work_state.queue_of]⟩
          simpa [work_state.queue_of] using h0
  · rename_i hidle
    split at htr
    · simp at htr
    · simp only [Option.some.injEq, Prod.mk.injEq, Option.map_eq_some', peek_next_retune] at htr
      obtain ⟨rfl, a, ha, hsel⟩ := htr
      obtain ⟨rfl, rfl⟩ := hsel
      split at ha
      · simp at ha
      · rename_i h0
        simp only [Option.some.injEq] at ha
        subst ha
        refine ⟨by simp [hidle], h0, ?_⟩
        simp only [work_state.queue_of, hidle]
        simpa using Nat.mod_eq_of_lt hk
  · rename_i hdone
    simp only [Option.some.injEq, Prod.mk.injEq, Option.map_eq_some', peek_next_retune] at htr
    obtain ⟨rfl, a, ha, hsel⟩ := htr
    obtain ⟨rfl, rfl⟩ := hsel
    split at ha
    · simp at ha
    · rename_i h0
      simp only [Option.some.injEq] at ha
      subst ha
      by_cases hr : trigger_ctl &&& BLADERF_TRIGGER_REG_LINE = BLADERF_TRIGGER_REG_LINE
      · simp [hr, work_state.queue_of, h0, Nat.mod_eq_of_lt hk]
      · simp [hr, hdone, work_state.queue_of, h0, Nat.mod_eq_of_lt hk]


theorem armed_entry_made_ready (P : platform) (w w1 : work_state) (module : bladerf_module)
    (trigger_ctl now : Nat) (sel : queue_sel) (k n : Nat)
    (hm : module ≠ BLADERF_MODULE_OTHER) (hk : k < 16)
    (htr : perform_work_trigger w trigger_ctl now = some (w1, some (sel, k)))
    (he : ((w.queue_of sel).entries ⟨k, hk⟩).state = ENTRY_STATE_NEW)
    (hnw : ¬ (w.trigger_info.state = TRIGGER_RUN ∧
              trigger_ctl &&& BLADERF_TRIGGER_REG_LINE ≠ BLADERF_TRIGGER_REG_LINE ∧
              w.trigger_queue.count = w.trigger_info.idx ∧ w.trigger_info.period = 0)) :
    ∃ w2 q1, perform_work P w module trigger_ctl now = some w2 ∧
      ((w2.queue_of sel).entries ⟨k, hk⟩).state = ENTRY_STATE_SCHEDULED ∧
      sel = (if w2.trigger_info.state = TRIGGER_IDLE ∨ w2.trigger_info.state = TRIGGER_DONE
             then queue_sel.schedule else queue_sel.trigger) ∧
      peek_next_retune_offset (w2.queue_of sel)
        (if w2.trigger_info.state = TRIGGER_IDLE ∨ w2.trigger_info.state = TRIGGER_DONE
         then 0 else w2.trigger_info.idx) = some k ∧
      retune_isr (w2.queue_of sel)
        (if w2.trigger_info.state = TRIGGER_IDLE ∨ w2.trigger_info.state = TRIGGER_DONE
         then 0 else w2.trigger_info.idx) n = some (q1, n) ∧
      (q1.entries ⟨k, hk⟩).state = ENTRY_STATE_READY := by
  obtain ⟨hsq, _, _, htq⟩ := perform_work_trigger_frame w w1 trigger_ctl now _ htr
  have hq : w1.queue_of sel = w.queue_of sel := by
    cases sel
    · exact hsq
    · exact htq (by simp)
  have he1 : ((w1.queue_of sel).entries ⟨k, hk⟩).state = ENTRY_STATE_NEW := by
    rw [hq]
    exact he
  obtain ⟨hsel, hcnt, hidx⟩ := perform_work_trigger_selected w w1 trigger_ctl now sel k hk htr hnw
  have hent := perform_work_entry_new P w1 module sel k hk he1
  have key : ∀ w2, perform_work_entry P w1 module sel k = some w2 →
      w2.trigger_info = w1.trigger_info ∧
      (w2.queue_of sel).count = (w1.queue_of sel).count ∧
      (w2.queue_of sel).rem_idx = (w1.queue_of sel).rem_idx ∧
      ((w2.queue_of sel).entries ⟨k, hk⟩).state = ENTRY_STATE_SCHEDULED := by
    intro w2 h2
    rw [hent] at h2
    simp only [Option.some.injEq] at h2
    subst h2
    cases sel <;> simp [work_state.queue_of, work_state.set_queue]
  obtain ⟨w2, hw2⟩ : ∃ w2, perform_work_entry P w1 module sel k = some w2 := ⟨_, hent⟩
  obtain ⟨hti, hc2, hr2, hs2⟩ := key w2 hw2
  have hpeek : peek_next_retune_offset (w2.queue_of sel)
        (if w2.trigger_info.state = TRIGGER_IDLE ∨ w2.trigger_info.state = TRIGGER_DONE
         then 0 else w2.trigger_info.idx) = some k := by
    rw [hti]
    simp only [peek_next_retune_offset, hc2, hcnt, if_false, hr2, and_mask_eq_mod, hidx]
  obtain ⟨q1, n1, hisr, _, _, _, _, _, hsel2, _⟩ :=
    retune_isr_total (w2.queue_of sel)
      (if w2.trigger_info.state = TRIGGER_IDLE ∨ w2.trigger_info.state = TRIGGER_DONE
       then 0 else w2.trigger_info.idx) n
  obtain ⟨hn1, hready⟩ := (hsel2 ⟨k, hk⟩ hpeek).2 hs2
  refine ⟨w2, q1, ?_, hs2, ?_, hpeek, ?_, hready⟩
  · rw [perform_work_eq_entry P w w1 module trigger_ctl now sel k hm htr]
    exact hw2
  · rw [hti]
    exact hsel
  · rw [hisr, hn1]


/-- C11 fails on the code at the end of a one-shot trigger cycle. From the
start state, a trigger-tagged request with period 0, two ticks with the line
fired, the timer interrupt and the retiring tick leave RX in Run with the
cursor equal to the count. The next tick wraps: the trigger state becomes Done
while the active entry is still the trigger queue entry at offset 0, which goes
from New to Scheduled with a timer armed for its relative timestamp 1. The
handler run on that state looks at the schedule queue (state Done), which is
empty, and the entry the tick armed stays Scheduled. -/
theorem oneshot_wrap_arms_unreachable_entry :
    initial zero_globals ∧
    ∃ s5 s6 s7,
      run_events sample_platform zero_globals (one_entry_cycle rx_oneshot_request) = some s5 ∧
      s5.rx_trigger_info = ⟨TRIGGER_RUN, 50, 1, 0, 0⟩ ∧
      s5.rx_trigger_queue.count = 1 ∧
      (s5.rx_trigger_queue.entries 0).state = ENTRY_STATE_NEW ∧
      perform_work_rx sample_platform s5 0 53 = some s6 ∧
      s6.rx_trigger_info = ⟨TRIGGER_DONE, 50, 0, 0, 1⟩ ∧
      (s6.rx_trigger_queue.entries 0).state = ENTRY_STATE_SCHEDULED ∧
      s6.hw = s5.hw ++ [hw_op.adi_fastlock_load BLADERF_MODULE_RX (profile_ref.rx 0),
                        hw_op.tamer_schedule BLADERF_MODULE_RX 1] ∧
      isr_queue s6 channel.rx = queue_id.rx_queue ∧
      peek_next_retune_offset s6.rx_queue 0 = none ∧
      retune_rx s6 = some s7 ∧
      (s7.rx_trigger_queue.entries 0).state = ENTRY_STATE_SCHEDULED ∧
      (s7.rx_trigger_queue.entries 0).state ≠ ENTRY_STATE_READY :=
  ⟨initial_zero_globals,
   _, _, _, rfl, rfl, rfl, rfl, rfl, rfl, rfl, rfl, rfl, rfl, rfl, rfl, by decide⟩

/-! ## The cursor in Run (C12) -/

theorem perform_work_trigger_cursor (w w1 : work_state) (trigger_ctl now : Nat)
    (e : Option (queue_sel × Nat))
    (h : perform_work_trigger w trigger_ctl now = some (w1, e))
    (hc : w.trigger_info.state = TRIGGER_RUN → w.trigger_info.idx ≤ w.trigger_queue.count) :
    w1.trigger_queue.count = w.trigger_queue.count ∧
    (w1.trigger_info.state = TRIGGER_RUN → w1.trigger_info.idx ≤ w1.trigger_queue.count) ∧
    (e ≠ none → w1.trigger_info.state = TRIGGER_RUN →
      w1.trigger_info.idx < w1.trigger_queue.count) := by
  unfold perform_work_trigger at h
  simp only at h
  split at h
  · split at h
    · simp only [Option.some.injEq, Prod.mk.injEq] at h
      obtain ⟨rfl, rfl⟩ := h
      exact ⟨rfl, fun hst => by simp at hst, fun hne => absurd rfl hne⟩
    · simp only [Option.some.injEq, Prod.mk.injEq] at h
      obtain ⟨rfl, rfl⟩ := h
      refine ⟨rfl, fun _ => Nat.zero_le _, fun hne _ => ?_⟩
      simp only [peek_next_retune] at hne
      by_cases h0 : w.trigger_queue.count = 0
      · simp [h0] at hne
      · exact Nat.pos_of_ne_zero h0
  · rename_i hrun
    split at h
    · split at h
      · split at h
        · simp at h
        · simp only [Option.map_eq_some'] at h
          obtain ⟨q2, hq2, heq⟩ := h
          simp only [Prod.mk.injEq] at heq
          obtain ⟨rfl, rfl⟩ := heq
          exact ⟨(store_state_fields _ _ _ _ hq2).1, fun hst => by simp at hst,
            fun hne => absurd rfl hne⟩
      · simp only [Option.some.injEq, Prod.mk.injEq] at h
        obtain ⟨rfl, rfl⟩ := h
        exact ⟨rfl, fun hst => by simp at hst, fun hne => absurd rfl hne⟩
    · simp only [Option.some.injEq, Prod.mk.injEq] at h
      obtain ⟨rfl, rfl⟩ := h
      have hle := hc hrun
      by_cases hw : w.trigger_queue.count = w.trigger_info.idx
      · simp only [hw, if_true]
        refine ⟨trivial, fun _ => Nat.zero_le _, fun hne _ => ?_⟩
        simp only [peek_next_retune_offset] at hne
        by_cases h0 : w.trigger_queue.count = 0
        · simp [h0] at hne
        · rw [← hw]
          exact Nat.pos_of_ne_zero h0
      · simp only [hw, if_false]
        exact ⟨trivial, fun _ => hle, fun _ _ => by omega⟩
  · split at h
    · simp only [Option.some.injEq, Prod.mk.injEq] at h
      obtain ⟨rfl, rfl⟩ := h
      exact ⟨rfl, fun hst => by simp at hst, fun hne => absurd rfl hne⟩
    · rename_i hidle _
      simp only [Option.some.injEq, Prod.mk.injEq] at h
      obtain ⟨rfl, rfl⟩ := h
      exact ⟨rfl, hc, fun _ hst => by rw [hidle] at hst; cases hst⟩
  · rename_i hdone
    simp only [Option.some.injEq, Prod.mk.injEq] at h
    obtain ⟨rfl, rfl⟩ := h
    refine ⟨rfl, fun hst => ?_, fun _ hst => ?_⟩ <;>
      (split at hst
       · simp at hst
       · rw [hdone] at hst; cases hst)

theorem perform_work_entry_cursor (P : platform) (w w1 : work_state) (module : bladerf_module)
    (sel : queue_sel) (k : Nat)
    (h : perform_work_entry P w module sel k = some w1) :
    w1.trigger_queue.count = w.trigger_queue.count ∧
    w1.trigger_info.state = w.trigger_info.state ∧
    (w1.trigger_info.idx = w.trigger_info.idx ∨
     w1.trigger_info.idx = (w.trigger_info.idx + 1) % 256) := by
  unfold perform_work_entry at h
  split at h
  · simp at h
  · simp only at h
    split at h
    · split at h
      · simp at h
      · rename_i q hq
        simp only [Option.some.injEq] at h
        subst h
        have hf := (store_state_fields _ _ _ _ hq).1
        cases sel
        · exact ⟨rfl, rfl, Or.inl rfl⟩
        · exact ⟨hf, rfl, Or.inl rfl⟩
    · simp only [Option.some.injEq] at h
      subst h
      exact ⟨rfl, rfl, Or.inl rfl⟩
    · split at h
      · simp only [Option.map_eq_some'] at h
        obtain ⟨⟨q2, r⟩, hq2, rfl⟩ := h
        exact ⟨rfl, rfl, Or.inl rfl⟩
      · simp only [Option.map_eq_some'] at h
        obtain ⟨q2, hq2, rfl⟩ := h
        have hf := (store_state_fields _ _ _ _ hq2).1
        cases sel
        · exact ⟨rfl, rfl, Or.inr rfl⟩
        · exact ⟨hf, rfl, Or.inr rfl⟩
    · simp only [Option.some.injEq] at h
      subst h
      exact ⟨rfl, rfl, Or.inl rfl⟩

theorem perform_work_cursor (P : platform) (w w1 : work_state) (module : bladerf_module)
    (trigger_ctl now : Nat)
    (h : perform_work P w module trigger_ctl now = some w1)
    (ht : queue_ok w.trigger_queue)
    (hc : w.trigger_info.state = TRIGGER_RUN → w.trigger_info.idx ≤ w.trigger_queue.count) :
    w1.trigger_info.state = TRIGGER_RUN → w1.trigger_info.idx ≤ w1.trigger_queue.count := by
  unfold perform_work at h
  split at h
  · simp only [Option.some.injEq] at h
    subst h
    exact hc
  · split at h
    · simp at h
    · rename_i w2 htr
      simp only [Option.some.injEq] at h
      subst h
      exact (perform_work_trigger_cursor _ _ _ _ _ htr hc).2.1
    · rename_i w2 sel k htr
      obtain ⟨hcnt, hle, hlt⟩ := perform_work_trigger_cursor _ _ _ _ _ htr hc
      obtain ⟨hcnt2, hst2, hidx⟩ := perform_work_entry_cursor P _ _ _ _ _ h
      intro hrun
      rw [hst2] at hrun
      have h16 : w.trigger_queue.count ≤ 16 := ht.1
      have h1 := hle hrun
      have h2 := hlt (by simp) hrun
      rcases hidx with hi | hi
      · rw [hi, hcnt2]
        exact h1
      · rw [hi, hcnt2]
        omega

theorem enqueue_retune_count_le (q q1 : queue) (p : Option profile_ref) (t r : Nat)
    (h : enqueue_retune q p t = some (q1, r)) : q.count ≤ q1.count := by
  unfold enqueue_retune at h
  split at h
  · simp only [Option.some.injEq, Prod.mk.injEq] at h
    obtain ⟨rfl, _⟩ := h
    exact Nat.le_refl _
  · rename_i hlt
    split at h
    · simp at h
    · rename_i q2 hq2
      simp only [Option.some.injEq, Prod.mk.injEq] at h
      obtain ⟨rfl, _⟩ := h
      have hc : q2.count = q.count := by
        unfold queue.store at hq2
        split at hq2
        · simp only [Option.some.injEq] at hq2
          subst hq2
          rfl
        · simp at hq2
      simp only [RETUNE2_QUEUE_MAX] at hlt
      simp only [hc]
      omega

theorem cursor_kept_refl (s : globals) : cursor_kept s s :=
  fun _ => ⟨rfl, rfl, Nat.le_refl _⟩

theorem cursor_kept_trans (s s1 s2 : globals) (h1 : cursor_kept s s1) (h2 : cursor_kept s1 s2) :
    cursor_kept s s2 := by
  intro ch
  obtain ⟨a1, b1, c1⟩ := h1 ch
  obtain ⟨a2, b2, c2⟩ := h2 ch
  exact ⟨a2.trans a1, b2.trans b1, Nat.le_trans c1 c2⟩

theorem cursor_kept_bound (s s1 : globals) (ch : channel) (h : cursor_kept s s1)
    (hc : cursor_bound s ch) : cursor_bound s1 ch := by
  intro hrun
  obtain ⟨a, b, c⟩ := h ch
  rw [a] at hrun
  rw [b]
  exact Nat.le_trans (hc hrun) c

theorem pkt_retune2_trigger_cursor (P : platform) (s s1 : globals) (req : request)
    (profile : Option profile_ref) (status : Int)
    (h : pkt_retune2_trigger P s req profile = some (s1, status)) : cursor_kept s s1 := by
  unfold pkt_retune2_trigger at h
  simp only at h
  split at h
  · split at h
    · simp at h
    · rename_i q r henq
      split at h
      · simp at h
      · simp only [Option.some.injEq, Prod.mk.injEq] at h
        obtain ⟨rfl, _⟩ := h
        have hle := enqueue_retune_count_le _ _ _ _ _ henq
        intro ch
        cases ch
        · refine ⟨?_, ?_, hle⟩ <;> (simp only [globals.trigger_info]; split <;> rfl)
        · exact ⟨rfl, rfl, Nat.le_refl _⟩
  · split at h
    · simp at h
    · rename_i q r henq
      split at h
      · simp at h
      · simp only [Option.some.injEq, Prod.mk.injEq] at h
        obtain ⟨rfl, _⟩ := h
        have hle := enqueue_retune_count_le _ _ _ _ _ henq
        intro ch
        cases ch
        · exact ⟨rfl, rfl, Nat.le_refl _⟩
        · refine ⟨?_, ?_, hle⟩ <;> (simp only [globals.trigger_info]; split <;> rfl)
  · simp only [Option.some.injEq, Prod.mk.injEq] at h
    obtain ⟨rfl, _⟩ := h
    intro ch
    cases ch <;> exact ⟨rfl, rfl, Nat.le_refl _⟩

theorem pkt_retune2_plain_cursor (s s1 : globals) (req : request)
    (profile : Option profile_ref) (status : Int)
    (h : pkt_retune2_plain s req profile = some (s1, status)) : cursor_kept s s1 := by
  unfold pkt_retune2_plain at h
  split at h
  · split at h
    · simp at h
    · split at h
      · simp at h
      · simp only [Option.some.injEq, Prod.mk.injEq] at h
        obtain ⟨rfl, _⟩ := h
        intro ch
        cases ch <;> exact ⟨rfl, rfl, Nat.le_refl _⟩
  · split at h
    · simp at h
    · split at h
      · simp at h
      · simp only [Option.some.injEq, Prod.mk.injEq] at h
        obtain ⟨rfl, _⟩ := h
        intro ch
        cases ch <;> exact ⟨rfl, rfl, Nat.le_refl _⟩
  · simp only [Option.some.injEq, Prod.mk.injEq] at h
    obtain ⟨rfl, _⟩ := h
    intro ch
    cases ch <;> exact ⟨rfl, rfl, Nat.le_refl _⟩

theorem pkt_retune2_cursor (P : platform) (s s1 : globals) (req : request)
    (start_time end_time : Nat) (resp : response)
    (h : pkt_retune2 P s req start_time end_time = some (s1, resp))
    (hn : req.timestamp ≠ P.NIOS_PKT_RETUNE2_CLEAR_QUEUE) : cursor_kept s s1 := by
  unfold pkt_retune2 at h
  simp only at h
  split at h
  · simp at h
  · rename_i s2 profile hloc
    have hs2 : cursor_kept s s2 := by
      split at hloc
      · simp only [Option.map_eq_some'] at hloc
        obtain ⟨t, _, heq⟩ := hloc
        simp only [Prod.mk.injEq] at heq
        obtain ⟨rfl, _⟩ := heq
        intro ch
        cases ch <;> exact ⟨rfl, rfl, Nat.le_refl _⟩
      · simp only [Option.map_eq_some'] at hloc
        obtain ⟨t, _, heq⟩ := hloc
        simp only [Prod.mk.injEq] at heq
        obtain ⟨rfl, _⟩ := heq
        intro ch
        cases ch <;> exact ⟨rfl, rfl, Nat.le_refl _⟩
      · simp only [Option.some.injEq, Prod.mk.injEq] at hloc
        obtain ⟨rfl, _⟩ := hloc
        intro ch
        cases ch <;> exact ⟨rfl, rfl, Nat.le_refl _⟩
    split at h
    · simp at h
    · rename_i s3 status flags hbr
      simp only [Option.some.injEq, Prod.mk.injEq] at h
      obtain ⟨rfl, _⟩ := h
      refine cursor_kept_trans _ _ _ hs2 ?_
      split at hbr
      · split at hbr <;>
          (simp only [Option.some.injEq, Prod.mk.injEq] at hbr
           obtain ⟨rfl, _⟩ := hbr
           intro ch
           cases ch <;> exact ⟨rfl, rfl, Nat.le_refl _⟩)
      · split at hbr
        · simp only [Option.map_eq_some'] at hbr
          obtain ⟨⟨s4, st⟩, hb, heq⟩ := hbr
          simp only [Prod.mk.injEq] at heq
          obtain ⟨rfl, _⟩ := heq
          exact pkt_retune2_trigger_cursor P _ _ _ _ _ hb
        · simp only [Option.map_eq_some'] at hbr
          obtain ⟨⟨s4, st⟩, hb, heq⟩ := hbr
          simp only [Prod.mk.injEq] at heq
          obtain ⟨rfl, _⟩ := heq
          exact pkt_retune2_plain_cursor _ _ _ _ _ hb

theorem retune_rx_cursor (s s1 : globals) (h : retune_rx s = some s1) : cursor_kept s s1 := by
  unfold retune_rx at h
  split at h
  · simp only [Option.map_eq_some'] at h
    obtain ⟨⟨q, n⟩, hq, rfl⟩ := h
    intro ch
    cases ch <;> exact ⟨rfl, rfl, Nat.le_refl _⟩
  · simp only [Option.map_eq_some'] at h
    obtain ⟨⟨q, n⟩, hq, rfl⟩ := h
    have hf := (retune_isr_fields _ _ _ _ _ hq).1
    intro ch
    cases ch
    · exact ⟨rfl, rfl, Nat.le_of_eq hf.symm⟩
    · exact ⟨rfl, rfl, Nat.le_refl _⟩

theorem retune_tx_cursor (s s1 : globals) (h : retune_tx s = some s1) : cursor_kept s s1 := by
  unfold retune_tx at h
  split at h
  · simp only [Option.map_eq_some'] at h
    obtain ⟨⟨q, n⟩, hq, rfl⟩ := h
    intro ch
    cases ch <;> exact ⟨rfl, rfl, Nat.le_refl _⟩
  · simp only [Option.map_eq_some'] at h
    obtain ⟨⟨q, n⟩, hq, rfl⟩ := h
    have hf := (retune_isr_fields _ _ _ _ _ hq).1
    intro ch
    cases ch
    · exact ⟨rfl, rfl, Nat.le_refl _⟩
    · exact ⟨rfl, rfl, Nat.le_of_eq hf.symm⟩

theorem perform_work_rx_cursor (P : platform) (s s1 : globals) (trigger_ctl now : Nat)
    (ch : channel)
    (h : perform_work_rx P s trigger_ctl now = some s1) (hs : all_ok s)
    (hc : cursor_bound s ch) : cursor_bound s1 ch := by
  unfold perform_work_rx at h
  simp only [Option.map_eq_some'] at h
  obtain ⟨w, hw, rfl⟩ := h
  cases ch
  · exact perform_work_cursor P _ _ _ _ _ hw hs.2.2.1 hc
  · exact hc

theorem perform_work_tx_cursor (P : platform) (s s1 : globals) (trigger_ctl now : Nat)
    (ch : channel)
    (h : perform_work_tx P s trigger_ctl now = some s1) (hs : all_ok s)
    (hc : cursor_bound s ch) : cursor_bound s1 ch := by
  unfold perform_work_tx at h
  simp only [Option.map_eq_some'] at h
  obtain ⟨w, hw, rfl⟩ := h
  cases ch
  · exact hc
  · exact perform_work_cursor P _ _ _ _ _ hw hs.2.2.2 hc

theorem pkt_retune2_located (s s2 : globals) (req : request) (profile : Option profile_ref)
    (h : (match req.module with
          | BLADERF_MODULE_RX =>
            (update_profile s.fastlocks_rx req).map (fun t =>
              ({ s with fastlocks_rx := t }, some (profile_ref.rx req.nios_profile)))
          | BLADERF_MODULE_TX =>
            (update_profile s.fastlocks_tx req).map (fun t =>
              ({ s with fastlocks_tx := t }, some (profile_ref.tx req.nios_profile)))
          | BLADERF_MODULE_OTHER =>
            some ({ s with pkt_retune2_error_count :=
                      (s.pkt_retune2_error_count + 1) % 2 ^ 32 }, none))
          = some (s2, profile)) :
    ∀ ch, s2.trigger_info ch = s.trigger_info ch ∧ s2.trigger_queue ch = s.trigger_queue ch := by
  split at h
  · simp only [Option.map_eq_some'] at h
    obtain ⟨t, _, heq⟩ := h
    simp only [Prod.mk.injEq] at heq
    obtain ⟨rfl, _⟩ := heq
    intro ch
    cases ch <;> exact ⟨rfl, rfl⟩
  · simp only [Option.map_eq_some'] at h
    obtain ⟨t, _, heq⟩ := h
    simp only [Prod.mk.injEq] at heq
    obtain ⟨rfl, _⟩ := heq
    intro ch
    cases ch <;> exact ⟨rfl, rfl⟩
  · simp only [Option.some.injEq, Prod.mk.injEq] at h
    obtain ⟨rfl, _⟩ := h
    intro ch
    cases ch <;> exact ⟨rfl, rfl⟩

theorem pkt_retune2_now_cursor (P : platform) (s s1 : globals) (req : request)
    (start_time end_time : Nat) (resp : response)
    (h : pkt_retune2 P s req start_time end_time = some (s1, resp))
    (hnow : req.timestamp = P.NIOS_PKT_RETUNE2_NOW) : cursor_kept s s1 := by
  unfold pkt_retune2 at h
  simp only at h
  split at h
  · simp at h
  · rename_i s2 profile hloc
    have hs2 := pkt_retune2_located s s2 req profile hloc
    split at h
    · simp at h
    · rename_i s3 status flags hbr
      rw [if_pos hnow] at hbr
      have key : ∀ ch, s3.trigger_info ch = s2.trigger_info ch ∧
          s3.trigger_queue ch = s2.trigger_queue ch := by
        split at hbr <;>
          (simp only [Option.some.injEq, Prod.mk.injEq] at hbr
           obtain ⟨rfl, _⟩ := hbr
           intro ch
           cases ch <;> exact ⟨rfl, rfl⟩)
      simp only [Option.some.injEq, Prod.mk.injEq] at h
      obtain ⟨rfl, _⟩ := h
      intro ch
      obtain ⟨a, b⟩ := key ch
      obtain ⟨c, d⟩ := hs2 ch
      rw [a, b, c, d]
      exact ⟨rfl, rfl, Nat.le_refl _⟩

theorem pkt_retune2_clear_trigger (P : platform) (s s1 : globals) (req : request)
    (start_time end_time : Nat) (resp : response)
    (h : pkt_retune2 P s req start_time end_time = some (s1, resp))
    (hnow : req.timestamp ≠ P.NIOS_PKT_RETUNE2_NOW)
    (hclr : req.timestamp = P.NIOS_PKT_RETUNE2_CLEAR_QUEUE) :
    ∀ ch, s1.trigger_info ch = s.trigger_info ch ∧
      (req.module = ch.module → (s1.trigger_queue ch).count = 0) ∧
      (req.module ≠ ch.module → s1.trigger_queue ch = s.trigger_queue ch) := by
  unfold pkt_retune2 at h
  simp only at h
  split at h
  · simp at h
  · rename_i s2 profile hloc
    have hs2 := pkt_retune2_located s s2 req profile hloc
    split at h
    · simp at h
    · rename_i s3 status flags hbr
      rw [if_neg hnow, if_pos hclr] at hbr
      have key : ∀ ch, s3.trigger_info ch = s2.trigger_info ch ∧
          (req.module = ch.module → (s3.trigger_queue ch).count = 0) ∧
          (req.module ≠ ch.module → s3.trigger_queue ch = s2.trigger_queue ch) := by
        split at hbr
        · rename_i hm
          simp only [Option.some.injEq, Prod.mk.injEq] at hbr
          obtain ⟨rfl, _⟩ := hbr
          intro ch
          cases ch
          · exact ⟨rfl, fun _ => rfl, fun hne => absurd hm hne⟩
          · refine ⟨rfl, ?_, fun _ => rfl⟩
            intro he
            rw [hm] at he
            cases he
        · rename_i hm
          simp only [Option.some.injEq, Prod.mk.injEq] at hbr
          obtain ⟨rfl, _⟩ := hbr
          intro ch
          cases ch
          · refine ⟨rfl, ?_, fun _ => rfl⟩
            intro he
            rw [hm] at he
            cases he
          · exact ⟨rfl, fun _ => rfl, fun hne => absurd hm hne⟩
        · rename_i hm
          simp only [Option.some.injEq, Prod.mk.injEq] at hbr
          obtain ⟨rfl, _⟩ := hbr
          intro ch
          refine ⟨by cases ch <;> rfl, ?_, fun _ => by cases ch <;> rfl⟩
          intro he
          rw [hm] at he
          cases ch <;> cases he
      simp only [Option.some.injEq, Prod.mk.injEq] at h
      obtain ⟨rfl, _⟩ := h
      intro ch
      obtain ⟨a, b, c⟩ := key ch
      obtain ⟨d, e⟩ := hs2 ch
      exact ⟨a.trans d, b, fun hne => (c hne).trans e⟩

theorem event_run_ok (P : platform) (s s1 : globals) (e : event)
    (h : e.run P s = some s1) (hs : all_ok s) : all_ok s1 := by
  cases e with
  | work_rx ctl now => exact perform_work_rx_ok P _ _ _ _ h hs
  | work_tx ctl now => exact perform_work_tx_ok P _ _ _ _ h hs
  | isr_rx => exact retune_rx_ok _ _ h hs
  | isr_tx => exact retune_tx_ok _ _ h hs
  | pkt req st en =>
    simp only [event.run, Option.map_eq_some'] at h
    obtain ⟨⟨s2, resp⟩, hp, rfl⟩ := h
    exact pkt_retune2_ok P _ _ _ _ _ _ hp hs

theorem run_events_ok (P : platform) (events : List event) :
    ∀ s s1 : globals, run_events P s events = some s1 → all_ok s → all_ok s1 := by
  induction events with
  | nil =>
    intro s s1 h hs
    simp only [run_events, Option.some.injEq] at h
    subst h
    exact hs
  | cons e es ih =>
    intro s s1 h hs
    simp only [run_events] at h
    split at h
    · simp at h
    · rename_i s2 he
      exact ih s2 s1 h (event_run_ok P _ _ _ he hs)

theorem event_run_cursor (P : platform) (s s1 : globals) (e : event) (ch : channel)
    (h : e.run P s = some s1) (hn : ¬ clear_hits_cursor P ch s e) (hs : all_ok s)
    (hc : cursor_bound s ch) : cursor_bound s1 ch := by
  cases e with
  | work_rx ctl now => exact perform_work_rx_cursor P _ _ _ _ ch h hs hc
  | work_tx ctl now => exact perform_work_tx_cursor P _ _ _ _ ch h hs hc
  | isr_rx => exact cursor_kept_bound _ _ ch (retune_rx_cursor _ _ h) hc
  | isr_tx => exact cursor_kept_bound _ _ ch (retune_tx_cursor _ _ h) hc
  | pkt req st en =>
    simp only [event.run, Option.map_eq_some'] at h
    obtain ⟨⟨s2, resp⟩, hp, rfl⟩ := h
    by_cases hclr : req.timestamp = P.NIOS_PKT_RETUNE2_CLEAR_QUEUE
    · by_cases hnow : req.timestamp = P.NIOS_PKT_RETUNE2_NOW
      · exact cursor_kept_bound _ _ ch (pkt_retune2_now_cursor P _ _ _ _ _ _ hp hnow) hc
      · obtain ⟨hti, hsame, hother⟩ := pkt_retune2_clear_trigger P _ _ _ _ _ _ hp hnow hclr ch
        intro hrun
        simp only at hrun ⊢
        rw [hti] at hrun ⊢
        by_cases hm : req.module = ch.module
        · have h0 : (s.trigger_info ch).idx = 0 := by
            by_contra hne
            exact hn ⟨hnow, hclr, hm, hrun, hne⟩
          rw [h0]
          exact Nat.zero_le _
        · rw [hother hm]
          exact hc hrun
    · exact cursor_kept_bound _ _ ch (pkt_retune2_cursor P _ _ _ _ _ _ hp hclr) hc

theorem event_run_clear_hit (P : platform) (s s1 : globals) (e : event) (ch : channel)
    (h : e.run P s = some s1) (hhit : clear_hits_cursor P ch s e) :
    (s1.trigger_info ch).state = TRIGGER_RUN ∧
    (s1.trigger_queue ch).count < (s1.trigger_info ch).idx := by
  cases e with
  | work_rx ctl now => exact absurd hhit (by simp [clear_hits_cursor])
  | work_tx ctl now => exact absurd hhit (by simp [clear_hits_cursor])
  | isr_rx => exact absurd hhit (by simp [clear_hits_cursor])
  | isr_tx => exact absurd hhit (by simp [clear_hits_cursor])
  | pkt req st en =>
    simp only [event.run, Option.map_eq_some'] at h
    obtain ⟨⟨s2, resp⟩, hp, rfl⟩ := h
    obtain ⟨hnow, hclr, hm, hrun, hidx⟩ := hhit
    obtain ⟨hti, hsame, _⟩ := pkt_retune2_clear_trigger P _ _ _ _ _ _ hp hnow hclr ch
    simp only
    rw [hti, hsame hm]
    exact ⟨hrun, Nat.pos_of_ne_zero hidx⟩

theorem run_events_cursor (P : platform) (ch : channel) (events : List event) :
    ∀ s s1 : globals, run_events P s events = some s1 →
      clears_safe P ch s events → all_ok s → cursor_bound s ch → cursor_bound s1 ch := by
  induction events with
  | nil =>
    intro s s1 h _ _ hc
    simp only [run_events, Option.some.injEq] at h
    subst h
    exact hc
  | cons e es ih =>
    intro s s1 h hsafe hs hc
    simp only [run_events] at h
    simp only [clears_safe] at hsafe
    obtain ⟨hn, hrest⟩ := hsafe
    split at h
    · simp at h
    · rename_i s2 he
      rw [he] at hrest
      exact ih s2 s1 h hrest (event_run_ok P _ _ _ he hs) (event_run_cursor P _ _ _ ch he hn hs hc)

theorem initial_cursor (s : globals) (ch : channel) (h : initial s) : cursor_bound s ch := by
  obtain ⟨_, hrx, htx, _⟩ := h
  intro hrun
  cases ch
  · simp only [globals.trigger_info, hrx, initial_trigger_info] at hrun
    cases hrun
  · simp only [globals.trigger_info, htx, initial_trigger_info] at hrun
    cases hrun

/-- C12, the part that fails: the state reached from the start state by a
trigger-tagged request, two ticks with the line fired, the timer interrupt and
the tick that activates the profile has RX in Run with the cursor equal to the
count of the trigger queue (1 and 1), so the cursor is not below the count. A
CLEAR_QUEUE request after that empties the trigger queue and leaves the trigger
record alone: RX is in Run with cursor 1 and count 0. -/
theorem run_cursor_not_below_count :
    initial zero_globals ∧
    ∃ s s1,
      run_events sample_platform zero_globals (one_entry_cycle rx_trigger_request) = some s ∧
      s.rx_trigger_info.state = TRIGGER_RUN ∧
      s.rx_trigger_info.idx = 1 ∧ s.rx_trigger_queue.count = 1 ∧
      ¬ s.rx_trigger_info.idx < s.rx_trigger_queue.count ∧
      run_events sample_platform zero_globals
        (one_entry_cycle rx_trigger_request ++ [event.pkt rx_clear_request 0 0]) = some s1 ∧
      s1.rx_trigger_info.state = TRIGGER_RUN ∧
      s1.rx_trigger_info.idx = 1 ∧ s1.rx_trigger_queue.count = 0 ∧
      ¬ s1.rx_trigger_info.idx ≤ s1.rx_trigger_queue.count :=
  ⟨initial_zero_globals,
   _, _, rfl, rfl, rfl, rfl, by decide, rfl, rfl, rfl, rfl, by decide⟩

/-- C12 as the code has it, for a state `s` reached from an initial state by
any sequence of `perform_work` calls, timer interrupts and `pkt_retune2`
requests, and a channel `ch`. If no request of the run took the CLEAR_QUEUE
branch for `ch` while `ch` was in Run with a non-zero cursor, then in `s` the
cursor of `ch` is at most the count of its trigger queue whenever the trigger
state is Run; CLEAR_QUEUE requests at any other moment, or for the other
channel, are allowed. From `s` on, whatever the run was, every event other than
such a request keeps that bound, and such a request breaks it: it leaves `ch`
in Run with the cursor above the count. -/
theorem run_cursor_bound (P : platform) (s0 s : globals) (events : List event)
    (ch : channel) (h0 : initial s0) (hrun : run_events P s0 events = some s) :
    (clears_safe P ch s0 events →
      (s.trigger_info ch).state = TRIGGER_RUN →
      (s.trigger_info ch).idx ≤ (s.trigger_queue ch).count) ∧
    (∀ e s1, e.run P s = some s1 → ¬ clear_hits_cursor P ch s e →
      ((s.trigger_info ch).state = TRIGGER_RUN →
        (s.trigger_info ch).idx ≤ (s.trigger_queue ch).count) →
      (s1.trigger_info ch).state = TRIGGER_RUN →
      (s1.trigger_info ch).idx ≤ (s1.trigger_queue ch).count) ∧
    (∀ e s1, e.run P s = some s1 → clear_hits_cursor P ch s e →
      (s1.trigger_info ch).state = TRIGGER_RUN ∧
      (s1.trigger_queue ch).count < (s1.trigger_info ch).idx) :=
  ⟨fun hsafe =>
     run_events_cursor P ch events s0 s hrun hsafe (initial_ok s0 h0) (initial_cursor s0 ch h0),
   fun e s1 he hn hc =>
     event_run_cursor P s s1 e ch he hn (run_events_ok P events s0 s hrun (initial_ok s0 h0)) hc,
   fun e s1 he hhit => event_run_clear_hit P s s1 e ch he hhit⟩

theorem clears_safe_run_with_clear :
    clears_safe sample_platform channel.rx zero_globals run_with_clear := by
  decide

/-- Witness of C12: a run with a CLEAR_QUEUE request for RX that arrives while
RX is in Run with cursor 0 (after the request and the two ticks that arm the
first entry). The request empties the trigger queue; RX stays in Run with
cursor 0 and count 0. -/
theorem run_cursor_bound_witness :
    initial zero_globals ∧
    clears_safe sample_platform channel.rx zero_globals run_with_clear ∧
    (∃ s, run_events sample_platform zero_globals run_with_clear = some s ∧
      (s.trigger_info channel.rx).state = TRIGGER_RUN ∧
      (s.trigger_queue channel.rx).count = 0 ∧
      (s.trigger_info channel.rx).idx ≤ (s.trigger_queue channel.rx).count) :=
  ⟨initial_zero_globals, clears_safe_run_with_clear,
   _, rfl, rfl, rfl,
   (run_cursor_bound sample_platform zero_globals _ run_with_clear
     channel.rx initial_zero_globals rfl).1 clears_safe_run_with_clear rfl⟩

/-! ## Live entries of the schedule queues (C21) -/

theorem enqueue_retune_live (q q1 : queue) (p : Option profile_ref) (t r : Nat)
    (h : enqueue_retune q p t = some (q1, r)) (hq : queue_ok q) (hl : schedule_live q) :
    schedule_live q1 := by
  obtain ⟨h16, hins, hrem, hring⟩ := hq
  by_cases hc : q.count < 16
  · rw [enqueue_retune_room q p t hc hins] at h
    simp only [Option.some.injEq, Prod.mk.injEq] at h
    obtain ⟨rfl, _⟩ := h
    intro i hi
    rw [visited_update]
    have hi1 : i < q.count + 1 := hi
    by_cases hic : i = q.count
    · have : (q.rem_idx + i) % 16 = q.ins_idx := by rw [hic, hring]
      rw [if_pos this]
      exact ⟨Or.inl rfl, fun _ => rfl⟩
    · have hlt : i < q.count := by omega
      have : (q.rem_idx + i) % 16 ≠ q.ins_idx := by rw [hring]; omega
      rw [if_neg this]
      exact hl i hlt
  · rw [enqueue_retune_full q p t (by omega)] at h
    simp only [Option.some.injEq, Prod.mk.injEq] at h
    obtain ⟨rfl, _⟩ := h
    exact hl

theorem dequeue_retune_live (q q1 : queue) (r : Nat)
    (h : dequeue_retune q none = some (q1, r)) (hq : queue_ok q) (hl : schedule_live q) :
    schedule_live q1 := by
  obtain ⟨h16, hins, hrem, hring⟩ := hq
  by_cases hc : q.count = 0
  · rw [dequeue_retune_empty q none hc] at h
    simp only [Option.some.injEq, Prod.mk.injEq] at h
    obtain ⟨rfl, _⟩ := h
    exact hl
  · rw [dequeue_retune_some q hc hrem] at h
    simp only [Option.some.injEq, Prod.mk.injEq] at h
    obtain ⟨rfl, _⟩ := h
    intro i hi
    rw [visited_update]
    have hi1 : i < q.count - 1 := hi
    have hne : ((q.rem_idx + 1) % 16 + i) % 16 ≠ q.rem_idx := by omega
    rw [if_neg hne]
    have hnew := (hl (i + 1) (by omega)).2 (by omega)
    rw [visited_eq] at hnew
    have heq : q.entries ⟨((q.rem_idx + 1) % 16 + i) % 16, Nat.mod_lt _ (by decide)⟩
        = q.entries ⟨(q.rem_idx + (i + 1)) % 16, Nat.mod_lt _ (by decide)⟩ :=
      entries_congr q _ _ _ _ (by omega)
    rw [heq]
    exact ⟨Or.inl hnew, fun _ => hnew⟩

theorem store_state_head_live (q q1 : queue) (k : Nat) (st : entry_state)
    (h : q.store_state k st = some q1) (hk : k = q.rem_idx) (hq : queue_ok q)
    (hst : st = ENTRY_STATE_NEW ∨ st = ENTRY_STATE_SCHEDULED ∨ st = ENTRY_STATE_READY)
    (hl : schedule_live q) : schedule_live q1 := by
  obtain ⟨h16, hins, hrem, hring⟩ := hq
  subst hk
  rw [store_state_eq_some q q.rem_idx st hrem] at h
  simp only [Option.some.injEq] at h
  subst h
  intro i hi
  rw [visited_update]
  have hi1 : i < q.count := hi
  by_cases hi0 : i = 0
  · have : (q.rem_idx + i) % 16 = q.rem_idx := by rw [hi0]; omega
    rw [if_pos this]
    exact ⟨hst, fun hne => absurd hi0 hne⟩
  · have : (q.rem_idx + i) % 16 ≠ q.rem_idx := by omega
    rw [if_neg this]
    exact hl i hi1

theorem retune_isr_live (q q1 : queue) (n n1 : Nat)
    (h : retune_isr q 0 n = some (q1, n1)) (hq : queue_ok q) (hl : schedule_live q) :
    schedule_live q1 := by
  have hrem : q.rem_idx < 16 := hq.2.2.1
  unfold retune_isr at h
  split at h
  · simp only [Option.some.injEq, Prod.mk.injEq] at h
    obtain ⟨rfl, _⟩ := h
    exact hl
  · rename_i k hpeek
    have hk : k = q.rem_idx := by
      unfold peek_next_retune_offset at hpeek
      split at hpeek
      · simp at hpeek
      · simp only [Option.some.injEq, and_mask_eq_mod] at hpeek
        omega
    split at h
    · simp at h
    · split at h
      · simp only [Option.map_eq_some'] at h
        obtain ⟨q2, hq2, heq⟩ := h
        simp only [Prod.mk.injEq] at heq
        obtain ⟨rfl, _⟩ := heq
        exact store_state_head_live q q2 k _ hq2 hk hq (Or.inr (Or.inr rfl)) hl
      · simp only [Option.some.injEq, Prod.mk.injEq] at h
        obtain ⟨rfl, _⟩ := h
        exact hl

theorem perform_work_trigger_schedule (w w1 : work_state) (trigger_ctl now k : Nat)
    (h : perform_work_trigger w trigger_ctl now = some (w1, some (queue_sel.schedule, k))) :
    k = w.schedule_queue.rem_idx ∧ w.schedule_queue.count ≠ 0 ∧
    (w1.trigger_info.state = TRIGGER_IDLE ∨ w1.trigger_info.state = TRIGGER_DONE) := by
  unfold perform_work_trigger at h
  simp only at h
  split at h
  · split at h
    · simp at h
    · simp [peek_next_retune] at h
  · split at h
    · split at h
      · split at h
        · simp at h
        · simp only [Option.map_eq_some'] at h
          obtain ⟨q2, _, heq⟩ := h
          simp at heq
      · simp at h
    · simp [peek_next_retune_offset] at h
  · rename_i hidle
    split at h
    · simp at h
    · simp only [Option.some.injEq, Prod.mk.injEq, Option.map_eq_some', peek_next_retune] at h
      obtain ⟨rfl, a, ha, _, rfl⟩ := h
      split at ha
      · simp at ha
      · rename_i h0
        simp only [Option.some.injEq] at ha
        exact ⟨ha.symm, h0, Or.inl hidle⟩
  · rename_i hdone
    simp only [Option.some.injEq, Prod.mk.injEq, Option.map_eq_some', peek_next_retune] at h
    obtain ⟨rfl, a, ha, _, rfl⟩ := h
    split at ha
    · simp at ha
    · rename_i h0
      simp only [Option.some.injEq] at ha
      refine ⟨ha.symm, h0, ?_⟩
      by_cases hr : trigger_ctl &&& BLADERF_TRIGGER_REG_LINE = BLADERF_TRIGGER_REG_LINE
      · simp [hr]
      · simp [hr, hdone]

theorem perform_work_entry_live (P : platform) (w w1 : work_state) (module : bladerf_module)
    (sel : queue_sel) (k : Nat)
    (h : perform_work_entry P w module sel k = some w1)
    (hsel : sel = queue_sel.schedule → k = w.schedule_queue.rem_idx)
    (hs : queue_ok w.schedule_queue) (hl : schedule_live w.schedule_queue) :
    schedule_live w1.schedule_queue := by
  unfold perform_work_entry at h
  split at h
  · simp at h
  · simp only at h
    split at h
    · split at h
      · simp at h
      · rename_i q hq
        simp only [Option.some.injEq] at h
        subst h
        cases sel
        · exact store_state_head_live _ _ _ _ hq (hsel rfl) hs (Or.inr (Or.inl rfl)) hl
        · exact hl
    · simp only [Option.some.injEq] at h
      subst h
      exact hl
    · split at h
      · simp only [Option.map_eq_some'] at h
        obtain ⟨⟨q2, r⟩, hq2, rfl⟩ := h
        exact dequeue_retune_live _ _ _ hq2 hs hl
      · simp only [Option.map_eq_some'] at h
        obtain ⟨q2, hq2, rfl⟩ := h
        cases sel
        · exact store_state_head_live _ _ _ _ hq2 (hsel rfl) hs (Or.inl rfl) hl
        · exact hl
    · simp only [Option.some.injEq] at h
      subst h
      exact hl

theorem perform_work_live (P : platform) (w w1 : work_state) (module : bladerf_module)
    (trigger_ctl now : Nat)
    (h : perform_work P w module trigger_ctl now = some w1)
    (hs : queue_ok w.schedule_queue) (hl : schedule_live w.schedule_queue) :
    schedule_live w1.schedule_queue := by
  unfold perform_work at h
  split at h
  · simp only [Option.some.injEq] at h
    subst h
    exact hl
  · split at h
    · simp at h
    · rename_i w2 htr
      simp only [Option.some.injEq] at h
      subst h
      rw [(perform_work_trigger_frame _ _ _ _ _ htr).1]
      exact hl
    · rename_i w2 sel k htr
      have hfr := (perform_work_trigger_frame _ _ _ _ _ htr).1
      refine perform_work_entry_live P w2 w1 module sel k h ?_ (by rw [hfr]; exact hs)
        (by rw [hfr]; exact hl)
      intro hsch
      subst hsch
      rw [hfr]
      exact (perform_work_trigger_schedule _ _ _ _ _ htr).1


theorem all_live_of_eq (s s1 : globals) (hrx : s1.rx_queue = s.rx_queue)
    (htx : s1.tx_queue = s.tx_queue) (hl : all_live s) : all_live s1 := by
  intro ch
  cases ch
  · simp only [globals.schedule_queue, hrx]
    exact hl channel.rx
  · simp only [globals.schedule_queue, htx]
    exact hl channel.tx

theorem perform_work_rx_live (P : platform) (s s1 : globals) (trigger_ctl now : Nat)
    (h : perform_work_rx P s trigger_ctl now = some s1) (hs : all_ok s) (hl : all_live s) :
    all_live s1 := by
  unfold perform_work_rx at h
  simp only [Option.map_eq_some'] at h
  obtain ⟨w, hw, rfl⟩ := h
  have key := perform_work_live P _ _ _ _ _ hw hs.1 (hl channel.rx)
  intro ch
  cases ch
  · exact key
  · exact hl channel.tx

theorem perform_work_tx_live (P : platform) (s s1 : globals) (trigger_ctl now : Nat)
    (h : perform_work_tx P s trigger_ctl now = some s1) (hs : all_ok s) (hl : all_live s) :
    all_live s1 := by
  unfold perform_work_tx at h
  simp only [Option.map_eq_some'] at h
  obtain ⟨w, hw, rfl⟩ := h
  have key := perform_work_live P _ _ _ _ _ hw hs.2.1 (hl channel.tx)
  intro ch
  cases ch
  · exact hl channel.rx
  · exact key

theorem retune_rx_live (s s1 : globals) (h : retune_rx s = some s1) (hs : all_ok s)
    (hl : all_live s) : all_live s1 := by
  unfold retune_rx at h
  split at h
  · simp only [Option.map_eq_some'] at h
    obtain ⟨⟨q, n⟩, hq, rfl⟩ := h
    have key := retune_isr_live _ _ _ _ hq hs.1 (hl channel.rx)
    intro ch
    cases ch
    · exact key
    · exact hl channel.tx
  · simp only [Option.map_eq_some'] at h
    obtain ⟨⟨q, n⟩, hq, rfl⟩ := h
    exact all_live_of_eq s _ rfl rfl hl

theorem retune_tx_live (s s1 : globals) (h : retune_tx s = some s1) (hs : all_ok s)
    (hl : all_live s) : all_live s1 := by
  unfold retune_tx at h
  split at h
  · simp only [Option.map_eq_some'] at h
    obtain ⟨⟨q, n⟩, hq, rfl⟩ := h
    have key := retune_isr_live _ _ _ _ hq hs.2.1 (hl channel.tx)
    intro ch
    cases ch
    · exact hl channel.rx
    · exact key
  · simp only [Option.map_eq_some'] at h
    obtain ⟨⟨q, n⟩, hq, rfl⟩ := h
    exact all_live_of_eq s _ rfl rfl hl

theorem schedule_live_reset (q : queue) : schedule_live (reset_queue q) := by
  intro i hi
  exact absurd hi (Nat.not_lt_zero i)

theorem pkt_retune2_trigger_live (P : platform) (s s1 : globals) (req : request)
    (profile : Option profile_ref) (status : Int)
    (h : pkt_retune2_trigger P s req profile = some (s1, status)) (hl : all_live s) :
    all_live s1 := by
  unfold pkt_retune2_trigger at h
  simp only at h
  split at h
  · split at h
    · simp at h
    · split at h
      · simp at h
      · simp only [Option.some.injEq, Prod.mk.injEq] at h
        obtain ⟨rfl, _⟩ := h
        exact all_live_of_eq s _ rfl rfl hl
  · split at h
    · simp at h
    · split at h
      · simp at h
      · simp only [Option.some.injEq, Prod.mk.injEq] at h
        obtain ⟨rfl, _⟩ := h
        exact all_live_of_eq s _ rfl rfl hl
  · simp only [Option.some.injEq, Prod.mk.injEq] at h
    obtain ⟨rfl, _⟩ := h
    exact all_live_of_eq s _ rfl rfl hl

theorem pkt_retune2_plain_live (s s1 : globals) (req : request)
    (profile : Option profile_ref) (status : Int)
    (h : pkt_retune2_plain s req profile = some (s1, status)) (hs : all_ok s)
    (hl : all_live s) : all_live s1 := by
  unfold pkt_retune2_plain at h
  split at h
  · split at h
    · simp at h
    · rename_i q r henq
      split at h
      · simp at h
      · simp only [Option.some.injEq, Prod.mk.injEq] at h
        obtain ⟨rfl, _⟩ := h
        have key := enqueue_retune_live _ _ _ _ _ henq hs.1 (hl channel.rx)
        intro ch
        cases ch
        · exact key
        · exact hl channel.tx
  · split at h
    · simp at h
    · rename_i q r henq
      split at h
      · simp at h
      · simp only [Option.some.injEq, Prod.mk.injEq] at h
        obtain ⟨rfl, _⟩ := h
        have key := enqueue_retune_live _ _ _ _ _ henq hs.2.1 (hl channel.tx)
        intro ch
        cases ch
        · exact hl channel.rx
        · exact key
  · simp only [Option.some.injEq, Prod.mk.injEq] at h
    obtain ⟨rfl, _⟩ := h
    exact all_live_of_eq s _ rfl rfl hl

theorem pkt_retune2_live (P : platform) (s s1 : globals) (req : request)
    (start_time end_time : Nat) (resp : response)
    (h : pkt_retune2 P s req start_time end_time = some (s1, resp)) (hs : all_ok s)
    (hl : all_live s) : all_live s1 := by
  unfold pkt_retune2 at h
  simp only at h
  split at h
  · simp at h
  · rename_i s2 profile hloc
    have hs2 : all_ok s2 ∧ all_live s2 := by
      split at hloc
      · simp only [Option.map_eq_some'] at hloc
        obtain ⟨t, _, heq⟩ := hloc
        simp only [Prod.mk.injEq] at heq
        obtain ⟨rfl, _⟩ := heq
        exact ⟨hs, all_live_of_eq s _ rfl rfl hl⟩
      · simp only [Option.map_eq_some'] at hloc
        obtain ⟨t, _, heq⟩ := hloc
        simp only [Prod.mk.injEq] at heq
        obtain ⟨rfl, _⟩ := heq
        exact ⟨hs, all_live_of_eq s _ rfl rfl hl⟩
      · simp only [Option.some.injEq, Prod.mk.injEq] at hloc
        obtain ⟨rfl, _⟩ := hloc
        exact ⟨hs, all_live_of_eq s _ rfl rfl hl⟩
    obtain ⟨hok2, hl2⟩ := hs2
    split at h
    · simp at h
    · rename_i s3 status flags hbr
      simp only [Option.some.injEq, Prod.mk.injEq] at h
      obtain ⟨rfl, _⟩ := h
      split at hbr
      · split at hbr <;>
          (simp only [Option.some.injEq, Prod.mk.injEq] at hbr
           obtain ⟨rfl, _⟩ := hbr
           exact all_live_of_eq s2 _ rfl rfl hl2)
      · split at hbr
        · split at hbr
          · simp only [Option.some.injEq, Prod.mk.injEq] at hbr
            obtain ⟨rfl, _⟩ := hbr
            intro ch
            cases ch
            · exact schedule_live_reset _
            · exact hl2 channel.tx
          · simp only [Option.some.injEq, Prod.mk.injEq] at hbr
            obtain ⟨rfl, _⟩ := hbr
            intro ch
            cases ch
            · exact hl2 channel.rx
            · exact schedule_live_reset _
          · simp only [Option.some.injEq, Prod.mk.injEq] at hbr
            obtain ⟨rfl, _⟩ := hbr
            exact all_live_of_eq s2 _ rfl rfl hl2
        · split at hbr
          · simp only [Option.map_eq_some'] at hbr
            obtain ⟨⟨s4, st⟩, hb, heq⟩ := hbr
            simp only [Prod.mk.injEq] at heq
            obtain ⟨rfl, _⟩ := heq
            exact pkt_retune2_trigger_live P _ _ _ _ _ hb hl2
          · simp only [Option.map_eq_some'] at hbr
            obtain ⟨⟨s4, st⟩, hb, heq⟩ := hbr
            simp only [Prod.mk.injEq] at heq
            obtain ⟨rfl, _⟩ := heq
            exact pkt_retune2_plain_live _ _ _ _ _ hb hok2 hl2

theorem event_run_live (P : platform) (s s1 : globals) (e : event)
    (h : e.run P s = some s1) (hs : all_ok s) (hl : all_live s) : all_live s1 := by
  cases e with
  | work_rx ctl now => exact perform_work_rx_live P _ _ _ _ h hs hl
  | work_tx ctl now => exact perform_work_tx_live P _ _ _ _ h hs hl
  | isr_rx => exact retune_rx_live _ _ h hs hl
  | isr_tx => exact retune_tx_live _ _ h hs hl
  | pkt req st en =>
    simp only [event.run, Option.map_eq_some'] at h
    obtain ⟨⟨s2, resp⟩, hp, rfl⟩ := h
    exact pkt_retune2_live P _ _ _ _ _ _ hp hs hl

theorem run_events_live (P : platform) (events : List event) :
    ∀ s s1 : globals, run_events P s events = some s1 → all_ok s → all_live s →
      all_ok s1 ∧ all_live s1 := by
  induction events with
  | nil =>
    intro s s1 h hs hl
    simp only [run_events, Option.some.injEq] at h
    subst h
    exact ⟨hs, hl⟩
  | cons e es ih =>
    intro s s1 h hs hl
    simp only [run_events] at h
    split at h
    · simp at h
    · rename_i s2 he
      exact ih s2 s1 h (event_run_ok P _ _ _ he hs) (event_run_live P _ _ _ he hs hl)

theorem initial_live (s : globals) (h : initial s) : all_live s := by
  obtain ⟨hq, _⟩ := h
  intro ch
  cases ch
  · obtain ⟨q0, h0⟩ := hq queue_id.rx_queue
    simp only [globals.get_queue] at h0
    simp only [globals.schedule_queue, h0]
    exact schedule_live_reset q0
  · obtain ⟨q0, h0⟩ := hq queue_id.tx_queue
    simp only [globals.get_queue] at h0
    simp only [globals.schedule_queue, h0]
    exact schedule_live_reset q0

theorem perform_work_entry_no_error (P : platform) (w w2 : work_state)
    (module : bladerf_module) (sel : queue_sel) (k : Nat) (hk : k < 16)
    (h : perform_work_entry P w module sel k = some w2)
    (hst : ((w.queue_of sel).entries ⟨k, hk⟩).state = ENTRY_STATE_NEW ∨
           ((w.queue_of sel).entries ⟨k, hk⟩).state = ENTRY_STATE_SCHEDULED ∨
           ((w.queue_of sel).entries ⟨k, hk⟩).state = ENTRY_STATE_READY) :
    w2.error_count = w.error_count := by
  unfold perform_work_entry at h
  rw [load_eq_some _ k hk] at h
  simp only at h
  split at h
  · split at h
    · simp at h
    · simp only [Option.some.injEq] at h
      subst h
      cases sel <;> rfl
  · simp only [Option.some.injEq] at h
    subst h
    rfl
  · split at h
    · simp only [Option.map_eq_some'] at h
      obtain ⟨⟨q2, r⟩, _, rfl⟩ := h
      rfl
    · simp only [Option.map_eq_some'] at h
      obtain ⟨q2, _, rfl⟩ := h
      cases sel <;> rfl
  · rename_i hn hs hr
    rcases hst with h1 | h1 | h1
    · exact absurd h1 hn
    · exact absurd h1 hs
    · exact absurd h1 hr


/-- C21: in every state reached from an initial state by `perform_work` calls,
timer interrupts and `pkt_retune2` requests, run one at a time, every entry in
use of the schedule queue of a channel (offsets `0 .. count - 1` from
`rem_idx`) is New, Scheduled or Ready, and every one other than the head is
New. Hence whenever the coordinator step of a `perform_work` tick takes its
active entry from the schedule queue, that entry is the head, it is New,
Scheduled or Ready, and the tick returns without counting an error: the
default arm of the entry dispatch is not taken. -/
theorem schedule_entries_live (P : platform) (s0 s : globals) (events : List event)
    (ch : channel) (h0 : initial s0) (hrun : run_events P s0 events = some s) :
    (∀ i, i < (s.schedule_queue ch).count →
      ((((s.schedule_queue ch).visited i).state = ENTRY_STATE_NEW ∨
        ((s.schedule_queue ch).visited i).state = ENTRY_STATE_SCHEDULED ∨
        ((s.schedule_queue ch).visited i).state = ENTRY_STATE_READY) ∧
       (i ≠ 0 → ((s.schedule_queue ch).visited i).state = ENTRY_STATE_NEW))) ∧
    (∀ trigger_ctl now w1 k,
      perform_work_trigger (s.work ch) trigger_ctl now
          = some (w1, some (queue_sel.schedule, k)) →
      ∃ hk : k < 16,
        k = (s.schedule_queue ch).rem_idx ∧
        (((s.schedule_queue ch).entries ⟨k, hk⟩).state = ENTRY_STATE_NEW ∨
         ((s.schedule_queue ch).entries ⟨k, hk⟩).state = ENTRY_STATE_SCHEDULED ∨
         ((s.schedule_queue ch).entries ⟨k, hk⟩).state = ENTRY_STATE_READY) ∧
        ∃ w2, perform_work P (s.work ch) ch.module trigger_ctl now = some w2 ∧
          w2.error_count = (s.work ch).error_count) := by
  obtain ⟨hok, hl⟩ := run_events_live P events s0 s hrun (initial_ok s0 h0) (initial_live s0 h0)
  refine ⟨hl ch, ?_⟩
  intro trigger_ctl now w1 k htr
  obtain ⟨hk, hcnt, _⟩ := perform_work_trigger_schedule _ _ _ _ _ htr
  obtain ⟨hfr, _, herr, _⟩ := perform_work_trigger_frame _ _ _ _ _ htr
  have hwq : (s.work ch).schedule_queue = s.schedule_queue ch := by cases ch <;> rfl
  have hqok : queue_ok (s.schedule_queue ch) := by
    cases ch
    · exact hok.1
    · exact hok.2.1
  rw [hwq] at hk hcnt
  have hrem : (s.schedule_queue ch).rem_idx < 16 := hqok.2.2.1
  have hk16 : k < 16 := by rw [hk]; exact hrem
  have hst0 := (hl ch 0 (Nat.pos_of_ne_zero hcnt)).1
  rw [visited_eq,
    entries_congr (s.schedule_queue ch) _ k (Nat.mod_lt _ (by decide)) hk16 (by omega)] at hst0
  have hm : ch.module ≠ BLADERF_MODULE_OTHER := by
    cases ch <;> (intro hc; cases hc)
  have hq1 : w1.queue_of queue_sel.schedule = s.schedule_queue ch := by
    show w1.schedule_queue = _
    rw [hfr, hwq]
  obtain ⟨w2, hw2⟩ := perform_work_entry_defined P w1 ch.module queue_sel.schedule k hk16
    (by rw [hfr, hwq]; exact hrem)
  refine ⟨hk16, hk, hst0, w2, ?_, ?_⟩
  · rw [perform_work_eq_entry P _ w1 ch.module trigger_ctl now queue_sel.schedule k hm htr]
    exact hw2
  · rw [← herr]
    exact perform_work_entry_no_error P w1 w2 ch.module queue_sel.schedule k hk16 hw2
      (by rw [hq1]; exact hst0)

/-- Witness of C21: a plain request for RX and one tick from the start state;
the RX schedule queue holds one entry, Scheduled. -/
theorem schedule_entries_live_witness :
    initial zero_globals ∧
    ∃ s, run_events sample_platform zero_globals
          [event.pkt rx_plain_request 0 0, event.work_rx 0 0] = some s ∧
      (s.schedule_queue channel.rx).count = 1 ∧
      ((s.schedule_queue channel.rx).visited 0).state = ENTRY_STATE_SCHEDULED ∧
      (∀ i, i < (s.schedule_queue channel.rx).count →
        ((((s.schedule_queue channel.rx).visited i).state = ENTRY_STATE_NEW ∨
          ((s.schedule_queue channel.rx).visited i).state = ENTRY_STATE_SCHEDULED ∨
          ((s.schedule_queue channel.rx).visited i).state = ENTRY_STATE_READY) ∧
         (i ≠ 0 → ((s.schedule_queue channel.rx).visited i).state = ENTRY_STATE_NEW))) :=
  ⟨initial_zero_globals, _, rfl, rfl, rfl,
   (schedule_entries_live sample_platform zero_globals _
      [event.pkt rx_plain_request 0 0, event.work_rx 0 0] channel.rx
      initial_zero_globals rfl).1⟩

end Retune2
